import Mathlib

/-!
UCVM / CVM-S4.26.M01 perturbation-grid query engine

A shallow embedding of `cvmsi_utils.c`, `cvmsi.c` and `ucvm_model_cvmsi.c`,
with `cvmlt_version` and `cvmlt_nafe_drake_rho` of the sibling model `cvmlt`.

Conventions of the embedding:

* C `float` and `double` values are modelled as rationals (`ℚ`), i.e. the
  arithmetic is exact: no rounding, no infinities, no NaN.  A decimal constant
  such as `283.637` is the rational `283637/1000`.  Two places of `cvmsi_query`
  where this would change the branch that is taken are modelled closer to the
  machine: the `float` sum in the test of line 409 is rounded to binary32
  (`binary32`), and the quotient in the re-check of line 419 follows IEEE 754
  when the divisor is zero (`float_div_lt`).
* C `int` values are modelled as integers (`ℤ`).  The flat offset into the
  perturbation volume and the number of its cells are computed in 32-bit `int`
  arithmetic (`int32`).
* C arrays reached through a pointer are functions from the index to the
  element; a store `a[i] = v` is `Function.update`-like overwriting of one index.
* Fortran and library routines that are only declared in the sources
  (`cvms_query_`, `cvmsi_geo2xy_`, `region_contains_null`, ...) are parameters.
-/

namespace UCVM

/-! ## cvmsi_utils.c : interpolation primitives -/

/-- Interpolate point linearly between two 1d values (`cvmsi_interp_linear`). -/
def cvmsi_interp_linear (v1 v2 ratio : ℚ) : ℚ :=
  ratio * v2 + v1 * (1 - ratio)

/-- Interpolate point bilinearly between four corners (`cvmsi_interp_bilinear`). -/
def cvmsi_interp_bilinear (x y x1 y1 x2 y2 q11 q21 q12 q22 : ℚ) : ℚ :=
  let p := (x2 - x1) * (y2 - y1)
  let f1 := (q11 / p) * (x2 - x) * (y2 - y)
  let f2 := (q21 / p) * (x - x1) * (y2 - y)
  let f3 := (q12 / p) * (x2 - x) * (y - y1)
  let f4 := (q22 / p) * (x - x1) * (y - y1)
  f1 + f2 + f3 + f4

/-- Interpolate point tri-linearly between 8 cube corners
(`cvmsi_interp_trilinear`).  Points are indexed `p[ll,ur][x,y,z]`, `q` is
indexed `q[z][y][x]`. -/
def cvmsi_interp_trilinear (x y z : ℚ) (p : Fin 2 → Fin 3 → ℚ)
    (q : Fin 2 → Fin 2 → Fin 2 → ℚ) : ℚ :=
  let c0 := cvmsi_interp_bilinear x y (p 0 0) (p 0 1) (p 1 0) (p 1 1)
    (q 0 0 0) (q 0 0 1) (q 0 1 0) (q 0 1 1)
  let c1 := cvmsi_interp_bilinear x y (p 0 0) (p 0 1) (p 1 0) (p 1 1)
    (q 1 0 0) (q 1 0 1) (q 1 1 0) (q 1 1 1)
  let ratio := (z - p 0 2) / (p 1 2 - p 0 2)
  cvmsi_interp_linear c0 c1 ratio

/-- The cube `p` set up by `firstTest` and by `cvmsi_query`:
`p[0] = (0,0,0)`, `p[1] = (1,1,1)`. -/
def unit_cube : Fin 2 → Fin 3 → ℚ :=
  ![![0, 0, 0], ![1, 1, 1]]

/-- The corner table `q` of `firstTest` in `unittest.c`. -/
def firstTest_q : Fin 2 → Fin 2 → Fin 2 → ℚ :=
  ![![![0, 1], ![0, 1]], ![![1, 0], ![0, 1]]]

/-- Weight of corner `a` on one axis in the textbook trilinear formula:
`w_0(t) = 1 - t`, `w_1(t) = t`. -/
def trilinear_weight (a : Fin 2) (t : ℚ) : ℚ :=
  if a = 0 then 1 - t else t

/-- The textbook trilinear formula, written from the specification's words:
the sum over `a, b, c ∈ {0,1}` of `q[c][b][a] * w_a(x) * w_b(y) * w_c(z)`. -/
def trilinear_spec (x y z : ℚ) (q : Fin 2 → Fin 2 → Fin 2 → ℚ) : ℚ :=
  ∑ c : Fin 2, ∑ b : Fin 2, ∑ a : Fin 2,
    q c b a * trilinear_weight a x * trilinear_weight b y * trilinear_weight c z

/-! ## cvmsi.h : data types -/

/-- Point structure (`cvmsi_point_t`): `coord[0..2]` is lon, lat, depth. -/
structure cvmsi_point_t where
  coord : Fin 3 → ℚ

/-- Index structure (`cvmsi_index_t`). -/
structure cvmsi_index_t where
  coord : Fin 3 → ℤ

/-- Full property structure (`cvmsi_prop_t`). -/
structure cvmsi_prop_t where
  vp : ℚ
  vs : ℚ
  rho : ℚ
  diff_vp : ℚ
  diff_vs : ℚ
  diff_rho : ℚ

/-- Property structure for read-in (`cvmsi_prop_read_t`). -/
structure cvmsi_prop_read_t where
  vp : ℚ
  vs : ℚ

/-- Return data structure (`cvmsi_data_t`). -/
structure cvmsi_data_t where
  xyz : cvmsi_index_t
  prop : cvmsi_prop_t

/-! ## cvmsi.c : module state, build flags and external routines -/

/-- The `#define ADD_GTL / ADD_ALT_GTL / ADD_ROB_GTL / ADD_TJ_GTL` switches of
`cvmsi.c`. -/
structure cvmsi_flags where
  ADD_GTL : Bool
  ADD_ALT_GTL : Bool
  ADD_ROB_GTL : Bool
  ADD_TJ_GTL : Bool

/-- The switches as they are set in `cvmsi.c`: only `ADD_TJ_GTL` is 1. -/
def cvmsi_build_flags : cvmsi_flags :=
  ⟨false, false, false, true⟩

/-- The "Model config" globals of `cvmsi.c`.  `cvmsi_buf` is the perturbation
volume, addressed by the flat offset. -/
structure cvmsi_state where
  cvmsi_init_flag : ℤ
  cvmsi_izone : ℤ
  cvmsi_dim : Fin 3 → ℤ
  cvmsi_buf : ℤ → cvmsi_prop_read_t
  cvmsi_box : Fin 8 → ℚ
  cvmsi_zgrid : ℕ → ℚ

/-- Output arrays `alpha`, `beta`, `rho` of the base model `cvms_query_`. -/
structure cvms_result where
  vp : ℕ → ℚ
  vs : ℕ → ℚ
  rho : ℕ → ℚ

/-- Outputs `coords`, `errcode` of `cvmsi_geo2xy_`. -/
structure geo2xy_result where
  coords : Fin 3 → ℚ
  errcode : ℤ

/-- Modelled from the spec: the entry record of the geotechnical-layer model
(`vs30_gtl.h` is not part of the sources); only the fields that `cvmsi_query`
assigns or reads. -/
structure gtl_entry_t where
  coor_utm : Fin 3 → ℚ
  depth : ℚ
  topo_gap : ℚ
  vp : ℚ
  vs : ℚ
  rho : ℚ

/-- Routines that `cvmsi.c` calls but does not define, and the content of
freshly allocated memory.

* `cvms_query_ nn lon lat dep` : the base model (CVM-S4), batched;
* `cvmsi_geo2xy_ dims box zgrid lat lon dep izone` : geodetic to grid coordinates;
* `utm_geo_ lon lat zone iway` : projection to UTM;
* `gtl_interp entry` : the geotechnical layer, returning the entry as it leaves it;
* `malloc_diff_rho counter` : the value found in `curData->prop.diff_rho`, a
  field of the allocated record that `cvmsi_query` never assigns. -/
structure cvmsi_externals where
  cvms_query_ : ℕ → (ℕ → ℚ) → (ℕ → ℚ) → (ℕ → ℚ) → cvms_result
  cvmsi_geo2xy_ : (Fin 3 → ℤ) → (Fin 8 → ℚ) → (ℕ → ℚ) → ℚ → ℚ → ℚ → ℤ → geo2xy_result
  utm_geo_ : ℚ → ℚ → ℤ → ℤ → ℚ × ℚ
  gtl_interp : gtl_entry_t → gtl_entry_t
  malloc_diff_rho : ℕ → ℚ

/-- C `round` followed by the conversion to `int`: nearest integer, halves
away from zero. -/
def c_round (x : ℚ) : ℤ :=
  if 0 ≤ x then ⌊x + 1 / 2⌋ else ⌈x - 1 / 2⌉

/-- C cast `(int)x` of a floating value: truncation toward zero. -/
def c_int (x : ℚ) : ℤ :=
  if 0 ≤ x then ⌊x⌋ else ⌈x⌉

/-! ### Calibration constants of `cvmsi_query` -/

/-- `min_vp` -/
def min_vp : ℚ := 2000
/-- `corner_vp` -/
def corner_vp : ℚ := 3000
/-- `min_vs` -/
def min_vs : ℚ := 1000
/-- `corner_vs` -/
def corner_vs : ℚ := 1500
/-- `min_rho` -/
def min_rho : ℚ := 2000
/-- `corner_rho` -/
def corner_rho : ℚ := 2300
/-- `min_cvms_vs` -/
def min_cvms_vs : ℚ := 100
/-- `min_cvms_vp` -/
def min_cvms_vp : ℚ := 283.637
/-- `min_cvms_rho` -/
def min_cvms_rho : ℚ := 1909.786

/-- The corrected base sample `cvms_vp_calc`, `cvms_vs_calc`, `cvms_rho_calc`. -/
structure cvms_calc_t where
  vp : ℚ
  vs : ℚ
  rho : ℚ

/-- Lines 364-382 of `cvmsi_query`: from the base sample
`cvms_vp[counter]`, `cvms_vs[counter]`, `cvms_rho[counter]`, clamp to the
floors, apply the corner correction, fix negative Lambda. -/
def cvms_calc (cvms_vp cvms_vs cvms_rho : ℚ) : cvms_calc_t :=
  let cvms_vs_calc := cvms_vs
  let cvms_vp_calc := cvms_vp
  let cvms_rho_calc := cvms_rho
  let cvms_vs_calc := if cvms_vs_calc < min_cvms_vs then min_cvms_vs else cvms_vs_calc
  let cvms_vp_calc := if cvms_vp_calc < min_cvms_vp then min_cvms_vp else cvms_vp_calc
  let cvms_rho_calc := if cvms_rho_calc < min_cvms_rho then min_cvms_rho else cvms_rho_calc
  let cvms_vp_calc :=
    if cvms_vp_calc < corner_vp then
      (corner_vp * (min_vp - min_cvms_vp) + cvms_vp_calc * (corner_vp - min_vp))
        / (corner_vp - min_cvms_vp)
    else cvms_vp_calc
  let cvms_vs_calc :=
    if cvms_vs_calc < corner_vs then
      (corner_vs * (min_vs - min_cvms_vs) + cvms_vs_calc * (corner_vs - min_vs))
        / (corner_vs - min_cvms_vs)
    else cvms_vs_calc
  let cvms_rho_calc :=
    if cvms_rho_calc < corner_rho then
      (corner_rho * (min_rho - min_cvms_rho) + cvms_rho_calc * (corner_rho - min_rho))
        / (corner_rho - min_cvms_rho)
    else cvms_rho_calc
  let cvms_vs_calc :=
    if cvms_vp_calc / cvms_vs_calc < 1.45 then cvms_vp_calc / 1.45 else cvms_vs_calc
  ⟨cvms_vp_calc, cvms_vs_calc, cvms_rho_calc⟩

/-- The value of an `int` expression whose mathematical value is `n`: the
representative of `n` modulo `2 ^ 32` in `[-2 ^ 31, 2 ^ 31)`, which is what the
compiled code leaves in a 32-bit `int` when a product or a sum overflows. -/
def int32 (n : ℤ) : ℤ :=
  (n + 2147483648) % 4294967296 - 2147483648

/-- Lines 321-337 of `cvmsi_query`: the flat offset into `cvmsi_buf` of the
corner `(x,y,z)` of the cell that holds the fractional grid coordinate
`xyz_f`; an index that would reach the dimension falls back to the base index.
`offset` and `cvmsi_dim` are `int`: every product and sum of
`(k * cvmsi_dim[0] * cvmsi_dim[1]) + (j * cvmsi_dim[0]) + i` is an `int`. -/
def corner_offset (cvmsi_dim : Fin 3 → ℤ) (xyz_f : Fin 3 → ℚ) (x y z : Fin 2) : ℤ :=
  let i := c_int (xyz_f 0) + (x.val : ℤ)
  let j := c_int (xyz_f 1) + (y.val : ℤ)
  let k := c_int (xyz_f 2) + (z.val : ℤ)
  let i := if i ≥ cvmsi_dim 0 then c_int (xyz_f 0) else i
  let j := if j ≥ cvmsi_dim 1 then c_int (xyz_f 1) else j
  let k := if k ≥ cvmsi_dim 2 then c_int (xyz_f 2) else k
  int32 (int32 (int32 (int32 (k * cvmsi_dim 0) * cvmsi_dim 1) + int32 (j * cvmsi_dim 0)) + i)

/-! ### Single precision

`cvms_vs[counter]` and `curData->prop.diff_vs` are `float` objects, and their
sum in the test of line 409 is a `float` (binary32, `FLT_EVAL_METHOD` 0): a
negative `diff_vs` that is too small to change the sum (for `900`, one of
magnitude below `1/32768`) is absorbed by the rounding, and the test then
takes the other branch.  The rounding of that sum is therefore part of the
model.  In the Lambda fix of line 382 the divisor is at least 1000, and the
tests of the Directional policy compare stored values without arithmetic. -/

/-- Round to the nearest integer, ties to the even one. -/
def round_half_even (x : ℚ) : ℤ :=
  if x - ⌊x⌋ < 1 / 2 then ⌊x⌋
  else if 1 / 2 < x - ⌊x⌋ then ⌊x⌋ + 1
  else if ⌊x⌋ % 2 = 0 then ⌊x⌋ else ⌊x⌋ + 1

/-- The number of halvings that bring `n` below 2, at most `fuel` of them. -/
def halvings : ℕ → ℕ → ℕ
  | 0, _ => 0
  | fuel + 1, n => if n < 2 then 0 else halvings fuel (n / 2) + 1

/-- The integer part of the binary logarithm of `n ≥ 1`. -/
def ilog2 (n : ℕ) : ℕ :=
  halvings n n

/-- The exponent `e` of the binary32 numbers around `x`: `2 ^ e ≤ |x| <
2 ^ (e + 1)`, and `-126`, the exponent of the subnormal numbers, when `|x|` is
below `2 ^ (-126)`. -/
def binary32_exponent (x : ℚ) : ℤ :=
  if 1 ≤ |x| then (ilog2 ⌊|x|⌋₊ : ℤ)
  else max (-126) (-((ilog2 (⌈|x|⁻¹⌉₊ - 1) : ℤ) + 1))

/-- The binary32 number nearest to `x`, ties to the even significand (IEEE 754
round-to-nearest): the multiples of `2 ^ (e - 23)` are the binary32 numbers of
exponent `e`.  It is the value of a `float` operation whose exact result is
`x`, and it is `x` itself when `x` is a binary32 number.  Overflow to infinity
(`|x| ≥ 2 ^ 128`) is not modelled. -/
def binary32 (x : ℚ) : ℚ :=
  (round_half_even (x / 2 ^ (binary32_exponent x - 23)) : ℚ) * 2 ^ (binary32_exponent x - 23)

/-- The test `a / b < c` on floating operands, `c` finite.  For `b ≠ 0` the
quotient is compared.  For `b = 0` the quotient of IEEE 754 is `-inf` when
`a < 0`, `+inf` when `a > 0` and NaN when `a = 0`, and of these only `-inf` is
below `c` (a zero divisor is taken as `+0`, which is what a sum of two `float`
values gives unless both are `-0`). -/
def float_div_lt (a b c : ℚ) : Bool :=
  if b = 0 then decide (a < 0) else decide (a / b < c)

/-- Lines 388-433 of `cvmsi_query`: combine the base sample, the corrected base
sample and the perturbation already stored in `curData->prop.diff_vp/diff_vs`,
under the policy selected by the build flags.  In the test of line 409 the sum
of the two `float` operands is rounded to binary32; in the re-check of line
419 a zero divisor follows IEEE 754. -/
def cvmsi_blend (fl : cvmsi_flags) (cvms_vp cvms_vs cvms_rho : ℚ) (corr : cvms_calc_t)
    (prop : cvmsi_prop_t) : cvmsi_prop_t :=
  if fl.ADD_ALT_GTL then
    let prop :=
      if (cvms_vs < corr.vs ∧ prop.diff_vs < 0) ∨ (cvms_vs > corr.vs ∧ prop.diff_vs > 0) then
        { prop with vs := cvms_vs }
      else
        { prop with vs := corr.vs + prop.diff_vs }
    let prop :=
      if (cvms_vp < corr.vp ∧ prop.diff_vp < 0) ∨ (cvms_vp > corr.vp ∧ prop.diff_vp > 0) then
        { prop with vp := cvms_vp }
      else
        { prop with vp := corr.vp + prop.diff_vp }
    { prop with rho := corr.rho }
  else if fl.ADD_TJ_GTL then
    if cvms_vs < 1000 then
      if binary32 (cvms_vs + prop.diff_vs) < binary32 cvms_vs then
        { prop with vs := cvms_vs, vp := cvms_vp, rho := cvms_rho }
      else
        let prop := { prop with vs := cvms_vs + prop.diff_vs,
                                vp := cvms_vp + prop.diff_vp,
                                rho := cvms_rho }
        if float_div_lt prop.vp prop.vs 1.45 then { prop with vp := prop.vs * 1.45 } else prop
    else
      { prop with vs := corr.vs + prop.diff_vs,
                  vp := corr.vp + prop.diff_vp,
                  rho := corr.rho }
  else
    { prop with vs := corr.vs, vp := corr.vp, rho := corr.rho }

/-- Lines 317-357 of `cvmsi_query`: `diff_vp`, the trilinear interpolation of
the `vp` perturbations at the eight corners around `xyz_f`. -/
def cvmsi_diff_vp (st : cvmsi_state) (xyz_f : Fin 3 → ℚ) : ℚ :=
  let p : Fin 2 → Fin 3 → ℚ := ![![0, 0, 0], ![1, 1, 1]]
  let q_vp : Fin 2 → Fin 2 → Fin 2 → ℚ := fun z y x =>
    (st.cvmsi_buf (corner_offset st.cvmsi_dim xyz_f x y z)).vp
  cvmsi_interp_trilinear (xyz_f 0 - (c_int (xyz_f 0) : ℚ)) (xyz_f 1 - (c_int (xyz_f 1) : ℚ))
    (xyz_f 2 - (c_int (xyz_f 2) : ℚ)) p q_vp

/-- Lines 317-362 of `cvmsi_query`: `diff_vs`, the trilinear interpolation of
the `vs` perturbations at the eight corners around `xyz_f`. -/
def cvmsi_diff_vs (st : cvmsi_state) (xyz_f : Fin 3 → ℚ) : ℚ :=
  let p : Fin 2 → Fin 3 → ℚ := ![![0, 0, 0], ![1, 1, 1]]
  let q_vs : Fin 2 → Fin 2 → Fin 2 → ℚ := fun z y x =>
    (st.cvmsi_buf (corner_offset st.cvmsi_dim xyz_f x y z)).vs
  cvmsi_interp_trilinear (xyz_f 0 - (c_int (xyz_f 0) : ℚ)) (xyz_f 1 - (c_int (xyz_f 1) : ℚ))
    (xyz_f 2 - (c_int (xyz_f 2) : ℚ)) p q_vs

/-- Lines 265-274 of `cvmsi_query`: the depth array `cvmsdep` handed to the
base model and to the coordinate transform. -/
def cvmsdep (fl : cvmsi_flags) (pnt : ℕ → cvmsi_point_t) : ℕ → ℚ :=
  fun i =>
    if fl.ADD_GTL then
      (if (pnt i).coord 2 < 350 then 350 else (pnt i).coord 2)
    else (pnt i).coord 2

/-- Line 276 of `cvmsi_query`: the arrays `cvms_vp`, `cvms_vs`, `cvms_rho`
filled by the base model for the whole batch. -/
def cvms_base (fl : cvmsi_flags) (ext : cvmsi_externals) (pnt : ℕ → cvmsi_point_t)
    (numpts : ℕ) : cvms_result :=
  ext.cvms_query_ numpts (fun i => (pnt i).coord 0) (fun i => (pnt i).coord 1) (cvmsdep fl pnt)

/-- Lines 292-300 of `cvmsi_query`: the call of `cvmsi_geo2xy_` for point
`counter`. -/
def cvmsi_geo (fl : cvmsi_flags) (ext : cvmsi_externals) (st : cvmsi_state)
    (pnt : ℕ → cvmsi_point_t) (counter : ℕ) : geo2xy_result :=
  ext.cvmsi_geo2xy_ st.cvmsi_dim st.cvmsi_box st.cvmsi_zgrid
    ((pnt counter).coord 1) ((pnt counter).coord 0) (cvmsdep fl pnt counter) st.cvmsi_izone

/-- One iteration of the `counter` loop of `cvmsi_query` (lines 279-478): the
record that is copied to `data[counter]`; `cvms` holds the base model's
arrays. -/
def cvmsi_query_point (fl : cvmsi_flags) (ext : cvmsi_externals) (st : cvmsi_state)
    (pnt : ℕ → cvmsi_point_t) (cvms : cvms_result) (counter : ℕ) : cvmsi_data_t :=
  let curData : cvmsi_data_t :=
    ⟨⟨![-1, -1, -1]⟩, ⟨0, 0, 0, 0, 0, ext.malloc_diff_rho counter⟩⟩
  let geo := cvmsi_geo fl ext st pnt counter
  let xyz_f := geo.coords
  let curData : cvmsi_data_t :=
    if geo.errcode = 0 then
      let xyz : cvmsi_index_t := ⟨![c_round (xyz_f 0), c_round (xyz_f 1), c_round (xyz_f 2)]⟩
      let prop := { curData.prop with diff_vp := cvmsi_diff_vp st xyz_f }
      let prop := { prop with diff_vs := cvmsi_diff_vs st xyz_f }
      let corr := cvms_calc (cvms.vp counter) (cvms.vs counter) (cvms.rho counter)
      ⟨xyz, cvmsi_blend fl (cvms.vp counter) (cvms.vs counter) (cvms.rho counter) corr prop⟩
    else
      { curData with prop := { curData.prop with vp := cvms.vp counter,
                                                 vs := cvms.vs counter,
                                                 rho := cvms.rho counter } }
  if fl.ADD_GTL then
    let utm := ext.utm_geo_ ((pnt counter).coord 0) ((pnt counter).coord 1) 11 0
    let entry : gtl_entry_t :=
      ⟨![utm.1, utm.2, -350], (pnt counter).coord 2, 0,
        curData.prop.vp, curData.prop.vs, curData.prop.rho⟩
    let entry := ext.gtl_interp entry
    { curData with prop := { curData.prop with vs := entry.vs, vp := entry.vp,
                                               rho := entry.rho } }
  else
    curData

/-- Query (`cvmsi_query`) under given build flags: the return code and the
caller's array `data` after the call. -/
def cvmsi_query_flags (fl : cvmsi_flags) (ext : cvmsi_externals) (st : cvmsi_state)
    (pnt : ℕ → cvmsi_point_t) (data : ℕ → cvmsi_data_t) (numpts : ℕ) :
    ℤ × (ℕ → cvmsi_data_t) :=
  if st.cvmsi_init_flag = 0 then
    (1, data)
  else
    let cvms := cvms_base fl ext pnt numpts
    (0, (List.range numpts).foldl
      (fun data counter =>
        Function.update data counter (cvmsi_query_point fl ext st pnt cvms counter))
      data)

/-- Query (`cvmsi_query`) as built from `cvmsi.c`. -/
def cvmsi_query (ext : cvmsi_externals) (st : cvmsi_state)
    (pnt : ℕ → cvmsi_point_t) (data : ℕ → cvmsi_data_t) (numpts : ℕ) :
    ℤ × (ℕ → cvmsi_data_t) :=
  cvmsi_query_flags cvmsi_build_flags ext st pnt data numpts

/-! ## ucvm_model_cvmsi.c : the batch adapter -/

/-- Modelled from the spec: the status codes of `ucvm_dtypes.h` (not part of
the sources) that `ucvm_cvmsi_model_query` returns: success, hard error,
partial data gap. -/
inductive ucvm_code_t where
  | UCVM_CODE_SUCCESS
  | UCVM_CODE_ERROR
  | UCVM_CODE_DATAGAP
  deriving DecidableEq, Repr

/-- Modelled from the spec: the coordinate modes of `ucvm_dtypes.h` (not part
of the sources); the two modes the query accepts, and any other mode. -/
inductive ucvm_ctype_t where
  | UCVM_COORD_GEO_DEPTH
  | UCVM_COORD_GEO_ELEV
  | UCVM_COORD_OTHER
  deriving DecidableEq, Repr

/-- Modelled from the spec: the domain tags of `ucvm_dtypes.h` (not part of
the sources); the two tags that request this model, and the other tags. -/
inductive ucvm_domain_t where
  | UCVM_DOMAIN_NONE
  | UCVM_DOMAIN_GTL
  | UCVM_DOMAIN_INTERP
  | UCVM_DOMAIN_CRUST
  deriving DecidableEq, Repr

/-- Modelled from the spec: `ucvm_point_t` of `ucvm_dtypes.h` (not part of the
sources), a coordinate triple. -/
structure ucvm_point_t where
  coord : Fin 3 → ℚ

/-- Modelled from the spec: `ucvm_prop_t` of `ucvm_dtypes.h` (not part of the
sources): the source-ownership marker and the material properties. -/
structure ucvm_prop_t where
  source : ℤ
  vp : ℚ
  vs : ℚ
  rho : ℚ
  deriving DecidableEq

/-- Modelled from the spec: `ucvm_data_t` of `ucvm_dtypes.h` (not part of the
sources), restricted to the fields that `ucvm_cvmsi_model_query` reads or
writes. -/
structure ucvm_data_t where
  depth : ℚ
  domain : ucvm_domain_t
  shift_cr : ℚ
  crust : ucvm_prop_t
  deriving DecidableEq

/-- What `ucvm_model_cvmsi.c` takes from elsewhere: the marker
`UCVM_SOURCE_NONE`, and `region_contains_null` applied to the configured
region `ucvm_cvmsi_conf.region`. -/
structure ucvm_externals where
  UCVM_SOURCE_NONE : ℤ
  region_contains_null : ucvm_ctype_t → ucvm_point_t → Bool

/-- Maximum number of points to query (`CVMSI_MAX_POINTS`). -/
def CVMSI_MAX_POINTS : ℕ := 1000000

/-- Globals of `ucvm_model_cvmsi.c` that the query uses: the model id and the
two query buffers. -/
structure ucvm_cvmsi_state where
  ucvm_cvmsi_id : ℤ
  pntBuffer : ℕ → cvmsi_point_t
  dataBuffer : ℕ → cvmsi_data_t

/-- Local variables and memory of the main loop of `ucvm_cvmsi_model_query`. -/
structure query_loop_t where
  nn : ℕ
  maxPtsTimes : ℕ
  datagap : ℤ
  pntBuffer : ℕ → cvmsi_point_t
  dataBuffer : ℕ → cvmsi_data_t
  data : ℕ → ucvm_data_t

/-- The write-back loops (lines 176-181 and 201-206): for `j < nn`, the slot
`data[(maxPtsTimes * max_points) + j]` receives the model id and
`dataBuffer[j].prop.vp/vs/rho`. -/
def write_back (ucvm_cvmsi_id : ℤ) (max_points maxPtsTimes nn : ℕ)
    (dataBuffer : ℕ → cvmsi_data_t) (data : ℕ → ucvm_data_t) : ℕ → ucvm_data_t :=
  (List.range nn).foldl
    (fun data j =>
      Function.update data ((maxPtsTimes * max_points) + j)
        { data ((maxPtsTimes * max_points) + j) with
          crust := ⟨ucvm_cvmsi_id, (dataBuffer j).prop.vp, (dataBuffer j).prop.vs,
                    (dataBuffer j).prop.rho⟩ })
    data

/-- The test of lines 154-158: the slot is unowned, the domain tag requests
this model, and the point is inside the configured region. -/
def point_selected (ue : ucvm_externals) (cmode : ucvm_ctype_t) (pnt : ℕ → ucvm_point_t)
    (data : ℕ → ucvm_data_t) (i : ℕ) : Bool :=
  decide ((data i).crust.source = ue.UCVM_SOURCE_NONE) &&
  (decide ((data i).domain = ucvm_domain_t.UCVM_DOMAIN_INTERP) ||
   decide ((data i).domain = ucvm_domain_t.UCVM_DOMAIN_CRUST)) &&
  ue.region_contains_null cmode (pnt i)

/-- Body of the `for (i = 0; i < n; i++)` loop of `ucvm_cvmsi_model_query`
(lines 154-195), with the buffer capacity `max_points` in the place of
`CVMSI_MAX_POINTS`. -/
def query_loop_body (ue : ucvm_externals) (ext : cvmsi_externals) (cst : cvmsi_state)
    (ucvm_cvmsi_id : ℤ) (max_points : ℕ) (cmode : ucvm_ctype_t) (pnt : ℕ → ucvm_point_t)
    (s : query_loop_t) (i : ℕ) : query_loop_t :=
  if point_selected ue cmode pnt s.data i then
    let depth := (s.data i).depth + (s.data i).shift_cr
    if depth ≥ 0 then
      let s := { s with pntBuffer := Function.update s.pntBuffer s.nn
                          ⟨![(pnt i).coord 0, (pnt i).coord 1, depth]⟩ }
      let s := { s with nn := s.nn + 1 }
      if s.nn = max_points then
        let s := { s with dataBuffer := (cvmsi_query ext cst s.pntBuffer s.dataBuffer s.nn).2 }
        let s := { s with data := write_back ucvm_cvmsi_id max_points s.maxPtsTimes s.nn
                                    s.dataBuffer s.data }
        { s with nn := 0, maxPtsTimes := s.maxPtsTimes + 1 }
      else
        s
    else
      { s with datagap := 1 }
  else
    if (s.data i).crust.source = ue.UCVM_SOURCE_NONE then
      { s with datagap := 1 }
    else
      s

/-- Query CVM-SI (`ucvm_cvmsi_model_query`) with the buffer capacity as a
parameter: the returned code and the caller's array `data` after the call. -/
def ucvm_cvmsi_model_query_cap (max_points : ℕ) (ue : ucvm_externals) (ext : cvmsi_externals)
    (cst : cvmsi_state) (ust : ucvm_cvmsi_state) (id : ℤ) (cmode : ucvm_ctype_t) (n : ℕ)
    (pnt : ℕ → ucvm_point_t) (data : ℕ → ucvm_data_t) :
    ucvm_code_t × (ℕ → ucvm_data_t) :=
  if id ≠ ust.ucvm_cvmsi_id then
    (ucvm_code_t.UCVM_CODE_ERROR, data)
  else
    match cmode with
    | ucvm_ctype_t.UCVM_COORD_OTHER => (ucvm_code_t.UCVM_CODE_ERROR, data)
    | _ =>
      let s : query_loop_t := ⟨0, 0, 0, ust.pntBuffer, ust.dataBuffer, data⟩
      let s := (List.range n).foldl
        (query_loop_body ue ext cst ust.ucvm_cvmsi_id max_points cmode pnt) s
      let s :=
        if s.nn > 0 then
          let s := { s with dataBuffer :=
                              (cvmsi_query ext cst s.pntBuffer s.dataBuffer s.nn).2 }
          { s with data := write_back ust.ucvm_cvmsi_id max_points s.maxPtsTimes s.nn
                             s.dataBuffer s.data }
        else s
      if s.datagap ≠ 0 then
        (ucvm_code_t.UCVM_CODE_DATAGAP, s.data)
      else
        (ucvm_code_t.UCVM_CODE_SUCCESS, s.data)

/-- Query CVM-SI (`ucvm_cvmsi_model_query`), buffers of `CVMSI_MAX_POINTS`
entries. -/
def ucvm_cvmsi_model_query (ue : ucvm_externals) (ext : cvmsi_externals)
    (cst : cvmsi_state) (ust : ucvm_cvmsi_state) (id : ℤ) (cmode : ucvm_ctype_t) (n : ℕ)
    (pnt : ℕ → ucvm_point_t) (data : ℕ → ucvm_data_t) :
    ucvm_code_t × (ℕ → ucvm_data_t) :=
  ucvm_cvmsi_model_query_cap CVMSI_MAX_POINTS ue ext cst ust id cmode n pnt data

/-! ## Concrete inputs used to evaluate the code -/

/-- A base model that answers `(vp, vs, rho)` at every point, a coordinate
transform that answers the cell centre `(1/2, 1/2, 1/2)` with the given error
code, an identity geotechnical layer, and zero-filled fresh memory. -/
def demo_externals (vp vs rho : ℚ) (errcode : ℤ) : cvmsi_externals :=
  ⟨fun _ _ _ _ => ⟨fun _ => vp, fun _ => vs, fun _ => rho⟩,
   fun _ _ _ _ _ _ _ => ⟨fun _ => 1 / 2, errcode⟩,
   fun _ _ _ _ => (0, 0),
   fun e => e,
   fun _ => 0⟩

/-- An initialised 2 x 2 x 2 grid (UTM zone 11) whose perturbation is
`(dvp, dvs)` in every cell. -/
def demo_state (dvp dvs : ℚ) : cvmsi_state :=
  ⟨1, 11, fun _ => 2, fun _ => ⟨dvp, dvs⟩, fun _ => 0, fun _ => 0⟩

/-- A batch whose points are all `(-118, 34, 0)`. -/
def demo_pnt : ℕ → cvmsi_point_t :=
  fun _ => ⟨![-118, 34, 0]⟩

/-- An output array filled with zero records. -/
def demo_data : ℕ → cvmsi_data_t :=
  fun _ => ⟨⟨fun _ => 0⟩, ⟨0, 0, 0, 0, 0, 0⟩⟩

/-- A base model that answers `(1000 + lon, 500 + lon, 2000 + lon)` at every
point, so that a result shows which point it was computed for; the coordinate
transform fails everywhere (error code 1). -/
def batch_externals : cvmsi_externals :=
  ⟨fun _ lon _ _ => ⟨fun i => 1000 + lon i, fun i => 500 + lon i, fun i => 2000 + lon i⟩,
   fun _ _ _ _ _ _ _ => ⟨fun _ => 0, 1⟩,
   fun _ _ _ _ => (0, 0),
   fun e => e,
   fun _ => 0⟩

/-- The marker of an unowned slot is `-1`; the configured region holds the
points with longitude below 10. -/
def batch_ucvm_externals : ucvm_externals :=
  ⟨-1, fun _ p => decide (p.coord 0 < 10)⟩

/-- The adapter registered under model id 7, with zero-filled buffers. -/
def batch_state : ucvm_cvmsi_state :=
  ⟨7, fun _ => ⟨fun _ => 0⟩, fun _ => ⟨⟨fun _ => 0⟩, ⟨0, 0, 0, 0, 0, 0⟩⟩⟩

/-- Three points with longitudes 1, 50, 3: the second one (index 1) lies
outside the region. -/
def batch_pnt_gap : ℕ → ucvm_point_t :=
  fun i => if i = 1 then ⟨![50, 34, 0]⟩ else ⟨![(i : ℚ) + 1, 34, 0]⟩

/-- Output slots that are all unowned, tagged for the crustal model, at depth 0. -/
def batch_data_unowned : ℕ → ucvm_data_t :=
  fun _ => ⟨0, ucvm_domain_t.UCVM_DOMAIN_CRUST, 0, ⟨-1, 0, 0, 0⟩⟩

/-- Points with longitudes 1, 2, ...: all inside the region. -/
def batch_pnt_inside : ℕ → ucvm_point_t :=
  fun i => ⟨![(i : ℚ) + 1, 34, 0]⟩

/-- Output slots of which the first (index 0) is already owned by model 3 with
`(vp, vs, rho) = (111, 55, 2222)`, the others unowned. -/
def batch_data_owned : ℕ → ucvm_data_t :=
  fun i =>
    if i = 0 then ⟨0, ucvm_domain_t.UCVM_DOMAIN_CRUST, 0, ⟨3, 111, 55, 2222⟩⟩
    else ⟨0, ucvm_domain_t.UCVM_DOMAIN_CRUST, 0, ⟨-1, 0, 0, 0⟩⟩

/-! ## Predicates of the batch contract, written from the specification -/

/-- The output slot `i` is unresolved on entry: its source marker is
`UCVM_SOURCE_NONE`. -/
def slot_unresolved (ue : ucvm_externals) (data : ℕ → ucvm_data_t) (i : ℕ) : Prop :=
  (data i).crust.source = ue.UCVM_SOURCE_NONE

/-- Point `i` is not enqueued for the engine: wrong domain tag, outside the
region, or negative shifted depth. -/
def not_enqueued (ue : ucvm_externals) (cmode : ucvm_ctype_t) (pnt : ℕ → ucvm_point_t)
    (data : ℕ → ucvm_data_t) (i : ℕ) : Prop :=
  ((data i).domain ≠ ucvm_domain_t.UCVM_DOMAIN_INTERP ∧
    (data i).domain ≠ ucvm_domain_t.UCVM_DOMAIN_CRUST) ∨
  ue.region_contains_null cmode (pnt i) = false ∨
  (data i).depth + (data i).shift_cr < 0

/-- Point `i` is a per-point miss: its slot was unresolved on entry and it was
not enqueued. -/
def data_gap_point (ue : ucvm_externals) (cmode : ucvm_ctype_t) (pnt : ℕ → ucvm_point_t)
    (data : ℕ → ucvm_data_t) (i : ℕ) : Prop :=
  slot_unresolved ue data i ∧ not_enqueued ue cmode pnt data i

/-! ## cvmsi.c : the stages of the base correction, one by one -/

/-- The correction formula in the specification's words:
`(corner * (min - floor) + value * (corner - min)) / (corner - floor)`. -/
def corner_formula (corner min floor value : ℚ) : ℚ :=
  (corner * (min - floor) + value * (corner - min)) / (corner - floor)

/-- Lines 374-375 of `cvmsi_query`: corner correction of `cvms_vp_calc`. -/
def cvms_corner_vp (cvms_vp_calc : ℚ) : ℚ :=
  if cvms_vp_calc < corner_vp then
    (corner_vp * (min_vp - min_cvms_vp) + cvms_vp_calc * (corner_vp - min_vp))
      / (corner_vp - min_cvms_vp)
  else cvms_vp_calc

/-- Lines 376-377 of `cvmsi_query`: corner correction of `cvms_vs_calc`. -/
def cvms_corner_vs (cvms_vs_calc : ℚ) : ℚ :=
  if cvms_vs_calc < corner_vs then
    (corner_vs * (min_vs - min_cvms_vs) + cvms_vs_calc * (corner_vs - min_vs))
      / (corner_vs - min_cvms_vs)
  else cvms_vs_calc

/-- Lines 378-379 of `cvmsi_query`: corner correction of `cvms_rho_calc`. -/
def cvms_corner_rho (cvms_rho_calc : ℚ) : ℚ :=
  if cvms_rho_calc < corner_rho then
    (corner_rho * (min_rho - min_cvms_rho) + cvms_rho_calc * (corner_rho - min_rho))
      / (corner_rho - min_cvms_rho)
  else cvms_rho_calc

/-- Lines 365-379 of `cvmsi_query`: the base sample after the floor clamp and
the corner correction, before the Lambda fix of line 382. -/
def cvms_floor_corner (cvms_vp cvms_vs cvms_rho : ℚ) : cvms_calc_t :=
  let cvms_vs_calc := if cvms_vs < min_cvms_vs then min_cvms_vs else cvms_vs
  let cvms_vp_calc := if cvms_vp < min_cvms_vp then min_cvms_vp else cvms_vp
  let cvms_rho_calc := if cvms_rho < min_cvms_rho then min_cvms_rho else cvms_rho
  ⟨cvms_corner_vp cvms_vp_calc, cvms_corner_vs cvms_vs_calc, cvms_corner_rho cvms_rho_calc⟩

/-- Lines 321-333 of `cvmsi_query`: the corner index on one axis, from the
dimension `dim` of the axis, the fractional coordinate `c` and the corner
selector `d`: `(int)c + d`, or `(int)c` when `(int)c + d` reaches `dim`. -/
def corner_index (dim : ℤ) (c : ℚ) (d : Fin 2) : ℤ :=
  let i := c_int c + (d.val : ℤ)
  if i ≥ dim then c_int c else i

/-! ## cvmsi_utils.c : byte order -/

/-- For swapping endian (`cvmsi_fdata_t`): the four bytes `b[0..3]` that
overlay the `float`. -/
structure cvmsi_fdata_t where
  b : Fin 4 → Fin 256

/-- Swap float endian-ness (`cvmsi_swap_endian_float`), on the four bytes of
the value. -/
def cvmsi_swap_endian_float (dat1 : cvmsi_fdata_t) : cvmsi_fdata_t :=
  ⟨![dat1.b 3, dat1.b 2, dat1.b 1, dat1.b 0]⟩

/-- The bytes of a 32-bit pattern `n % 2^32`, least significant byte in
`b[0]`. -/
def fdata_of_bits (n : ℕ) : cvmsi_fdata_t :=
  ⟨fun i => ⟨n / 256 ^ i.val % 256, Nat.mod_lt _ (by decide)⟩⟩

/-- The 32-bit pattern held by four bytes, least significant byte in `b[0]`. -/
def bits_of_fdata (d : cvmsi_fdata_t) : ℕ :=
  (d.b 0).val + 256 * (d.b 1).val + 65536 * (d.b 2).val + 16777216 * (d.b 3).val

/-- `cvmsi_swap_endian_float` as a map on 32-bit patterns. -/
def swap_endian_bits (n : ℕ) : ℕ :=
  bits_of_fdata (cvmsi_swap_endian_float (fdata_of_bits n))

/-! ## cvmsi.c, cvmlt.c : the version query -/

/-- C `memset(dst, c, n)` on an array of bytes. -/
def memset (dst : ℕ → ℕ) (c : ℕ) (n : ℕ) : ℕ → ℕ :=
  fun i => if i < n then c else dst i

/-- C `strncpy(dst, src, n)`, the source string being given by its
characters before the terminating NUL: the first `n` characters are copied,
and when the source is shorter than `n` the rest of the `n` bytes is
zero-filled. -/
def strncpy (dst : ℕ → ℕ) (src : List ℕ) (n : ℕ) : ℕ → ℕ :=
  fun i => if i < n then src.getD i 0 else dst i

/-- The globals of `cvmsi.c`: the model configuration and the version
string `cvmsi_version_id`, given by its characters before the terminating
NUL (so `strlen` is the length of the list). -/
structure cvmsi_module where
  model : cvmsi_state
  cvmsi_version_id : List ℕ

/-- Version ID (`cvmsi_version`): the return code and the caller's buffer
`ver` after the call.  A negative `len` is outside the model. -/
def cvmsi_version (m : cvmsi_module) (ver : ℕ → ℕ) (len : ℤ) : ℤ × (ℕ → ℕ) :=
  let verlen : ℤ := (m.cvmsi_version_id.length : ℤ)
  let verlen := if verlen > len - 1 then len - 1 else verlen
  let ver := memset ver 0 len.toNat
  let ver := strncpy ver m.cvmsi_version_id verlen.toNat
  (0, ver)

/-- Version ID of the Lin-Thurber model (`cvmlt_version` in `cvmlt.c`), from
its globals `cvmlt_init_flag` and `cvmlt_version_id`. -/
def cvmlt_version (cvmlt_init_flag : ℤ) (cvmlt_version_id : List ℕ) (ver : ℕ → ℕ)
    (len : ℤ) : ℤ × (ℕ → ℕ) :=
  if cvmlt_init_flag = 0 then
    (1, ver)
  else
    let verlen : ℤ := (cvmlt_version_id.length : ℤ)
    let verlen := if verlen > len - 1 then len - 1 else verlen
    let ver := memset ver 0 len.toNat
    let ver := strncpy ver cvmlt_version_id verlen.toNat
    (0, ver)

/-- The globals of `cvmsi.c` before any call of `cvmsi_init`: zero-filled
static storage, so the init flag is 0 and the version string is empty. -/
def cvmsi_module_uninit : cvmsi_module :=
  ⟨⟨0, 0, fun _ => 0, fun _ => ⟨0, 0⟩, fun _ => 0, fun _ => 0⟩, []⟩

/-- An initialised module whose version string is `"4.26"`. -/
def demo_module : cvmsi_module :=
  ⟨demo_state 0 0, [52, 46, 50, 54]⟩

/-! ## Further definitions: policies, layout, density curve -/

/-- Lines 336-337 of `cvmsi_query`: the flat offset of the grid cell
`(i, j, k)` in `cvmsi_buf`, x fastest, then y, then z, computed in `int` as
`(k * cvmsi_dim[0] * cvmsi_dim[1]) + (j * cvmsi_dim[0]) + i`. -/
def cvmsi_offset (cvmsi_dim : Fin 3 → ℤ) (i j k : ℤ) : ℤ :=
  int32 (int32 (int32 (int32 (k * cvmsi_dim 0) * cvmsi_dim 1) + int32 (j * cvmsi_dim 0)) + i)

/-- Density derived from Vp via Nafe-Drake curve, Brocher (2005) eqn 1
(`cvmlt_nafe_drake_rho` in `cvmlt_utils.c`). -/
def cvmlt_nafe_drake_rho (vp : ℚ) : ℚ :=
  let vp := vp * 0.001
  let rho := vp * (1.6612 - vp * (0.4721 - vp * (0.0671 - vp * (0.0043 - vp * 0.000106))))
  let rho := if rho < 1.0 then 1.0 else rho
  rho * 1000.0

/-- The Nafe-Drake polynomial in the specification's expanded form, `v` in
km/s. -/
def nafe_drake_poly (v : ℚ) : ℚ :=
  1.6612 * v - 0.4721 * v ^ 2 + 0.0671 * v ^ 3 - 0.0043 * v ^ 4 + 0.000106 * v ^ 5

/-- The minimum of the eight corner values of a table `q`. -/
def corner_min (q : Fin 2 → Fin 2 → Fin 2 → ℚ) : ℚ :=
  min (min (min (q 0 0 0) (q 0 0 1)) (min (q 0 1 0) (q 0 1 1)))
    (min (min (q 1 0 0) (q 1 0 1)) (min (q 1 1 0) (q 1 1 1)))

/-- The maximum of the eight corner values of a table `q`. -/
def corner_max (q : Fin 2 → Fin 2 → Fin 2 → ℚ) : ℚ :=
  max (max (max (q 0 0 0) (q 0 0 1)) (max (q 0 1 0) (q 0 1 1)))
    (max (max (q 1 0 0) (q 1 0 1)) (max (q 1 1 0) (q 1 1 1)))

/-! ## Further definitions: the corner tables of `cvmsi_query` -/

/-- Lines 343-344 of `cvmsi_query`: the entry `[z][y][x]` of the corner table
`q_vp` (with `sel` the field `vp`) or `q_vs` (with `sel` the field `vs`). -/
def cvmsi_corner (sel : cvmsi_prop_read_t → ℚ) (st : cvmsi_state) (xyz_f : Fin 3 → ℚ)
    (x y z : Fin 2) : ℚ :=
  sel (st.cvmsi_buf (corner_offset st.cvmsi_dim xyz_f x y z))

/-- Lines 350-362 of `cvmsi_query`: the interpolation of one field of the
perturbation at the fractional offset of `xyz_f` in its cell. -/
def cvmsi_diff (sel : cvmsi_prop_read_t → ℚ) (st : cvmsi_state) (xyz_f : Fin 3 → ℚ) : ℚ :=
  cvmsi_interp_trilinear (xyz_f 0 - (c_int (xyz_f 0) : ℚ)) (xyz_f 1 - (c_int (xyz_f 1) : ℚ))
    (xyz_f 2 - (c_int (xyz_f 2) : ℚ)) unit_cube (fun z y x => cvmsi_corner sel st xyz_f x y z)

/-- An initialised 2 x 2 x 2 grid whose perturbation at offset `o` is
`(o, 2 * o)`. -/
def ramp_state : cvmsi_state :=
  ⟨1, 11, fun _ => 2, fun o => ⟨(o : ℚ), 2 * (o : ℚ)⟩, fun _ => 0, fun _ => 0⟩

/-! ## Further definitions: independence of the points of a batch -/

/-- The base model answers each point independently: the sample returned for a
point depends only on its longitude, latitude and depth, not on the batch it
is part of nor on its position in the batch. -/
def cvms_pointwise (ext : cvmsi_externals) : Prop :=
  ∀ (nn mm : ℕ) (lon lat dep lon2 lat2 dep2 : ℕ → ℚ) (i j : ℕ), i < nn → j < mm →
    lon i = lon2 j → lat i = lat2 j → dep i = dep2 j →
    (ext.cvms_query_ nn lon lat dep).vp i = (ext.cvms_query_ mm lon2 lat2 dep2).vp j ∧
    (ext.cvms_query_ nn lon lat dep).vs i = (ext.cvms_query_ mm lon2 lat2 dep2).vs j ∧
    (ext.cvms_query_ nn lon lat dep).rho i = (ext.cvms_query_ mm lon2 lat2 dep2).rho j

/-- The externals of `demo_externals 2000 900 2000 0`, with fresh memory that
is not zero-filled: the record allocated for point `counter` holds
`3 * counter + 1` in its field `diff_rho`. -/
def stale_externals : cvmsi_externals :=
  ⟨fun _ _ _ _ => ⟨fun _ => 2000, fun _ => 900, fun _ => 2000⟩,
   fun _ _ _ _ _ _ _ => ⟨fun _ => 1 / 2, 0⟩,
   fun _ _ _ _ => (0, 0),
   fun e => e,
   fun counter => 3 * (counter : ℚ) + 1⟩

/-! ## cvmsi_utils.c : stripping trailing whitespace -/

/-- The test `strchr(" \t\n", c) != NULL` of
`cvmsi_strip_trailing_whitespace`: `strchr` finds a space, a tab, a newline,
and also the terminating NUL of the set when `c` is `'\0'`. -/
def strchr_whitespace (c : ℕ) : Bool :=
  decide (c = 32) || decide (c = 9) || decide (c = 10) || decide (c = 0)

/-- The memory around a C string that starts at index 0: the characters `s`
(none of them NUL), the terminating NUL and zero bytes after it, and the bytes
`below 0, below 1, ...` at the indices `-1, -2, ...`. -/
def string_memory (below : ℕ → ℕ) (s : List ℕ) : ℤ → ℕ :=
  fun j => if j < 0 then below (-j - 1).toNat else s.getD j.toNat 0

/-- State of the loop of `cvmsi_strip_trailing_whitespace`: the memory, the
index `i`, the indices read and written so far (latest first), and whether the
loop has exited. -/
structure strip_t where
  str : ℤ → ℕ
  i : ℤ
  reads : List ℤ
  writes : List ℤ
  exited : Bool

/-- The loop `while (strchr(" \t\n", str[i-1]) != NULL) { str[i-1] = '\0';
i = i - 1; }`, run for at most `fuel` tests of the condition. -/
def strip_loop : ℕ → strip_t → strip_t
  | 0, s => s
  | fuel + 1, s =>
    let s := { s with reads := (s.i - 1) :: s.reads }
    if strchr_whitespace (s.str (s.i - 1)) then
      strip_loop fuel
        { s with str := Function.update s.str (s.i - 1) 0,
                 writes := (s.i - 1) :: s.writes,
                 i := s.i - 1 }
    else
      { s with exited := true }

/-- Strip trailing whitespace from string
(`cvmsi_strip_trailing_whitespace`), for the string `s` stored at index 0 of
the memory `string_memory below s`; `strlen` is the length of `s`. -/
def cvmsi_strip_trailing_whitespace (fuel : ℕ) (below : ℕ → ℕ) (s : List ℕ) : strip_t :=
  strip_loop fuel ⟨string_memory below s, (s.length : ℤ), [], [], false⟩

/-- Spec side: the longest prefix of `s` that does not end in a space, tab or
newline. -/
def strip_spec (s : List ℕ) : List ℕ :=
  (s.reverse.dropWhile (fun c => decide (c = 32) || decide (c = 9) || decide (c = 10))).reverse

/-! ## cvmsi.c : `cvmsi_init`

Text files are lists of bytes.  The C library calls `fgets`, `feof`,
`strchr` and the `%d` conversion of `sscanf` follow the C standard; overflow
of `%d` is not modelled.  The conversion `%lf` is a parameter. -/

/-- The bytes of a text. -/
def text (s : String) : List ℕ :=
  s.toList.map Char.toNat

/-- A stdio stream opened for reading: the bytes not yet read and the
end-of-file indicator that `feof` tests. -/
structure FILE_t where
  rest : List ℕ
  eof : Bool

/-- The reading part of `fgets`: at most `n` bytes are taken, stopping after a
newline; the flag tells whether the end of the file was hit while reading. -/
def fgets_scan : ℕ → List ℕ → List ℕ × List ℕ × Bool
  | 0, r => ([], r, false)
  | _ + 1, [] => ([], [], true)
  | n + 1, c :: r =>
    if c = 10 then ([c], r, false)
    else (c :: (fgets_scan n r).1, (fgets_scan n r).2.1, (fgets_scan n r).2.2)

/-- C `fgets(line, size, ip)`: the string read (`none` for the NULL returned
when the end of the file is hit before any byte is read, in which case the
buffer is left as it was) and the stream afterwards. -/
def fgets (size : ℕ) (ip : FILE_t) : Option (List ℕ) × FILE_t :=
  (if (fgets_scan (size - 1) ip.rest).1 = [] ∧ (fgets_scan (size - 1) ip.rest).2.2 = true
     then none else some (fgets_scan (size - 1) ip.rest).1,
   ⟨(fgets_scan (size - 1) ip.rest).2.1, ip.eof || (fgets_scan (size - 1) ip.rest).2.2⟩)

/-- C `isspace` in the "C" locale. -/
def isspace (c : ℕ) : Bool :=
  decide (c = 32) || (decide (9 ≤ c) && decide (c ≤ 13))

/-- C `isdigit`. -/
def isdigit (c : ℕ) : Bool :=
  decide (48 ≤ c) && decide (c ≤ 57)

/-- The conversion `%d` of `sscanf`: white space is skipped, then an optional
sign and a non-empty run of digits are converted; the result is the value and
the rest of the input, or `none` when no conversion takes place. -/
def scan_d (s : List ℕ) : Option (ℤ × List ℕ) :=
  let s := s.dropWhile isspace
  let neg := decide (s.head? = some 45)
  let s := if s.head? = some 45 ∨ s.head? = some 43 then s.tail else s
  let ds := s.takeWhile isdigit
  if ds = [] then none
  else
    let n : ℕ := ds.foldl (fun a c => 10 * a + (c - 48)) 0
    some (if neg then -(n : ℤ) else (n : ℤ), s.dropWhile isdigit)

/-- `sscanf(line, "%d %d %d", ...) == 3`. -/
def scan_d_d_d (s : List ℕ) : Option (ℤ × ℤ × ℤ) :=
  match scan_d s with
  | none => none
  | some (a, r) =>
    match scan_d r with
    | none => none
    | some (b, r) =>
      match scan_d r with
      | none => none
      | some (c, _) => some (a, b, c)

/-- What `cvmsi_init` takes from outside of `cvmsi.c`: the conversion `%lf` of
`sscanf`, the success of `malloc` for a number of records, the host byte order
(`cvmsi_is_little_endian`), the byte swap of a `float` on the values of the
model, the content of the local array `line` on entry, and the number of
mapped bytes below `cvmsi_version_id` with their content. -/
structure init_externals where
  scan_lf : List ℕ → Option (ℚ × List ℕ)
  malloc_ok : ℤ → Bool
  little_endian : Bool
  swap_float : ℚ → ℚ
  line0 : List ℕ
  below_bytes : ℕ
  below : ℕ → ℕ

/-- `sscanf(line, "%lf %lf", ...) == 2`. -/
def scan_lf_lf (lib : init_externals) (s : List ℕ) : Option (ℚ × ℚ) :=
  match lib.scan_lf s with
  | none => none
  | some (a, r) =>
    match lib.scan_lf r with
    | none => none
    | some (b, _) => some (a, b)

/-- `sscanf(line, "%d %lf", ...) == 2`. -/
def scan_d_lf (lib : init_externals) (s : List ℕ) : Option (ℤ × ℚ) :=
  match scan_d s with
  | none => none
  | some (a, r) =>
    match lib.scan_lf r with
    | none => none
    | some (b, _) => some (a, b)

/-- Max array size for Z dimension (`CVMSI_MAX_ZGRID`). -/
def CVMSI_MAX_ZGRID : ℤ := 3000

/-- The globals of `cvmsi.c` while `cvmsi_init` runs.  `cvmsi_zgrid` is the
memory at and around the array of `CVMSI_MAX_ZGRID` doubles, the array being
the indices `0 ≤ i < CVMSI_MAX_ZGRID`; `zgrid_stores` records the indices that
were stored to, latest first. -/
structure cvmsi_globals where
  cvmsi_init_flag : ℤ
  cvmsi_izone : ℤ
  cvmsi_dim : Fin 3 → ℤ
  cvmsi_pdim : Fin 3 → ℤ
  cvmsi_buf : List cvmsi_prop_read_t
  cvmsi_box : ℤ → ℚ
  cvmsi_zgrid : ℤ → ℚ
  zgrid_stores : List ℤ
  cvmsi_version_id : List ℕ

/-- Outcome of a step of `cvmsi_init`: `return(1)`, completion with a value
and the content of `line`, or no outcome within the bound of the model. -/
inductive init_result (σ : Type) where
  | ret1 : init_result σ
  | done : σ → List ℕ → init_result σ
  | no_result : init_result σ

/-- The loop `while (!feof(ip)) { fgets(line, CVMSI_MAX_STR_LEN, ip); body;
lineno++; }` of `cvmsi_init`, `body` answering `none` for `return(1)` and
otherwise the new state with the string it leaves in `line`.  A failed `fgets`
leaves `line` as it was. -/
def read_lines {σ : Type} (body : ℕ → List ℕ → σ → Option (σ × List ℕ)) :
    ℕ → FILE_t → List ℕ → ℕ → σ → init_result σ
  | 0, _, _, _, _ => init_result.no_result
  | fuel + 1, ip, line, lineno, st =>
    if ip.eof = true then init_result.done st line
    else
      match body lineno (((fgets 256 ip).1).getD line) st with
      | none => init_result.ret1
      | some (st2, line2) => read_lines body fuel (fgets 256 ip).2 line2 (lineno + 1) st2

/-- Lines 72-78 of `cvmsi_init`: the body of the loop over `region_spec.in`. -/
def region_body (lineno : ℕ) (line : List ℕ) (cvmsi_izone : ℤ) : Option (ℤ × List ℕ) :=
  if lineno = 1 then
    match scan_d line with
    | none => none
    | some (z, _) => some (z, line)
  else some (cvmsi_izone, line)

/-- Lines 98-138 of `cvmsi_init`: the body of the loop over the grid file.
On the lines 0 and 2 the `'!'` found by `strchr` is overwritten by a NUL, which
cuts the string in `line` there. -/
def grid_body (lib : init_externals) (lineno : ℕ) (line : List ℕ) (g : cvmsi_globals) :
    Option (cvmsi_globals × List ℕ) :=
  if lineno = 0 then
    if 33 ∈ line then
      match scan_d_d_d (line.takeWhile (fun c => c ≠ 33)) with
      | none => none
      | some (a, b, c) => some ({ g with cvmsi_dim := ![a, b, c] }, line.takeWhile (fun c => c ≠ 33))
    else none
  else if lineno = 2 then
    if 33 ∈ line then
      match scan_d_d_d (line.takeWhile (fun c => c ≠ 33)) with
      | none => none
      | some (a, b, c) => some ({ g with cvmsi_pdim := ![a, b, c] }, line.takeWhile (fun c => c ≠ 33))
    else none
  else if lineno ≥ 3 ∧ lineno < 7 then
    match scan_lf_lf lib line with
    | none => none
    | some (a, b) =>
      let box := Function.update g.cvmsi_box ((lineno : ℤ) - 3) a
      let box := Function.update box (((lineno : ℤ) - 3) + 4) b
      some ({ g with cvmsi_box := box }, line)
  else if lineno ≥ 7 then
    match scan_d_lf lib line with
    | none => none
    | some (i, dep) =>
      let zgrid := Function.update g.cvmsi_zgrid (i - 1) dep
      some ({ g with cvmsi_zgrid := zgrid, zgrid_stores := (i - 1) :: g.zgrid_stores }, line)
  else some (g, line)

/-- The files of a model directory: `region_spec.in`, `XYZGRD`, `cvmsi.ver` as
bytes and `cvmsi.bin` as records; `none` for a file that `fopen` cannot
open. -/
structure cvmsi_files where
  region_spec : Option (List ℕ)
  grid : Option (List ℕ)
  model : Option (List cvmsi_prop_read_t)
  version : Option (List ℕ)

/-- The string held by a buffer of `n` bytes: the bytes before the first NUL. -/
def c_string (mem : ℤ → ℕ) (n : ℕ) : List ℕ :=
  ((List.range n).map (fun k => mem (k : ℤ))).takeWhile (fun c => c ≠ 0)

/-- Lines 143-199 of `cvmsi_init`: read the model file, swap the byte order
on a big-endian host, read and strip the version string, set the init flag.
The call of `cvms_init_`, whose error code is not looked at, and the call of
`gtl_setup` under `ADD_GTL` (0 in the build) leave the globals of `cvmsi.c` as
they are.  No outcome is modelled when the stripping loop runs below the
mapped bytes. -/
def cvmsi_init_model (lib : init_externals) (files : cvmsi_files) (g : cvmsi_globals) :
    init_result cvmsi_globals :=
  let num_points := int32 (int32 (g.cvmsi_dim 0 * g.cvmsi_dim 1) * g.cvmsi_dim 2)
  if lib.malloc_ok num_points = false then init_result.ret1
  else
    match files.model with
    | none => init_result.ret1
    | some records =>
      if ((min num_points.toNat records.length : ℕ) : ℤ) ≠ num_points then init_result.ret1
      else
        let buf := records.take num_points.toNat
        let buf :=
          if lib.little_endian = false then
            buf.map (fun r => ⟨lib.swap_float r.vp, lib.swap_float r.vs⟩)
          else buf
        let g := { g with cvmsi_buf := buf }
        match files.version with
        | none => init_result.ret1
        | some content =>
          match (fgets 255 ⟨content, false⟩).1 with
          | none => init_result.ret1
          | some ver =>
            let r := cvmsi_strip_trailing_whitespace (ver.length + 1 + lib.below_bytes)
              lib.below ver
            if r.exited = false ∨ r.i < -(lib.below_bytes : ℤ) then init_result.no_result
            else
              init_result.done
                { g with cvmsi_version_id := c_string r.str ver.length, cvmsi_init_flag := 1 }
                []

/-- Initialize (`cvmsi_init`) for a model directory (`none` for `dir == NULL`)
from the globals `g`. -/
def cvmsi_init (lib : init_externals) (dir : Option cvmsi_files) (g : cvmsi_globals) :
    init_result cvmsi_globals :=
  match dir with
  | none => init_result.ret1
  | some files =>
    let g := { g with cvmsi_izone := 0, cvmsi_dim := fun _ => 0, cvmsi_pdim := fun _ => 0 }
    match files.region_spec with
    | none => init_result.ret1
    | some content =>
      match read_lines region_body (content.length + 2) ⟨content, false⟩ lib.line0 0
          g.cvmsi_izone with
      | init_result.ret1 => init_result.ret1
      | init_result.no_result => init_result.no_result
      | init_result.done izone line =>
        let g := { g with cvmsi_izone := izone }
        if g.cvmsi_izone ≤ 0 then init_result.ret1
        else
          match files.grid with
          | none => init_result.ret1
          | some gcontent =>
            match read_lines (grid_body lib) (gcontent.length + 2) ⟨gcontent, false⟩ line 0 g with
            | init_result.ret1 => init_result.ret1
            | init_result.no_result => init_result.no_result
            | init_result.done g _ => cvmsi_init_model lib files g

/-- The value returned by `cvmsi_init`, when it returns. -/
def init_code {σ : Type} : init_result σ → Option ℤ
  | init_result.ret1 => some 1
  | init_result.done _ _ => some 0
  | init_result.no_result => none

/-- The globals left by a successful `cvmsi_init`. -/
def init_globals {σ : Type} : init_result σ → Option σ
  | init_result.done g _ => some g
  | _ => none

/-- The globals of `cvmsi.c` before any call: zero-filled static storage. -/
def cvmsi_globals_zero : cvmsi_globals :=
  ⟨0, 0, fun _ => 0, fun _ => 0, [], fun _ => 0, fun _ => 0, [], []⟩

/-- A host for the examples: `%lf` reads decimal integers only, `malloc`
succeeds, the host is little-endian, `line` starts empty, and 4 bytes `'X'`
are mapped below `cvmsi_version_id`. -/
def demo_init_externals : init_externals :=
  ⟨fun s => (scan_d s).map (fun zr => ((zr.1 : ℚ), zr.2)), fun _ => true, true, fun x => x,
   [], 4, fun _ => 88⟩

/-- A well-formed 1 x 1 x 2 model directory, UTM zone 11 on the second line of
`region_spec.in`. -/
def demo_files : cvmsi_files :=
  ⟨some (text "cvmsi\n11\n"),
   some (text "1 1 2 ! nx ny nz\ngrid\n1 1 1 ! procs\n0 0\n0 1\n1 1\n1 0\n1 0\n2 500\n"),
   some [⟨10, 5⟩, ⟨20, 10⟩],
   some (text "4.26\n")⟩

/-- The directory `demo_files` with a `region_spec.in` of one line, `"11\n"`:
the second line is absent. -/
def one_line_files : cvmsi_files :=
  { demo_files with region_spec := some (text "11\n") }

/-- A 1 x 1 x 3001 model directory whose grid file ends with the z-grid entry
`3001 500`. -/
def deep_files : cvmsi_files :=
  { demo_files with
    grid := some (text
      "1 1 3001 ! nx ny nz\ngrid\n1 1 1 ! procs\n0 0\n0 1\n1 1\n1 0\n1 0\n3001 500\n"),
    model := some (List.replicate 3001 ⟨0, 0⟩) }

/-- The directory `demo_files` whose grid file ends with the z-grid entry
`0 500`. -/
def zero_index_files : cvmsi_files :=
  { demo_files with
    grid := some (text
      "1 1 2 ! nx ny nz\ngrid\n1 1 1 ! procs\n0 0\n0 1\n1 1\n1 0\n1 0\n0 500\n") }

/-! ## Theorems: trilinear interpolation -/

/-- C1: on the unit cube, `cvmsi_interp_trilinear` at each of the eight
corners `(x,y,z)`, `x,y,z ∈ {0,1}`, returns exactly `q[z][y][x]`, for every
corner table `q`; with the unit test's table the corner `(0,0,0)` gives `0`
and `(1,1,1)` gives `1`. -/
theorem cvmsi_interp_trilinear_corner :
    (∀ (q : Fin 2 → Fin 2 → Fin 2 → ℚ) (x y z : Fin 2),
      cvmsi_interp_trilinear (x.val : ℚ) (y.val : ℚ) (z.val : ℚ) unit_cube q = q z y x)
    ∧ cvmsi_interp_trilinear 0 0 0 unit_cube firstTest_q = 0
    ∧ cvmsi_interp_trilinear 1 1 1 unit_cube firstTest_q = 1 := by
  refine ⟨?_, ?_, ?_⟩
  · intro q x y z
    fin_cases x <;> fin_cases y <;> fin_cases z <;>
      simp [cvmsi_interp_trilinear, cvmsi_interp_bilinear, cvmsi_interp_linear, unit_cube]
  · simp [cvmsi_interp_trilinear, cvmsi_interp_bilinear, cvmsi_interp_linear, unit_cube,
      firstTest_q]
  · simp [cvmsi_interp_trilinear, cvmsi_interp_bilinear, cvmsi_interp_linear, unit_cube,
      firstTest_q]

/-- C2: on the unit cube, `cvmsi_interp_trilinear` at the centre
`(1/2,1/2,1/2)` is the arithmetic mean of the eight corner values, for every
corner table `q`; with the unit test's table this mean is `1/2`. -/
theorem cvmsi_interp_trilinear_center :
    (∀ q : Fin 2 → Fin 2 → Fin 2 → ℚ,
      cvmsi_interp_trilinear (1/2) (1/2) (1/2) unit_cube q
        = (q 0 0 0 + q 0 0 1 + q 0 1 0 + q 0 1 1
            + q 1 0 0 + q 1 0 1 + q 1 1 0 + q 1 1 1) / 8)
    ∧ cvmsi_interp_trilinear (1/2) (1/2) (1/2) unit_cube firstTest_q = 1/2 := by
  have h : ∀ q : Fin 2 → Fin 2 → Fin 2 → ℚ,
      cvmsi_interp_trilinear (1/2) (1/2) (1/2) unit_cube q
        = (q 0 0 0 + q 0 0 1 + q 0 1 0 + q 0 1 1
            + q 1 0 0 + q 1 0 1 + q 1 1 0 + q 1 1 1) / 8 := by
    intro q
    simp only [cvmsi_interp_trilinear, cvmsi_interp_bilinear, cvmsi_interp_linear, unit_cube]
    simp
    ring
  refine ⟨h, ?_⟩
  rw [h]
  simp [firstTest_q]
  norm_num

/-- C3: on the unit cube, for every `q` and every `(x,y,z)`,
`cvmsi_interp_trilinear` (bilinear on the face `z = 0`, bilinear on the face
`z = 1`, linear along `z`) equals the textbook trilinear formula
`Σ q[c][b][a] * w_a(x) * w_b(y) * w_c(z)`. -/
theorem cvmsi_interp_trilinear_eq_spec (q : Fin 2 → Fin 2 → Fin 2 → ℚ) (x y z : ℚ) :
    cvmsi_interp_trilinear x y z unit_cube q = trilinear_spec x y z q := by
  simp only [cvmsi_interp_trilinear, cvmsi_interp_bilinear, cvmsi_interp_linear, unit_cube,
    trilinear_spec, trilinear_weight, Fin.sum_univ_two]
  simp
  ring

/-! ## Theorems: `cvmsi_query` -/

/-- Overwriting index `c` with `g c` for `c = 0, ..., n-1` leaves `g k` at
every `k < n` and the old content elsewhere. -/
theorem foldl_update_range {α : Type} (g : ℕ → α) (d : ℕ → α) (n k : ℕ) :
    (List.range n).foldl (fun d c => Function.update d c (g c)) d k
      = if k < n then g k else d k := by
  induction n with
  | zero => simp
  | succ n ih =>
    rw [List.range_succ, List.foldl_append]
    simp only [List.foldl_cons, List.foldl_nil]
    by_cases hk : k = n
    · subst hk
      simp
    · rw [Function.update_noteq hk, ih]
      by_cases hlt : k < n
      · have : k < n + 1 := by omega
        simp [hlt, this]
      · have : ¬ k < n + 1 := by omega
        simp [hlt, this]

/-- After an initialised `cvmsi_query`, the return code is 0 and the record at
every `counter < numpts` is the one computed by the loop body for that
point. -/
theorem cvmsi_query_apply (ext : cvmsi_externals) (st : cvmsi_state) (pnt : ℕ → cvmsi_point_t)
    (data : ℕ → cvmsi_data_t) (numpts counter : ℕ)
    (hinit : st.cvmsi_init_flag ≠ 0) (hc : counter < numpts) :
    (cvmsi_query ext st pnt data numpts).1 = 0 ∧
    (cvmsi_query ext st pnt data numpts).2 counter
      = cvmsi_query_point cvmsi_build_flags ext st pnt
          (cvms_base cvmsi_build_flags ext pnt numpts) counter := by
  unfold cvmsi_query cvmsi_query_flags
  rw [if_neg hinit]
  refine ⟨rfl, ?_⟩
  simp only []
  rw [foldl_update_range]
  simp [hc]

/-- The switch `ADD_GTL` is off in the build. -/
theorem build_ADD_GTL : cvmsi_build_flags.ADD_GTL = false := rfl

/-- The switch `ADD_ALT_GTL` is off in the build. -/
theorem build_ADD_ALT_GTL : cvmsi_build_flags.ADD_ALT_GTL = false := rfl

/-- The switch `ADD_TJ_GTL` is on in the build. -/
theorem build_ADD_TJ_GTL : cvmsi_build_flags.ADD_TJ_GTL = true := rfl

/-- When the coordinate transform fails for a point, the properties written
for it are its base sample with zero perturbation fields. -/
theorem cvmsi_query_prop_of_error (ext : cvmsi_externals) (st : cvmsi_state)
    (pnt : ℕ → cvmsi_point_t) (data : ℕ → cvmsi_data_t) (numpts counter : ℕ)
    (hinit : st.cvmsi_init_flag ≠ 0) (hc : counter < numpts)
    (herr : (cvmsi_geo cvmsi_build_flags ext st pnt counter).errcode ≠ 0) :
    ((cvmsi_query ext st pnt data numpts).2 counter).prop
      = ⟨(cvms_base cvmsi_build_flags ext pnt numpts).vp counter,
          (cvms_base cvmsi_build_flags ext pnt numpts).vs counter,
          (cvms_base cvmsi_build_flags ext pnt numpts).rho counter,
          0, 0, ext.malloc_diff_rho counter⟩ := by
  rw [(cvmsi_query_apply ext st pnt data numpts counter hinit hc).2]
  unfold cvmsi_query_point
  simp only [build_ADD_GTL, if_neg herr]
  simp

/-- C7 (as stated, refuted): with a failing coordinate transform and the base
sample `(1000, 500, 2000)`, the final `vp` is `1000`, which is not the
corrected base `vp`. -/
theorem cvmsi_query_transform_error_not_corrected :
    ¬ (∀ (ext : cvmsi_externals) (st : cvmsi_state) (pnt : ℕ → cvmsi_point_t)
        (data : ℕ → cvmsi_data_t) (numpts counter : ℕ),
        st.cvmsi_init_flag ≠ 0 → counter < numpts →
        (cvmsi_geo cvmsi_build_flags ext st pnt counter).errcode ≠ 0 →
        (cvmsi_query ext st pnt data numpts).1 = 0 ∧
        ((cvmsi_query ext st pnt data numpts).2 counter).prop.diff_vp = 0 ∧
        ((cvmsi_query ext st pnt data numpts).2 counter).prop.diff_vs = 0 ∧
        ((cvmsi_query ext st pnt data numpts).2 counter).prop.vp
          = (cvms_calc ((cvms_base cvmsi_build_flags ext pnt numpts).vp counter)
              ((cvms_base cvmsi_build_flags ext pnt numpts).vs counter)
              ((cvms_base cvmsi_build_flags ext pnt numpts).rho counter)).vp ∧
        ((cvmsi_query ext st pnt data numpts).2 counter).prop.vs
          = (cvms_calc ((cvms_base cvmsi_build_flags ext pnt numpts).vp counter)
              ((cvms_base cvmsi_build_flags ext pnt numpts).vs counter)
              ((cvms_base cvmsi_build_flags ext pnt numpts).rho counter)).vs ∧
        ((cvmsi_query ext st pnt data numpts).2 counter).prop.rho
          = (cvms_calc ((cvms_base cvmsi_build_flags ext pnt numpts).vp counter)
              ((cvms_base cvmsi_build_flags ext pnt numpts).vs counter)
              ((cvms_base cvmsi_build_flags ext pnt numpts).rho counter)).rho) := by
  intro h
  have h1 := h (demo_externals 1000 500 2000 1) (demo_state 0 0) demo_pnt demo_data 1 0
    (by decide) (by decide) (by decide)
  have h2 := h1.2.2.2.1
  revert h2
  decide!

/-- C7 (amended): when the coordinate transform returns a non-zero error code
for a point, an initialised `cvmsi_query` returns 0 with `diff_vp = diff_vs = 0`
and final `vp`, `vs`, `rho` equal to the base-model sample as the base model
returned it (uncorrected). -/
theorem cvmsi_query_transform_error (ext : cvmsi_externals) (st : cvmsi_state)
    (pnt : ℕ → cvmsi_point_t) (data : ℕ → cvmsi_data_t) (numpts counter : ℕ)
    (hinit : st.cvmsi_init_flag ≠ 0) (hc : counter < numpts)
    (herr : (cvmsi_geo cvmsi_build_flags ext st pnt counter).errcode ≠ 0) :
    (cvmsi_query ext st pnt data numpts).1 = 0 ∧
    ((cvmsi_query ext st pnt data numpts).2 counter).prop.diff_vp = 0 ∧
    ((cvmsi_query ext st pnt data numpts).2 counter).prop.diff_vs = 0 ∧
    ((cvmsi_query ext st pnt data numpts).2 counter).prop.vp
      = (cvms_base cvmsi_build_flags ext pnt numpts).vp counter ∧
    ((cvmsi_query ext st pnt data numpts).2 counter).prop.vs
      = (cvms_base cvmsi_build_flags ext pnt numpts).vs counter ∧
    ((cvmsi_query ext st pnt data numpts).2 counter).prop.rho
      = (cvms_base cvmsi_build_flags ext pnt numpts).rho counter := by
  rw [cvmsi_query_prop_of_error ext st pnt data numpts counter hinit hc herr]
  exact ⟨(cvmsi_query_apply ext st pnt data numpts counter hinit hc).1, rfl, rfl, rfl, rfl, rfl⟩

/-- Witness of C7 (amended): base sample `(1000, 500, 2000)`, transform error
code 1. -/
theorem cvmsi_query_transform_error_witness :
    (cvmsi_query (demo_externals 1000 500 2000 1) (demo_state 0 0) demo_pnt demo_data 1).1 = 0 ∧
    ((cvmsi_query (demo_externals 1000 500 2000 1) (demo_state 0 0) demo_pnt demo_data 1).2
      0).prop.diff_vp = 0 ∧
    ((cvmsi_query (demo_externals 1000 500 2000 1) (demo_state 0 0) demo_pnt demo_data 1).2
      0).prop.diff_vs = 0 ∧
    ((cvmsi_query (demo_externals 1000 500 2000 1) (demo_state 0 0) demo_pnt demo_data 1).2
      0).prop.vp
      = (cvms_base cvmsi_build_flags (demo_externals 1000 500 2000 1) demo_pnt 1).vp 0 ∧
    ((cvmsi_query (demo_externals 1000 500 2000 1) (demo_state 0 0) demo_pnt demo_data 1).2
      0).prop.vs
      = (cvms_base cvmsi_build_flags (demo_externals 1000 500 2000 1) demo_pnt 1).vs 0 ∧
    ((cvmsi_query (demo_externals 1000 500 2000 1) (demo_state 0 0) demo_pnt demo_data 1).2
      0).prop.rho
      = (cvms_base cvmsi_build_flags (demo_externals 1000 500 2000 1) demo_pnt 1).rho 0 :=
  cvmsi_query_transform_error (demo_externals 1000 500 2000 1) (demo_state 0 0) demo_pnt
    demo_data 1 0 (by decide) (by decide) (by decide)

/-! ### Single precision -/

/-- With enough fuel, `halvings` brackets `n` between two consecutive powers of two. -/
theorem halvings_spec : ∀ (fuel n : ℕ), 1 ≤ n → n ≤ fuel →
    2 ^ halvings fuel n ≤ n ∧ n < 2 ^ (halvings fuel n + 1) := by
  intro fuel
  induction fuel with
  | zero =>
    intro n h1 h2
    omega
  | succ fuel ih =>
    intro n h1 h2
    rw [halvings]
    by_cases hn : n < 2
    · rw [if_pos hn]
      constructor
      · simpa using h1
      · simpa using hn
    · rw [if_neg hn]
      obtain ⟨a, b⟩ := ih (n / 2) (by omega) (by omega)
      constructor
      · rw [pow_succ]
        omega
      · rw [pow_succ]
        omega

/-- For `n ≥ 1`, `2 ^ ilog2 n ≤ n < 2 ^ (ilog2 n + 1)`. -/
theorem ilog2_spec (n : ℕ) (h : 1 ≤ n) : 2 ^ ilog2 n ≤ n ∧ n < 2 ^ (ilog2 n + 1) :=
  halvings_spec n n h (le_refl n)

/-- Rounding does not go below the floor. -/
theorem floor_le_round_half_even (x : ℚ) : ⌊x⌋ ≤ round_half_even x := by
  unfold round_half_even
  split_ifs <;> omega

/-- Rounding does not go above the floor plus one. -/
theorem round_half_even_le_floor_add_one (x : ℚ) : round_half_even x ≤ ⌊x⌋ + 1 := by
  unfold round_half_even
  split_ifs <;> omega

/-- An integer at or below `x` is at or below the rounded `x`. -/
theorem int_le_round_half_even (x : ℚ) (m : ℤ) (h : (m : ℚ) ≤ x) : m ≤ round_half_even x :=
  le_trans (Int.le_floor.mpr h) (floor_le_round_half_even x)

/-- An integer at or above `x` is at or above the rounded `x`. -/
theorem round_half_even_le_int (x : ℚ) (m : ℤ) (h : x ≤ (m : ℚ)) : round_half_even x ≤ m := by
  rcases eq_or_lt_of_le h with heq | hlt
  · subst heq
    unfold round_half_even
    simp
  · have h1 : ⌊x⌋ < m := Int.floor_lt.mpr hlt
    have h2 := round_half_even_le_floor_add_one x
    omega

/-- Rounding to the nearest integer is monotone. -/
theorem round_half_even_mono (x y : ℚ) (h : x ≤ y) : round_half_even x ≤ round_half_even y := by
  have hf : ⌊x⌋ ≤ ⌊y⌋ := Int.floor_mono h
  rcases eq_or_lt_of_le hf with heq | hlt
  · unfold round_half_even
    rw [heq]
    have hfrac : x - (⌊y⌋ : ℚ) ≤ y - (⌊y⌋ : ℚ) := by linarith
    split_ifs <;> first | omega | linarith
  · have h1 := round_half_even_le_floor_add_one x
    have h2 := floor_le_round_half_even y
    omega

/-- For `x ≥ 1` the exponent is not negative and `2 ^ e ≤ x < 2 ^ (e + 1)`. -/
theorem binary32_exponent_spec (x : ℚ) (hx : 1 ≤ x) :
    0 ≤ binary32_exponent x ∧ (2 : ℚ) ^ binary32_exponent x ≤ x ∧
      x < (2 : ℚ) ^ (binary32_exponent x + 1) := by
  have habs : |x| = x := abs_of_nonneg (by linarith)
  have hfl : 1 ≤ ⌊x⌋₊ := Nat.le_floor (by simpa using hx)
  obtain ⟨a, b⟩ := ilog2_spec ⌊x⌋₊ hfl
  unfold binary32_exponent
  rw [habs, if_pos hx]
  refine ⟨Int.natCast_nonneg _, ?_, ?_⟩
  · rw [zpow_natCast]
    calc (2 : ℚ) ^ ilog2 ⌊x⌋₊ = ((2 ^ ilog2 ⌊x⌋₊ : ℕ) : ℚ) := by push_cast; rfl
      _ ≤ (⌊x⌋₊ : ℚ) := by exact_mod_cast a
      _ ≤ x := Nat.floor_le (by linarith)
  · have h1 : x < (⌊x⌋₊ : ℚ) + 1 := Nat.lt_floor_add_one x
    have h2 : ((⌊x⌋₊ + 1 : ℕ) : ℚ) ≤ ((2 ^ (ilog2 ⌊x⌋₊ + 1) : ℕ) : ℚ) := by
      exact_mod_cast b
    have h3 : ((ilog2 ⌊x⌋₊ : ℤ) + 1) = ((ilog2 ⌊x⌋₊ + 1 : ℕ) : ℤ) := by push_cast; rfl
    rw [h3, zpow_natCast]
    push_cast at h2
    linarith

/-- `2 ^ 24` units in the last place of exponent `e` make `2 ^ (e + 1)`. -/
theorem two_pow_24_mul (e : ℤ) : (16777216 : ℚ) * 2 ^ (e - 23) = 2 ^ (e + 1) := by
  have h : (16777216 : ℚ) = 2 ^ (24 : ℤ) := by norm_num
  rw [h, ← zpow_add₀ (by norm_num : (2 : ℚ) ≠ 0)]
  congr 1
  omega

/-- `2 ^ 23` units in the last place of exponent `e` make `2 ^ e`. -/
theorem two_pow_23_mul (e : ℤ) : (8388608 : ℚ) * 2 ^ (e - 23) = 2 ^ e := by
  have h : (8388608 : ℚ) = 2 ^ (23 : ℤ) := by norm_num
  rw [h, ← zpow_add₀ (by norm_num : (2 : ℚ) ≠ 0)]
  congr 1
  omega

/-- For `x ≥ 1` the rounded value is at most the next power of two. -/
theorem binary32_le_two_pow (x : ℚ) (hx : 1 ≤ x) :
    binary32 x ≤ (2 : ℚ) ^ (binary32_exponent x + 1) := by
  obtain ⟨_, _, bx⟩ := binary32_exponent_spec x hx
  have ux : (0 : ℚ) < 2 ^ (binary32_exponent x - 23) := zpow_pos (by norm_num) _
  have hq : x / 2 ^ (binary32_exponent x - 23) ≤ ((16777216 : ℤ) : ℚ) := by
    rw [div_le_iff₀ ux]
    push_cast
    rw [two_pow_24_mul]
    exact le_of_lt bx
  have hr : ((round_half_even (x / 2 ^ (binary32_exponent x - 23)) : ℤ) : ℚ)
      ≤ (16777216 : ℚ) := by
    exact_mod_cast round_half_even_le_int _ _ hq
  unfold binary32
  rw [← two_pow_24_mul]
  exact mul_le_mul_of_nonneg_right hr (le_of_lt ux)

/-- For `x ≥ 1` the rounded value is at least the power of two at or below `x`. -/
theorem two_pow_le_binary32 (x : ℚ) (hx : 1 ≤ x) :
    (2 : ℚ) ^ binary32_exponent x ≤ binary32 x := by
  obtain ⟨_, ax, _⟩ := binary32_exponent_spec x hx
  have ux : (0 : ℚ) < 2 ^ (binary32_exponent x - 23) := zpow_pos (by norm_num) _
  have hq : ((8388608 : ℤ) : ℚ) ≤ x / 2 ^ (binary32_exponent x - 23) := by
    rw [le_div_iff₀ ux]
    push_cast
    rw [two_pow_23_mul]
    exact ax
  have hr : (8388608 : ℚ)
      ≤ ((round_half_even (x / 2 ^ (binary32_exponent x - 23)) : ℤ) : ℚ) := by
    exact_mod_cast int_le_round_half_even _ _ hq
  unfold binary32
  rw [← two_pow_23_mul (binary32_exponent x)]
  exact mul_le_mul_of_nonneg_right hr (le_of_lt ux)

/-- Rounding to binary32 is monotone on `[1, ∞)`. -/
theorem binary32_mono (x y : ℚ) (hx : 1 ≤ x) (hxy : x ≤ y) : binary32 x ≤ binary32 y := by
  obtain ⟨_, ax, bx⟩ := binary32_exponent_spec x hx
  obtain ⟨_, ay, by_⟩ := binary32_exponent_spec y (le_trans hx hxy)
  have hle : binary32_exponent x ≤ binary32_exponent y := by
    have h : (2 : ℚ) ^ binary32_exponent x < (2 : ℚ) ^ (binary32_exponent y + 1) := by linarith
    have := (zpow_lt_zpow_iff_right₀ (by norm_num : (1 : ℚ) < 2)).mp h
    omega
  have uy : (0 : ℚ) < 2 ^ (binary32_exponent y - 23) := zpow_pos (by norm_num) _
  rcases eq_or_lt_of_le hle with heq | hlt
  · unfold binary32
    rw [heq]
    apply mul_le_mul_of_nonneg_right _ (le_of_lt uy)
    exact_mod_cast round_half_even_mono _ _ (div_le_div_of_nonneg_right hxy (le_of_lt uy))
  · have e1 := binary32_le_two_pow x hx
    have e2 := two_pow_le_binary32 y (le_trans hx hxy)
    have e3 : (2 : ℚ) ^ (binary32_exponent x + 1) ≤ (2 : ℚ) ^ binary32_exponent y :=
      zpow_le_zpow_right₀ (by norm_num) (by omega)
    linarith

/-- With a divisor other than zero the test `a / b < c` compares the
quotient. -/
theorem float_div_lt_of_ne (a b c : ℚ) (hb : b ≠ 0) :
    float_div_lt a b c = decide (a / b < c) := by
  unfold float_div_lt
  rw [if_neg hb]

/-- When the coordinate transform succeeds for a point, the properties written
for it are the blend of its base sample, its corrected base sample and its
interpolated perturbation. -/
theorem cvmsi_query_prop_of_ok (ext : cvmsi_externals) (st : cvmsi_state)
    (pnt : ℕ → cvmsi_point_t) (data : ℕ → cvmsi_data_t) (numpts counter : ℕ)
    (hinit : st.cvmsi_init_flag ≠ 0) (hc : counter < numpts)
    (herr : (cvmsi_geo cvmsi_build_flags ext st pnt counter).errcode = 0) :
    ((cvmsi_query ext st pnt data numpts).2 counter).prop
      = cvmsi_blend cvmsi_build_flags
          ((cvms_base cvmsi_build_flags ext pnt numpts).vp counter)
          ((cvms_base cvmsi_build_flags ext pnt numpts).vs counter)
          ((cvms_base cvmsi_build_flags ext pnt numpts).rho counter)
          (cvms_calc ((cvms_base cvmsi_build_flags ext pnt numpts).vp counter)
            ((cvms_base cvmsi_build_flags ext pnt numpts).vs counter)
            ((cvms_base cvmsi_build_flags ext pnt numpts).rho counter))
          ⟨0, 0, 0, cvmsi_diff_vp st (cvmsi_geo cvmsi_build_flags ext st pnt counter).coords,
            cvmsi_diff_vs st (cvmsi_geo cvmsi_build_flags ext st pnt counter).coords,
            ext.malloc_diff_rho counter⟩ := by
  rw [(cvmsi_query_apply ext st pnt data numpts counter hinit hc).2]
  unfold cvmsi_query_point
  simp only [build_ADD_GTL, if_pos herr]
  simp

/-- The FloorGated blend, base `vs` below the gate and the single-precision
sum `vs + diff_vs` below `vs`: the base triple is used as it is. -/
theorem cvmsi_blend_gate_fallback (vp vs rho : ℚ) (corr : cvms_calc_t) (prop : cvmsi_prop_t)
    (hgate : vs < 1000) (hlow : binary32 (vs + prop.diff_vs) < binary32 vs) :
    cvmsi_blend cvmsi_build_flags vp vs rho corr prop
      = { prop with vs := vs, vp := vp, rho := rho } := by
  unfold cvmsi_blend
  simp only [build_ADD_ALT_GTL, build_ADD_TJ_GTL, if_pos hgate, if_pos hlow]
  simp

/-- The FloorGated blend, base `vs` below the gate and the single-precision
sum `vs + diff_vs` not below `vs`: the perturbation is added to the base
sample and `vp` is set to `1.45 * vs` when the re-check of the ratio holds. -/
theorem cvmsi_blend_gate_apply (vp vs rho : ℚ) (corr : cvms_calc_t) (prop : cvmsi_prop_t)
    (hgate : vs < 1000) (hlow : ¬ binary32 (vs + prop.diff_vs) < binary32 vs) :
    cvmsi_blend cvmsi_build_flags vp vs rho corr prop
      = if float_div_lt (vp + prop.diff_vp) (vs + prop.diff_vs) 1.45 = true then
          { prop with vs := vs + prop.diff_vs, vp := (vs + prop.diff_vs) * 1.45, rho := rho }
        else
          { prop with vs := vs + prop.diff_vs, vp := vp + prop.diff_vp, rho := rho } := by
  unfold cvmsi_blend
  simp only [build_ADD_ALT_GTL, build_ADD_TJ_GTL, if_pos hgate, if_neg hlow]
  simp

/-- The FloorGated blend, base `vs` at or above the gate: the perturbation is
added to the corrected base sample. -/
theorem cvmsi_blend_above_gate (vp vs rho : ℚ) (corr : cvms_calc_t) (prop : cvmsi_prop_t)
    (hgate : ¬ vs < 1000) :
    cvmsi_blend cvmsi_build_flags vp vs rho corr prop
      = { prop with vs := corr.vs + prop.diff_vs, vp := corr.vp + prop.diff_vp,
                    rho := corr.rho } := by
  unfold cvmsi_blend
  simp only [build_ADD_ALT_GTL, build_ADD_TJ_GTL, if_neg hgate]
  simp

/-- The FloorGated blend, base `vs` below the gate: `rho` is the base `rho`. -/
theorem cvmsi_blend_rho_below_gate (vp vs rho : ℚ) (corr : cvms_calc_t) (prop : cvmsi_prop_t)
    (hgate : vs < 1000) :
    (cvmsi_blend cvmsi_build_flags vp vs rho corr prop).rho = rho := by
  by_cases hlow : binary32 (vs + prop.diff_vs) < binary32 vs
  · rw [cvmsi_blend_gate_fallback vp vs rho corr prop hgate hlow]
  · rw [cvmsi_blend_gate_apply vp vs rho corr prop hgate hlow]
    split_ifs <;> rfl

/-- C8 (as stated, refuted): the base sample `(300, 250, 2000)` is above the
floors; with a successful transform and the perturbation `(-10, -10)` the
final values are `vp = 300`, `vs = 250`, whose ratio `1.2` is below `1.45`. -/
theorem cvmsi_query_ratio_not_always :
    ¬ (∀ (ext : cvmsi_externals) (st : cvmsi_state) (pnt : ℕ → cvmsi_point_t)
        (data : ℕ → cvmsi_data_t) (numpts counter : ℕ),
        st.cvmsi_init_flag ≠ 0 → counter < numpts →
        min_cvms_vp ≤ (cvms_base cvmsi_build_flags ext pnt numpts).vp counter →
        min_cvms_vs ≤ (cvms_base cvmsi_build_flags ext pnt numpts).vs counter →
        min_cvms_rho ≤ (cvms_base cvmsi_build_flags ext pnt numpts).rho counter →
        1.45 ≤ ((cvmsi_query ext st pnt data numpts).2 counter).prop.vp
                / ((cvmsi_query ext st pnt data numpts).2 counter).prop.vs) := by
  intro h
  have h1 := h (demo_externals 300 250 2000 0) (demo_state (-10) (-10)) demo_pnt demo_data 1 0
    (by decide) (by decide) (by decide!) (by decide!) (by decide!)
  revert h1
  decide!

/-- C8 (amended): for a point whose transform succeeds, whose base `vs` is at
or above the floor 100 and below the gate 1000, and whose interpolated
`diff_vs` is not negative, the final output of `cvmsi_query` satisfies
`vp / vs ≥ 1.45`. -/
theorem cvmsi_query_ratio_gate_apply (ext : cvmsi_externals) (st : cvmsi_state)
    (pnt : ℕ → cvmsi_point_t) (data : ℕ → cvmsi_data_t) (numpts counter : ℕ)
    (hinit : st.cvmsi_init_flag ≠ 0) (hc : counter < numpts)
    (herr : (cvmsi_geo cvmsi_build_flags ext st pnt counter).errcode = 0)
    (hfloor : min_cvms_vs ≤ (cvms_base cvmsi_build_flags ext pnt numpts).vs counter)
    (hgate : (cvms_base cvmsi_build_flags ext pnt numpts).vs counter < 1000)
    (hdiff : 0 ≤ cvmsi_diff_vs st (cvmsi_geo cvmsi_build_flags ext st pnt counter).coords) :
    1.45 ≤ ((cvmsi_query ext st pnt data numpts).2 counter).prop.vp
            / ((cvmsi_query ext st pnt data numpts).2 counter).prop.vs := by
  rw [cvmsi_query_prop_of_ok ext st pnt data numpts counter hinit hc herr]
  have hpos : 0 < (cvms_base cvmsi_build_flags ext pnt numpts).vs counter
      + cvmsi_diff_vs st (cvmsi_geo cvmsi_build_flags ext st pnt counter).coords := by
    unfold min_cvms_vs at hfloor
    linarith
  have hlow : ¬ binary32 ((cvms_base cvmsi_build_flags ext pnt numpts).vs counter
      + cvmsi_diff_vs st (cvmsi_geo cvmsi_build_flags ext st pnt counter).coords)
      < binary32 ((cvms_base cvmsi_build_flags ext pnt numpts).vs counter) := by
    apply not_lt.mpr
    apply binary32_mono
    · unfold min_cvms_vs at hfloor
      linarith
    · linarith
  rw [cvmsi_blend_gate_apply _ _ _ _ _ hgate (by simp only []; exact hlow)]
  simp only [float_div_lt_of_ne _ _ _ (ne_of_gt hpos), decide_eq_true_eq]
  split_ifs with hr
  · simp only []
    rw [mul_comm, mul_div_assoc, div_self (ne_of_gt hpos), mul_one]
  · simp only []
    exact not_lt.mp hr

/-- Witness of C8 (amended): base sample `(1000, 900, 2000)`, perturbation
`(50, 50)` in every cell. -/
theorem cvmsi_query_ratio_gate_apply_witness :
    1.45 ≤ ((cvmsi_query (demo_externals 1000 900 2000 0) (demo_state 50 50) demo_pnt
              demo_data 1).2 0).prop.vp
            / ((cvmsi_query (demo_externals 1000 900 2000 0) (demo_state 50 50) demo_pnt
              demo_data 1).2 0).prop.vs :=
  cvmsi_query_ratio_gate_apply (demo_externals 1000 900 2000 0) (demo_state 50 50) demo_pnt
    demo_data 1 0 (by decide) (by decide) (by decide) (by decide!) (by decide!) (by decide!)

/-- C9 (as stated, refuted): with a successful transform and the base sample
`(5000, 900, 2000)` the final `rho` is the uncorrected `2000`, not the
corrected base `rho`. -/
theorem cvmsi_query_rho_not_always_corrected :
    ¬ (∀ (ext : cvmsi_externals) (st : cvmsi_state) (pnt : ℕ → cvmsi_point_t)
        (data : ℕ → cvmsi_data_t) (numpts counter : ℕ),
        st.cvmsi_init_flag ≠ 0 → counter < numpts →
        ((cvmsi_query ext st pnt data numpts).2 counter).prop.rho
          = (cvms_calc ((cvms_base cvmsi_build_flags ext pnt numpts).vp counter)
              ((cvms_base cvmsi_build_flags ext pnt numpts).vs counter)
              ((cvms_base cvmsi_build_flags ext pnt numpts).rho counter)).rho) := by
  intro h
  have h1 := h (demo_externals 5000 900 2000 0) (demo_state 50 50) demo_pnt demo_data 1 0
    (by decide) (by decide)
  revert h1
  decide!

/-- C9 (amended): the final `rho` of `cvmsi_query` is never perturbed; it is
the corrected base `rho` when the transform succeeds and the uncorrected base
`vs` is at or above 1000, and the uncorrected base `rho` when the transform
fails or the uncorrected base `vs` is below 1000. -/
theorem cvmsi_query_rho (ext : cvmsi_externals) (st : cvmsi_state)
    (pnt : ℕ → cvmsi_point_t) (data : ℕ → cvmsi_data_t) (numpts counter : ℕ)
    (hinit : st.cvmsi_init_flag ≠ 0) (hc : counter < numpts) :
    (((cvmsi_geo cvmsi_build_flags ext st pnt counter).errcode = 0 ∧
        1000 ≤ (cvms_base cvmsi_build_flags ext pnt numpts).vs counter) →
      ((cvmsi_query ext st pnt data numpts).2 counter).prop.rho
        = (cvms_calc ((cvms_base cvmsi_build_flags ext pnt numpts).vp counter)
            ((cvms_base cvmsi_build_flags ext pnt numpts).vs counter)
            ((cvms_base cvmsi_build_flags ext pnt numpts).rho counter)).rho) ∧
    (((cvmsi_geo cvmsi_build_flags ext st pnt counter).errcode ≠ 0 ∨
        (cvms_base cvmsi_build_flags ext pnt numpts).vs counter < 1000) →
      ((cvmsi_query ext st pnt data numpts).2 counter).prop.rho
        = (cvms_base cvmsi_build_flags ext pnt numpts).rho counter) := by
  constructor
  · rintro ⟨herr, hgate⟩
    rw [cvmsi_query_prop_of_ok ext st pnt data numpts counter hinit hc herr,
      cvmsi_blend_above_gate _ _ _ _ _ (not_lt.mpr hgate)]
  · intro hor
    by_cases herr : (cvmsi_geo cvmsi_build_flags ext st pnt counter).errcode = 0
    · have hgate : (cvms_base cvmsi_build_flags ext pnt numpts).vs counter < 1000 := by
        rcases hor with h | h
        · exact absurd herr h
        · exact h
      rw [cvmsi_query_prop_of_ok ext st pnt data numpts counter hinit hc herr]
      exact cvmsi_blend_rho_below_gate _ _ _ _ _ hgate
    · rw [cvmsi_query_prop_of_error ext st pnt data numpts counter hinit hc herr]

/-- Witness of C9 (amended): base sample `(5000, 900, 2000)`, successful
transform: base `vs` is below 1000 and the final `rho` is the uncorrected
`2000`. -/
theorem cvmsi_query_rho_witness :
    (((cvmsi_geo cvmsi_build_flags (demo_externals 5000 900 2000 0) (demo_state 50 50)
          demo_pnt 0).errcode = 0 ∧
        1000 ≤ (cvms_base cvmsi_build_flags (demo_externals 5000 900 2000 0) demo_pnt 1).vs 0) →
      ((cvmsi_query (demo_externals 5000 900 2000 0) (demo_state 50 50) demo_pnt demo_data
          1).2 0).prop.rho
        = (cvms_calc ((cvms_base cvmsi_build_flags (demo_externals 5000 900 2000 0) demo_pnt 1).vp 0)
            ((cvms_base cvmsi_build_flags (demo_externals 5000 900 2000 0) demo_pnt 1).vs 0)
            ((cvms_base cvmsi_build_flags (demo_externals 5000 900 2000 0) demo_pnt 1).rho 0)).rho) ∧
    (((cvmsi_geo cvmsi_build_flags (demo_externals 5000 900 2000 0) (demo_state 50 50)
          demo_pnt 0).errcode ≠ 0 ∨
        (cvms_base cvmsi_build_flags (demo_externals 5000 900 2000 0) demo_pnt 1).vs 0 < 1000) →
      ((cvmsi_query (demo_externals 5000 900 2000 0) (demo_state 50 50) demo_pnt demo_data
          1).2 0).prop.rho
        = (cvms_base cvmsi_build_flags (demo_externals 5000 900 2000 0) demo_pnt 1).rho 0) :=
  cvmsi_query_rho (demo_externals 5000 900 2000 0) (demo_state 50 50) demo_pnt demo_data 1 0
    (by decide) (by decide)

/-- C4 (evaluation at the failing input): batch of 3 unowned points of which
only point 2 (index 1) lies outside the region.  The call reports a data gap,
but the result of point 3 (`vp = 1003`) is written to slot 2 (index 1), and
slot 3 (index 2) is left unowned. -/
theorem ucvm_cvmsi_model_query_gap_batch :
    (ucvm_cvmsi_model_query batch_ucvm_externals batch_externals (demo_state 0 0) batch_state 7
      ucvm_ctype_t.UCVM_COORD_GEO_DEPTH 3 batch_pnt_gap batch_data_unowned).1
      = ucvm_code_t.UCVM_CODE_DATAGAP ∧
    ((ucvm_cvmsi_model_query batch_ucvm_externals batch_externals (demo_state 0 0) batch_state 7
      ucvm_ctype_t.UCVM_COORD_GEO_DEPTH 3 batch_pnt_gap batch_data_unowned).2 0).crust
      = ⟨7, 1001, 501, 2001⟩ ∧
    ((ucvm_cvmsi_model_query batch_ucvm_externals batch_externals (demo_state 0 0) batch_state 7
      ucvm_ctype_t.UCVM_COORD_GEO_DEPTH 3 batch_pnt_gap batch_data_unowned).2 1).crust
      = ⟨7, 1003, 503, 2003⟩ ∧
    ((ucvm_cvmsi_model_query batch_ucvm_externals batch_externals (demo_state 0 0) batch_state 7
      ucvm_ctype_t.UCVM_COORD_GEO_DEPTH 3 batch_pnt_gap batch_data_unowned).2 2).crust
      = ⟨-1, 0, 0, 0⟩ := by
  decide!

/-- C5 (evaluation at the failing input): batch of 2 points inside the region,
the first slot already owned by model 3 with `(111, 55, 2222)`.  The first
point is not eligible, yet its slot is overwritten with the result of the
second point, and the second slot is left unowned. -/
theorem ucvm_cvmsi_model_query_owned_slot :
    (batch_data_owned 0).crust = ⟨3, 111, 55, 2222⟩ ∧
    ((ucvm_cvmsi_model_query batch_ucvm_externals batch_externals (demo_state 0 0) batch_state 7
      ucvm_ctype_t.UCVM_COORD_GEO_DEPTH 2 batch_pnt_inside batch_data_owned).2 0).crust
      = ⟨7, 1002, 502, 2002⟩ ∧
    ((ucvm_cvmsi_model_query batch_ucvm_externals batch_externals (demo_state 0 0) batch_state 7
      ucvm_ctype_t.UCVM_COORD_GEO_DEPTH 2 batch_pnt_inside batch_data_owned).2 1).crust
      = ⟨-1, 0, 0, 0⟩ := by
  decide!

/-- The write-back loop only touches the slots `maxPtsTimes * max_points + j`
with `j < nn`: every slot at or beyond `maxPtsTimes * max_points + nn` keeps
its content. -/
theorem write_back_of_le (id : ℤ) (max_points m nn : ℕ) (buf : ℕ → cvmsi_data_t)
    (data : ℕ → ucvm_data_t) (k : ℕ) (hk : m * max_points + nn ≤ k) :
    write_back id max_points m nn buf data k = data k := by
  unfold write_back
  induction nn with
  | zero => simp
  | succ nn ih =>
    rw [List.range_succ, List.foldl_append]
    simp only [List.foldl_cons, List.foldl_nil]
    have hne : k ≠ m * max_points + nn := by omega
    rw [Function.update_noteq hne]
    exact ih (by omega)

/-- A selected point has an unowned slot, a domain tag that requests the
model, and lies in the region. -/
theorem point_selected_iff (ue : ucvm_externals) (cmode : ucvm_ctype_t) (pnt : ℕ → ucvm_point_t)
    (data : ℕ → ucvm_data_t) (i : ℕ) :
    point_selected ue cmode pnt data i = true ↔
      (data i).crust.source = ue.UCVM_SOURCE_NONE ∧
      ((data i).domain = ucvm_domain_t.UCVM_DOMAIN_INTERP ∨
        (data i).domain = ucvm_domain_t.UCVM_DOMAIN_CRUST) ∧
      ue.region_contains_null cmode (pnt i) = true := by
  unfold point_selected
  simp [and_assoc]

/-- One iteration of the main loop keeps the loop invariant: the number of
points enqueued so far does not exceed the number of points scanned, the slots
not yet scanned hold their content on entry, and the data-gap flag is set
exactly when a scanned point is a per-point miss. -/
theorem query_loop_body_inv (ue : ucvm_externals) (ext : cvmsi_externals) (cst : cvmsi_state)
    (id : ℤ) (max_points : ℕ) (cmode : ucvm_ctype_t) (pnt : ℕ → ucvm_point_t)
    (data : ℕ → ucvm_data_t) (s : query_loop_t) (i : ℕ)
    (hcount : s.maxPtsTimes * max_points + s.nn ≤ i)
    (hframe : ∀ k, i ≤ k → s.data k = data k)
    (hgap : s.datagap ≠ 0 ↔ ∃ k, k < i ∧ data_gap_point ue cmode pnt data k) :
    (query_loop_body ue ext cst id max_points cmode pnt s i).maxPtsTimes * max_points
        + (query_loop_body ue ext cst id max_points cmode pnt s i).nn ≤ i + 1 ∧
    (∀ k, i + 1 ≤ k →
      (query_loop_body ue ext cst id max_points cmode pnt s i).data k = data k) ∧
    ((query_loop_body ue ext cst id max_points cmode pnt s i).datagap ≠ 0 ↔
      ∃ k, k < i + 1 ∧ data_gap_point ue cmode pnt data k) := by
  have hi : s.data i = data i := hframe i le_rfl
  have hsel_eq : point_selected ue cmode pnt s.data i = point_selected ue cmode pnt data i := by
    unfold point_selected
    rw [hi]
  have hext : ∀ P : Prop, ¬ data_gap_point ue cmode pnt data i →
      ((∃ k, k < i ∧ data_gap_point ue cmode pnt data k) ↔ P) →
      ((∃ k, k < i + 1 ∧ data_gap_point ue cmode pnt data k) ↔ P) := by
    intro P hno h
    rw [← h]
    constructor
    · rintro ⟨k, hk, hg⟩
      have hki : k ≠ i := fun e => hno (e ▸ hg)
      exact ⟨k, by omega, hg⟩
    · rintro ⟨k, hk, hg⟩
      exact ⟨k, by omega, hg⟩
  unfold query_loop_body
  rw [hsel_eq, hi]
  by_cases hsel : point_selected ue cmode pnt data i = true
  · rw [if_pos hsel]
    obtain ⟨hsrc, hdom, hreg⟩ := (point_selected_iff ue cmode pnt data i).mp hsel
    by_cases hd : (data i).depth + (data i).shift_cr ≥ 0
    · have hno : ¬ data_gap_point ue cmode pnt data i := by
        rintro ⟨_, h⟩
        rcases h with h | h | h
        · rcases hdom with hd1 | hd1
          · exact h.1 hd1
          · exact h.2 hd1
        · rw [hreg] at h
          exact Bool.noConfusion h
        · exact absurd hd (not_le.mpr h)
      simp only [if_pos hd]
      by_cases hfull : s.nn + 1 = max_points
      · simp only [if_pos hfull]
        refine ⟨?_, ?_, ?_⟩
        · have : (s.maxPtsTimes + 1) * max_points = s.maxPtsTimes * max_points + max_points := by
            ring
          try dsimp only
          omega
        · intro k hk
          try dsimp only
          rw [write_back_of_le _ _ _ _ _ _ _ (by omega)]
          exact hframe k (by omega)
        · exact ((hext _ hno hgap.symm).symm)
      · simp only [if_neg hfull]
        refine ⟨by omega, fun k hk => hframe k (by omega), ?_⟩
        exact ((hext _ hno hgap.symm).symm)
    · simp only [if_neg hd]
      refine ⟨by omega, fun k hk => hframe k (by omega), ?_⟩
      constructor
      · intro _
        exact ⟨i, by omega, hsrc, Or.inr (Or.inr (not_le.mp hd))⟩
      · intro _
        exact one_ne_zero
  · rw [if_neg hsel]
    by_cases hsrc : (data i).crust.source = ue.UCVM_SOURCE_NONE
    · rw [if_pos hsrc]
      refine ⟨by dsimp only; omega, fun k hk => hframe k (by omega), ?_⟩
      constructor
      · intro _
        refine ⟨i, by omega, hsrc, ?_⟩
        by_cases hdom : (data i).domain = ucvm_domain_t.UCVM_DOMAIN_INTERP ∨
            (data i).domain = ucvm_domain_t.UCVM_DOMAIN_CRUST
        · right
          left
          by_contra hreg
          exact hsel ((point_selected_iff ue cmode pnt data i).mpr
            ⟨hsrc, hdom, by simpa using hreg⟩)
        · left
          exact ⟨fun h => hdom (Or.inl h), fun h => hdom (Or.inr h)⟩
      · intro _
        exact one_ne_zero
    · rw [if_neg hsrc]
      have hno : ¬ data_gap_point ue cmode pnt data i := fun h => hsrc h.1
      refine ⟨by omega, fun k hk => hframe k (by omega), ?_⟩
      exact ((hext _ hno hgap.symm).symm)

/-- The loop invariant holds after scanning the first `n` points. -/
theorem query_loop_inv (ue : ucvm_externals) (ext : cvmsi_externals) (cst : cvmsi_state)
    (id : ℤ) (max_points : ℕ) (cmode : ucvm_ctype_t) (pnt : ℕ → ucvm_point_t)
    (data : ℕ → ucvm_data_t) (pb : ℕ → cvmsi_point_t) (db : ℕ → cvmsi_data_t) (n : ℕ) :
    ((List.range n).foldl (query_loop_body ue ext cst id max_points cmode pnt)
        ⟨0, 0, 0, pb, db, data⟩).maxPtsTimes * max_points
      + ((List.range n).foldl (query_loop_body ue ext cst id max_points cmode pnt)
        ⟨0, 0, 0, pb, db, data⟩).nn ≤ n ∧
    (∀ k, n ≤ k →
      ((List.range n).foldl (query_loop_body ue ext cst id max_points cmode pnt)
        ⟨0, 0, 0, pb, db, data⟩).data k = data k) ∧
    (((List.range n).foldl (query_loop_body ue ext cst id max_points cmode pnt)
        ⟨0, 0, 0, pb, db, data⟩).datagap ≠ 0 ↔
      ∃ k, k < n ∧ data_gap_point ue cmode pnt data k) := by
  induction n with
  | zero =>
    refine ⟨by simp, fun k _ => rfl, ?_⟩
    simp
  | succ n ih =>
    rw [List.range_succ, List.foldl_append]
    simp only [List.foldl_cons, List.foldl_nil]
    exact query_loop_body_inv ue ext cst id max_points cmode pnt data _ n ih.1 ih.2.1 ih.2.2

/-- The code returned by the query with any buffer capacity, for a valid id
and a supported coordinate mode: data gap when some scanned point is a
per-point miss, success when none is. -/
theorem ucvm_cvmsi_model_query_cap_code (max_points : ℕ) (ue : ucvm_externals)
    (ext : cvmsi_externals) (cst : cvmsi_state) (ust : ucvm_cvmsi_state) (id : ℤ)
    (cmode : ucvm_ctype_t) (n : ℕ) (pnt : ℕ → ucvm_point_t) (data : ℕ → ucvm_data_t)
    (hid : id = ust.ucvm_cvmsi_id)
    (hmode : cmode = ucvm_ctype_t.UCVM_COORD_GEO_DEPTH ∨
      cmode = ucvm_ctype_t.UCVM_COORD_GEO_ELEV) :
    ((∃ k, k < n ∧ data_gap_point ue cmode pnt data k) →
      (ucvm_cvmsi_model_query_cap max_points ue ext cst ust id cmode n pnt data).1
        = ucvm_code_t.UCVM_CODE_DATAGAP) ∧
    ((¬ ∃ k, k < n ∧ data_gap_point ue cmode pnt data k) →
      (ucvm_cvmsi_model_query_cap max_points ue ext cst ust id cmode n pnt data).1
        = ucvm_code_t.UCVM_CODE_SUCCESS) := by
  have hinv := (query_loop_inv ue ext cst ust.ucvm_cvmsi_id max_points cmode pnt data
    ust.pntBuffer ust.dataBuffer n).2.2
  unfold ucvm_cvmsi_model_query_cap
  rw [if_neg (not_not.mpr hid)]
  constructor
  · intro hg
    have h := hinv.mpr hg
    rcases hmode with rfl | rfl
    · simp only []
      split_ifs <;> rfl
    · simp only []
      split_ifs <;> rfl
  · intro hg
    have h : ¬ _ := fun h => hg (hinv.mp h)
    rcases hmode with rfl | rfl
    · simp only []
      split_ifs <;> rfl
    · simp only []
      split_ifs <;> rfl

/-- C6: for a valid model id and a supported coordinate mode,
`ucvm_cvmsi_model_query` returns the data-gap code if and only if at least one
point whose slot was unresolved on entry was not enqueued (wrong domain tag,
outside the region, or negative shifted depth), returns success otherwise, and
never returns the error code. -/
theorem ucvm_cvmsi_model_query_code (ue : ucvm_externals)
    (ext : cvmsi_externals) (cst : cvmsi_state) (ust : ucvm_cvmsi_state) (id : ℤ)
    (cmode : ucvm_ctype_t) (n : ℕ) (pnt : ℕ → ucvm_point_t) (data : ℕ → ucvm_data_t)
    (hid : id = ust.ucvm_cvmsi_id)
    (hmode : cmode = ucvm_ctype_t.UCVM_COORD_GEO_DEPTH ∨
      cmode = ucvm_ctype_t.UCVM_COORD_GEO_ELEV) :
    ((ucvm_cvmsi_model_query ue ext cst ust id cmode n pnt data).1
        = ucvm_code_t.UCVM_CODE_DATAGAP ↔
      ∃ i, i < n ∧ slot_unresolved ue data i ∧ not_enqueued ue cmode pnt data i) ∧
    ((ucvm_cvmsi_model_query ue ext cst ust id cmode n pnt data).1
        = ucvm_code_t.UCVM_CODE_SUCCESS ↔
      ¬ ∃ i, i < n ∧ slot_unresolved ue data i ∧ not_enqueued ue cmode pnt data i) ∧
    (ucvm_cvmsi_model_query ue ext cst ust id cmode n pnt data).1
      ≠ ucvm_code_t.UCVM_CODE_ERROR := by
  obtain ⟨h1, h2⟩ := ucvm_cvmsi_model_query_cap_code CVMSI_MAX_POINTS ue ext cst ust id cmode
    n pnt data hid hmode
  unfold data_gap_point at h1 h2
  unfold ucvm_cvmsi_model_query
  by_cases hg : ∃ k, k < n ∧ slot_unresolved ue data k ∧ not_enqueued ue cmode pnt data k
  · rw [h1 hg]
    simp [hg]
  · rw [h2 hg]
    simp [hg]

/-- Witness of C6: the batch of 3 unowned points of which the second lies
outside the region, queried with the registered id 7 in depth mode. -/
theorem ucvm_cvmsi_model_query_code_witness :
    ((ucvm_cvmsi_model_query batch_ucvm_externals batch_externals (demo_state 0 0) batch_state 7
        ucvm_ctype_t.UCVM_COORD_GEO_DEPTH 3 batch_pnt_gap batch_data_unowned).1
        = ucvm_code_t.UCVM_CODE_DATAGAP ↔
      ∃ i, i < 3 ∧ slot_unresolved batch_ucvm_externals batch_data_unowned i ∧
        not_enqueued batch_ucvm_externals ucvm_ctype_t.UCVM_COORD_GEO_DEPTH batch_pnt_gap
          batch_data_unowned i) ∧
    ((ucvm_cvmsi_model_query batch_ucvm_externals batch_externals (demo_state 0 0) batch_state 7
        ucvm_ctype_t.UCVM_COORD_GEO_DEPTH 3 batch_pnt_gap batch_data_unowned).1
        = ucvm_code_t.UCVM_CODE_SUCCESS ↔
      ¬ ∃ i, i < 3 ∧ slot_unresolved batch_ucvm_externals batch_data_unowned i ∧
        not_enqueued batch_ucvm_externals ucvm_ctype_t.UCVM_COORD_GEO_DEPTH batch_pnt_gap
          batch_data_unowned i) ∧
    (ucvm_cvmsi_model_query batch_ucvm_externals batch_externals (demo_state 0 0) batch_state 7
        ucvm_ctype_t.UCVM_COORD_GEO_DEPTH 3 batch_pnt_gap batch_data_unowned).1
      ≠ ucvm_code_t.UCVM_CODE_ERROR :=
  ucvm_cvmsi_model_query_code batch_ucvm_externals batch_externals (demo_state 0 0) batch_state 7
    ucvm_ctype_t.UCVM_COORD_GEO_DEPTH 3 batch_pnt_gap batch_data_unowned rfl (Or.inl rfl)

/-! ## Theorems: the FloorGated policy of `cvmsi_query` -/

/-- The FloorGated blend, base `vs` below the gate and the single-precision
sum `vs + diff_vs` not below `vs`: the final `vs` is the base `vs` plus
`diff_vs`. -/
theorem cvmsi_blend_gate_apply_vs (vp vs rho : ℚ) (corr : cvms_calc_t) (prop : cvmsi_prop_t)
    (hgate : vs < 1000) (hlow : ¬ binary32 (vs + prop.diff_vs) < binary32 vs) :
    (cvmsi_blend cvmsi_build_flags vp vs rho corr prop).vs = vs + prop.diff_vs := by
  rw [cvmsi_blend_gate_apply vp vs rho corr prop hgate hlow]
  split_ifs <;> rfl

/-- The FloorGated blend, base `vs` below the gate and the single-precision
sum `vs + diff_vs` not below `vs`: the final `vp` is the base `vp` plus
`diff_vp`, replaced by `1.45` times the final `vs` when the re-check of the
ratio holds. -/
theorem cvmsi_blend_gate_apply_vp (vp vs rho : ℚ) (corr : cvms_calc_t) (prop : cvmsi_prop_t)
    (hgate : vs < 1000) (hlow : ¬ binary32 (vs + prop.diff_vs) < binary32 vs) :
    (cvmsi_blend cvmsi_build_flags vp vs rho corr prop).vp
      = if float_div_lt (vp + prop.diff_vp) (vs + prop.diff_vs) 1.45 = true then
          (vs + prop.diff_vs) * 1.45
        else vp + prop.diff_vp := by
  rw [cvmsi_blend_gate_apply vp vs rho corr prop hgate hlow]
  split_ifs <;> rfl

/-- Below the gate, with a single-precision sum `vs + diff_vs` that is not
below the base `vs` and not zero, the final `vs` and `vp` written by
`cvmsi_query` are built on the uncorrected base sample. -/
theorem cvmsi_query_gate_apply_fields (ext : cvmsi_externals) (st : cvmsi_state)
    (pnt : ℕ → cvmsi_point_t) (data : ℕ → cvmsi_data_t) (numpts counter : ℕ)
    (hinit : st.cvmsi_init_flag ≠ 0) (hc : counter < numpts)
    (herr : (cvmsi_geo cvmsi_build_flags ext st pnt counter).errcode = 0)
    (hgate : (cvms_base cvmsi_build_flags ext pnt numpts).vs counter < 1000)
    (hlow : ¬ (binary32 ((cvms_base cvmsi_build_flags ext pnt numpts).vs counter
        + cvmsi_diff_vs st (cvmsi_geo cvmsi_build_flags ext st pnt counter).coords)
        < binary32 ((cvms_base cvmsi_build_flags ext pnt numpts).vs counter)))
    (hne : (cvms_base cvmsi_build_flags ext pnt numpts).vs counter
        + cvmsi_diff_vs st (cvmsi_geo cvmsi_build_flags ext st pnt counter).coords ≠ 0) :
    ((cvmsi_query ext st pnt data numpts).2 counter).prop.vs
      = (cvms_base cvmsi_build_flags ext pnt numpts).vs counter
        + cvmsi_diff_vs st (cvmsi_geo cvmsi_build_flags ext st pnt counter).coords ∧
    ((cvmsi_query ext st pnt data numpts).2 counter).prop.vp
      = if ((cvms_base cvmsi_build_flags ext pnt numpts).vp counter
              + cvmsi_diff_vp st (cvmsi_geo cvmsi_build_flags ext st pnt counter).coords)
            / ((cvms_base cvmsi_build_flags ext pnt numpts).vs counter
              + cvmsi_diff_vs st (cvmsi_geo cvmsi_build_flags ext st pnt counter).coords)
            < 1.45
        then ((cvms_base cvmsi_build_flags ext pnt numpts).vs counter
              + cvmsi_diff_vs st (cvmsi_geo cvmsi_build_flags ext st pnt counter).coords) * 1.45
        else (cvms_base cvmsi_build_flags ext pnt numpts).vp counter
              + cvmsi_diff_vp st (cvmsi_geo cvmsi_build_flags ext st pnt counter).coords := by
  rw [cvmsi_query_prop_of_ok ext st pnt data numpts counter hinit hc herr]
  refine ⟨cvmsi_blend_gate_apply_vs _ _ _ _ _ hgate (by simp only []; exact hlow), ?_⟩
  rw [cvmsi_blend_gate_apply_vp _ _ _ _ _ hgate (by simp only []; exact hlow)]
  simp only [float_div_lt_of_ne _ _ _ hne, decide_eq_true_eq]

/-- C12: under the FloorGated policy, for a point whose transform succeeds
with uncorrected base `vs = 900` and `diff_vs = 50`, the final `vs` is `950`,
the perturbation is applied to `vp` (base `vp` plus `diff_vp`, or `1.45 * 950`
after the re-check), and the final values satisfy `vp / vs ≥ 1.45`. -/
theorem cvmsi_query_gate_scenario (ext : cvmsi_externals) (st : cvmsi_state)
    (pnt : ℕ → cvmsi_point_t) (data : ℕ → cvmsi_data_t) (numpts counter : ℕ)
    (hinit : st.cvmsi_init_flag ≠ 0) (hc : counter < numpts)
    (herr : (cvmsi_geo cvmsi_build_flags ext st pnt counter).errcode = 0)
    (hvs : (cvms_base cvmsi_build_flags ext pnt numpts).vs counter = 900)
    (hdiff : cvmsi_diff_vs st (cvmsi_geo cvmsi_build_flags ext st pnt counter).coords = 50) :
    ((cvmsi_query ext st pnt data numpts).2 counter).prop.vs = 950 ∧
    (((cvmsi_query ext st pnt data numpts).2 counter).prop.vp
        = (cvms_base cvmsi_build_flags ext pnt numpts).vp counter
          + cvmsi_diff_vp st (cvmsi_geo cvmsi_build_flags ext st pnt counter).coords ∨
      ((cvmsi_query ext st pnt data numpts).2 counter).prop.vp = 950 * 1.45) ∧
    1.45 ≤ ((cvmsi_query ext st pnt data numpts).2 counter).prop.vp
            / ((cvmsi_query ext st pnt data numpts).2 counter).prop.vs := by
  have hgate : (cvms_base cvmsi_build_flags ext pnt numpts).vs counter < 1000 := by
    rw [hvs]; norm_num
  have hlow : ¬ (binary32 ((cvms_base cvmsi_build_flags ext pnt numpts).vs counter
      + cvmsi_diff_vs st (cvmsi_geo cvmsi_build_flags ext st pnt counter).coords)
      < binary32 ((cvms_base cvmsi_build_flags ext pnt numpts).vs counter)) := by
    rw [hvs, hdiff]; decide!
  have hne : (cvms_base cvmsi_build_flags ext pnt numpts).vs counter
      + cvmsi_diff_vs st (cvmsi_geo cvmsi_build_flags ext st pnt counter).coords ≠ 0 := by
    rw [hvs, hdiff]; norm_num
  obtain ⟨h1, h2⟩ :=
    cvmsi_query_gate_apply_fields ext st pnt data numpts counter hinit hc herr hgate hlow hne
  rw [h1, h2]
  simp only [hvs, hdiff]
  have h950 : (900 : ℚ) + 50 = 950 := by norm_num
  rw [h950]
  refine ⟨rfl, ?_, ?_⟩
  · split_ifs
    · right; rfl
    · left; rfl
  · split_ifs with hr
    · rw [mul_div_assoc, mul_comm, div_mul_cancel₀]
      norm_num
    · exact not_lt.mp hr

/-- Witness of C12: base sample `(1000, 900, 2000)`, perturbation `(50, 50)`
in every cell. -/
theorem cvmsi_query_gate_scenario_witness :
    ((cvmsi_query (demo_externals 1000 900 2000 0) (demo_state 50 50) demo_pnt demo_data
        1).2 0).prop.vs = 950 ∧
    (((cvmsi_query (demo_externals 1000 900 2000 0) (demo_state 50 50) demo_pnt demo_data
        1).2 0).prop.vp
        = (cvms_base cvmsi_build_flags (demo_externals 1000 900 2000 0) demo_pnt 1).vp 0
          + cvmsi_diff_vp (demo_state 50 50)
              (cvmsi_geo cvmsi_build_flags (demo_externals 1000 900 2000 0) (demo_state 50 50)
                demo_pnt 0).coords ∨
      ((cvmsi_query (demo_externals 1000 900 2000 0) (demo_state 50 50) demo_pnt demo_data
        1).2 0).prop.vp = 950 * 1.45) ∧
    1.45 ≤ ((cvmsi_query (demo_externals 1000 900 2000 0) (demo_state 50 50) demo_pnt
              demo_data 1).2 0).prop.vp
            / ((cvmsi_query (demo_externals 1000 900 2000 0) (demo_state 50 50) demo_pnt
              demo_data 1).2 0).prop.vs :=
  cvmsi_query_gate_scenario (demo_externals 1000 900 2000 0) (demo_state 50 50) demo_pnt
    demo_data 1 0 (by decide) (by decide) (by decide) (by decide!) (by decide!)

/-- C13: under the FloorGated policy, for a point whose transform succeeds
and whose uncorrected base `vs` is at or above 1000, the final values are
`vs` = corrected base `vs` + `diff_vs`, `vp` = corrected base `vp` +
`diff_vp`, `rho` = corrected base `rho`, whatever the sign of the
perturbation. -/
theorem cvmsi_query_above_gate (ext : cvmsi_externals) (st : cvmsi_state)
    (pnt : ℕ → cvmsi_point_t) (data : ℕ → cvmsi_data_t) (numpts counter : ℕ)
    (hinit : st.cvmsi_init_flag ≠ 0) (hc : counter < numpts)
    (herr : (cvmsi_geo cvmsi_build_flags ext st pnt counter).errcode = 0)
    (hgate : 1000 ≤ (cvms_base cvmsi_build_flags ext pnt numpts).vs counter) :
    ((cvmsi_query ext st pnt data numpts).2 counter).prop.vs
      = (cvms_calc ((cvms_base cvmsi_build_flags ext pnt numpts).vp counter)
          ((cvms_base cvmsi_build_flags ext pnt numpts).vs counter)
          ((cvms_base cvmsi_build_flags ext pnt numpts).rho counter)).vs
        + cvmsi_diff_vs st (cvmsi_geo cvmsi_build_flags ext st pnt counter).coords ∧
    ((cvmsi_query ext st pnt data numpts).2 counter).prop.vp
      = (cvms_calc ((cvms_base cvmsi_build_flags ext pnt numpts).vp counter)
          ((cvms_base cvmsi_build_flags ext pnt numpts).vs counter)
          ((cvms_base cvmsi_build_flags ext pnt numpts).rho counter)).vp
        + cvmsi_diff_vp st (cvmsi_geo cvmsi_build_flags ext st pnt counter).coords ∧
    ((cvmsi_query ext st pnt data numpts).2 counter).prop.rho
      = (cvms_calc ((cvms_base cvmsi_build_flags ext pnt numpts).vp counter)
          ((cvms_base cvmsi_build_flags ext pnt numpts).vs counter)
          ((cvms_base cvmsi_build_flags ext pnt numpts).rho counter)).rho := by
  rw [cvmsi_query_prop_of_ok ext st pnt data numpts counter hinit hc herr,
    cvmsi_blend_above_gate _ _ _ _ _ (not_lt.mpr hgate)]
  exact ⟨rfl, rfl, rfl⟩

/-- Witness of C13: base sample `(2500, 1200, 2100)`, perturbation
`(-80, -60)` in every cell. -/
theorem cvmsi_query_above_gate_witness :
    ((cvmsi_query (demo_externals 2500 1200 2100 0) (demo_state (-80) (-60)) demo_pnt
        demo_data 1).2 0).prop.vs
      = (cvms_calc ((cvms_base cvmsi_build_flags (demo_externals 2500 1200 2100 0) demo_pnt 1).vp 0)
          ((cvms_base cvmsi_build_flags (demo_externals 2500 1200 2100 0) demo_pnt 1).vs 0)
          ((cvms_base cvmsi_build_flags (demo_externals 2500 1200 2100 0) demo_pnt 1).rho 0)).vs
        + cvmsi_diff_vs (demo_state (-80) (-60))
            (cvmsi_geo cvmsi_build_flags (demo_externals 2500 1200 2100 0)
              (demo_state (-80) (-60)) demo_pnt 0).coords ∧
    ((cvmsi_query (demo_externals 2500 1200 2100 0) (demo_state (-80) (-60)) demo_pnt
        demo_data 1).2 0).prop.vp
      = (cvms_calc ((cvms_base cvmsi_build_flags (demo_externals 2500 1200 2100 0) demo_pnt 1).vp 0)
          ((cvms_base cvmsi_build_flags (demo_externals 2500 1200 2100 0) demo_pnt 1).vs 0)
          ((cvms_base cvmsi_build_flags (demo_externals 2500 1200 2100 0) demo_pnt 1).rho 0)).vp
        + cvmsi_diff_vp (demo_state (-80) (-60))
            (cvmsi_geo cvmsi_build_flags (demo_externals 2500 1200 2100 0)
              (demo_state (-80) (-60)) demo_pnt 0).coords ∧
    ((cvmsi_query (demo_externals 2500 1200 2100 0) (demo_state (-80) (-60)) demo_pnt
        demo_data 1).2 0).prop.rho
      = (cvms_calc ((cvms_base cvmsi_build_flags (demo_externals 2500 1200 2100 0) demo_pnt 1).vp 0)
          ((cvms_base cvmsi_build_flags (demo_externals 2500 1200 2100 0) demo_pnt 1).vs 0)
          ((cvms_base cvmsi_build_flags (demo_externals 2500 1200 2100 0) demo_pnt 1).rho 0)).rho :=
  cvmsi_query_above_gate (demo_externals 2500 1200 2100 0) (demo_state (-80) (-60)) demo_pnt
    demo_data 1 0 (by decide) (by decide) (by decide) (by decide!)

/-! ## Theorems: the base correction of `cvmsi_query` -/

/-- The corrected base sample is the floored and corner-corrected sample with
the Lambda fix of line 382 applied to `vs`. -/
theorem cvms_calc_eq (vp vs rho : ℚ) :
    cvms_calc vp vs rho
      = ⟨(cvms_floor_corner vp vs rho).vp,
          if (cvms_floor_corner vp vs rho).vp / (cvms_floor_corner vp vs rho).vs < 1.45
          then (cvms_floor_corner vp vs rho).vp / 1.45
          else (cvms_floor_corner vp vs rho).vs,
          (cvms_floor_corner vp vs rho).rho⟩ := rfl

/-- After the floor clamp and the corner correction, `vp` is at least
`min_vp = 2000`. -/
theorem cvms_floor_corner_vp_ge (vp vs rho : ℚ) :
    2000 ≤ (cvms_floor_corner vp vs rho).vp := by
  unfold cvms_floor_corner cvms_corner_vp
  simp only [min_cvms_vp, corner_vp, min_vp]
  split_ifs with h1 h2 h2
  · norm_num
  · linarith
  · rw [le_div_iff₀ (by norm_num)]
    norm_num at h1 ⊢
    linarith
  · linarith

/-- C14: for every base sample, the Lambda fix applied to the floored and
corner-corrected base values leaves `vp` (and `rho`) unchanged, replaces `vs`
by `vp / 1.45` exactly when `vp / vs` was below `1.45` and leaves it unchanged
otherwise, and the corrected base then satisfies `vp / vs ≥ 1.45`. -/
theorem cvms_calc_lambda_fix (vp vs rho : ℚ) :
    (cvms_calc vp vs rho).vp = (cvms_floor_corner vp vs rho).vp ∧
    (cvms_calc vp vs rho).rho = (cvms_floor_corner vp vs rho).rho ∧
    (cvms_calc vp vs rho).vs
      = (if (cvms_floor_corner vp vs rho).vp / (cvms_floor_corner vp vs rho).vs < 1.45
         then (cvms_floor_corner vp vs rho).vp / 1.45
         else (cvms_floor_corner vp vs rho).vs) ∧
    1.45 ≤ (cvms_calc vp vs rho).vp / (cvms_calc vp vs rho).vs := by
  rw [cvms_calc_eq]
  refine ⟨rfl, rfl, rfl, ?_⟩
  have hpos : (0 : ℚ) < (cvms_floor_corner vp vs rho).vp :=
    lt_of_lt_of_le (by norm_num) (cvms_floor_corner_vp_ge vp vs rho)
  simp only []
  split_ifs with hr
  · rw [div_div_eq_mul_div, mul_comm, mul_div_assoc, div_self (ne_of_gt hpos), mul_one]
  · exact not_lt.mp hr

/-- C15: for each of `vp`, `vs` and `rho`, with the constants of
`cvmsi_query`, a value equal to the corner threshold is returned unchanged by
the corner correction (and by the whole base correction), the code's
correction is the specification's formula below the threshold, and that
formula evaluated at the corner equals the corner. -/
theorem cvms_corner_continuous :
    cvms_corner_vp corner_vp = corner_vp ∧
    cvms_corner_vs corner_vs = corner_vs ∧
    cvms_corner_rho corner_rho = corner_rho ∧
    (cvms_calc corner_vp corner_vs corner_rho).vp = corner_vp ∧
    (cvms_calc corner_vp corner_vs corner_rho).vs = corner_vs ∧
    (cvms_calc corner_vp corner_vs corner_rho).rho = corner_rho ∧
    (∀ v : ℚ, cvms_corner_vp v
      = if v < corner_vp then corner_formula corner_vp min_vp min_cvms_vp v else v) ∧
    (∀ v : ℚ, cvms_corner_vs v
      = if v < corner_vs then corner_formula corner_vs min_vs min_cvms_vs v else v) ∧
    (∀ v : ℚ, cvms_corner_rho v
      = if v < corner_rho then corner_formula corner_rho min_rho min_cvms_rho v else v) ∧
    corner_formula corner_vp min_vp min_cvms_vp corner_vp = corner_vp ∧
    corner_formula corner_vs min_vs min_cvms_vs corner_vs = corner_vs ∧
    corner_formula corner_rho min_rho min_cvms_rho corner_rho = corner_rho := by
  refine ⟨?_, ?_, ?_, ?_, ?_, ?_, fun _ => rfl, fun _ => rfl, fun _ => rfl, ?_, ?_, ?_⟩
  · simp [cvms_corner_vp]
  · simp [cvms_corner_vs]
  · simp [cvms_corner_rho]
  · decide!
  · decide!
  · decide!
  · unfold corner_formula corner_vp min_vp min_cvms_vp
    norm_num
  · unfold corner_formula corner_vs min_vs min_cvms_vs
    norm_num
  · unfold corner_formula corner_rho min_rho min_cvms_rho
    norm_num

/-! ## Theorems: byte order -/

/-- Swapping the four bytes twice gives the bytes back. -/
theorem cvmsi_swap_endian_float_twice (d : cvmsi_fdata_t) :
    cvmsi_swap_endian_float (cvmsi_swap_endian_float d) = d := by
  cases d with
  | mk b =>
    unfold cvmsi_swap_endian_float
    congr 1
    funext i
    fin_cases i <;> rfl

/-- The four bytes of a 32-bit pattern hold that pattern. -/
theorem bits_of_fdata_of_bits (n : ℕ) : bits_of_fdata (fdata_of_bits n) = n % 2 ^ 32 := by
  unfold bits_of_fdata fdata_of_bits
  simp only [Fin.val_zero, Fin.val_one, pow_zero, pow_one, Nat.div_one]
  have h2 : ((2 : Fin 4) : ℕ) = 2 := rfl
  have h3 : ((3 : Fin 4) : ℕ) = 3 := rfl
  rw [h2, h3]
  norm_num
  omega

/-- Four bytes are the bytes of the pattern they hold. -/
theorem fdata_of_bits_of_fdata (d : cvmsi_fdata_t) : fdata_of_bits (bits_of_fdata d) = d := by
  cases d with
  | mk b =>
    unfold fdata_of_bits bits_of_fdata
    congr 1
    funext i
    apply Fin.ext
    have h0 := (b 0).isLt
    have h1 := (b 1).isLt
    have h2 := (b 2).isLt
    have h3 := (b 3).isLt
    fin_cases i
    · show ((b 0).val + 256 * (b 1).val + 65536 * (b 2).val + 16777216 * (b 3).val)
          / 256 ^ 0 % 256 = (b 0).val
      norm_num
      omega
    · show ((b 0).val + 256 * (b 1).val + 65536 * (b 2).val + 16777216 * (b 3).val)
          / 256 ^ 1 % 256 = (b 1).val
      norm_num
      omega
    · show ((b 0).val + 256 * (b 1).val + 65536 * (b 2).val + 16777216 * (b 3).val)
          / 256 ^ 2 % 256 = (b 2).val
      norm_num
      omega
    · show ((b 0).val + 256 * (b 1).val + 65536 * (b 2).val + 16777216 * (b 3).val)
          / 256 ^ 3 % 256 = (b 3).val
      norm_num
      omega

/-- C16: `cvmsi_swap_endian_float` is an involution on 4-byte patterns:
swapping twice returns the four bytes, a single swap puts byte `3 - i` at
position `i`, and on 32-bit patterns swapping twice returns the pattern. -/
theorem cvmsi_swap_endian_float_involution :
    (∀ d : cvmsi_fdata_t, cvmsi_swap_endian_float (cvmsi_swap_endian_float d) = d) ∧
    (∀ (d : cvmsi_fdata_t) (i : Fin 4), (cvmsi_swap_endian_float d).b i = d.b (Fin.rev i)) ∧
    (∀ n : ℕ, swap_endian_bits (swap_endian_bits n) = n % 2 ^ 32) := by
  refine ⟨cvmsi_swap_endian_float_twice, ?_, ?_⟩
  · intro d i
    unfold cvmsi_swap_endian_float
    fin_cases i <;> rfl
  · intro n
    unfold swap_endian_bits
    rw [fdata_of_bits_of_fdata, cvmsi_swap_endian_float_twice, bits_of_fdata_of_bits]

/-! ## Theorems: corner indices and offsets of `cvmsi_query` -/

/-- The offset computed by `cvmsi_query` for a corner is the flat offset of
the corner indices `i`, `j`, `k` of the three axes. -/
theorem corner_offset_eq (dim : Fin 3 → ℤ) (xyz_f : Fin 3 → ℚ) (x y z : Fin 2) :
    corner_offset dim xyz_f x y z
      = cvmsi_offset dim (corner_index (dim 0) (xyz_f 0) x) (corner_index (dim 1) (xyz_f 1) y)
          (corner_index (dim 2) (xyz_f 2) z) := rfl

/-- An `int` expression whose mathematical value fits in 32 bits has that
value. -/
theorem int32_of_bounds (n : ℤ) (h0 : -2147483648 ≤ n) (h1 : n ≤ 2147483647) : int32 n = n := by
  unfold int32
  omega

/-- A corner index is the base index or the base index plus one, it is the
base index when the base index plus one reaches the dimension, and it stays
inside the axis when the base index is inside. -/
theorem corner_index_bounds (dim : ℤ) (c : ℚ) (d : Fin 2)
    (h0 : 0 ≤ c_int c) (h1 : c_int c < dim) :
    (corner_index dim c d = c_int c ∨ corner_index dim c d = c_int c + 1) ∧
    (dim ≤ c_int c + 1 → corner_index dim c d = c_int c) ∧
    0 ≤ corner_index dim c d ∧ corner_index dim c d < dim := by
  unfold corner_index
  fin_cases d
  · simp only [Fin.zero_eta, Fin.val_zero, Nat.cast_zero, add_zero]
    split_ifs <;> refine ⟨Or.inl rfl, fun _ => rfl, h0, h1⟩
  · simp only [Fin.mk_one, Fin.val_one, Nat.cast_one]
    split_ifs with h
    · exact ⟨Or.inl rfl, fun _ => rfl, h0, h1⟩
    · refine ⟨Or.inr rfl, fun h2 => absurd h2 (by omega), by omega, by omega⟩

/-- A row-major offset built from in-range indices is in range. -/
theorem row_major_in_bounds (nx ny nz i j k : ℤ)
    (hi0 : 0 ≤ i) (hi1 : i < nx) (hj0 : 0 ≤ j) (hj1 : j < ny) (hk0 : 0 ≤ k) (hk1 : k < nz) :
    0 ≤ k * nx * ny + j * nx + i ∧ k * nx * ny + j * nx + i < nx * ny * nz := by
  have hnx : 0 ≤ nx := by omega
  have hny : 0 ≤ ny := by omega
  have hxy : 0 ≤ nx * ny := mul_nonneg hnx hny
  have h1 : 0 ≤ j * nx := mul_nonneg hj0 hnx
  have h2 : 0 ≤ k * (nx * ny) := mul_nonneg hk0 hxy
  have h3 : j * nx ≤ (ny - 1) * nx := mul_le_mul_of_nonneg_right (by omega) hnx
  have h4 : k * (nx * ny) ≤ (nz - 1) * (nx * ny) := mul_le_mul_of_nonneg_right (by omega) hxy
  constructor
  · nlinarith
  · nlinarith

/-- For a grid of at most `INT_MAX = 2147483647` cells and indices inside the
grid, no product or sum of the offset overflows: the offset is
`k * nx * ny + j * nx + i`. -/
theorem cvmsi_offset_of_bounds (dim : Fin 3 → ℤ) (i j k : ℤ)
    (hi0 : 0 ≤ i) (hi1 : i < dim 0) (hj0 : 0 ≤ j) (hj1 : j < dim 1) (hk0 : 0 ≤ k)
    (hk1 : k < dim 2) (hsize : dim 0 * dim 1 * dim 2 ≤ 2147483647) :
    cvmsi_offset dim i j k = k * dim 0 * dim 1 + j * dim 0 + i := by
  obtain ⟨hb0, hb1⟩ := row_major_in_bounds (dim 0) (dim 1) (dim 2) i j k hi0 hi1 hj0 hj1 hk0 hk1
  have hnx : 0 ≤ dim 0 := by omega
  have hny : 1 ≤ dim 1 := by omega
  have p1 : 0 ≤ k * dim 0 := mul_nonneg hk0 hnx
  have p2 : 0 ≤ j * dim 0 := mul_nonneg hj0 hnx
  have p3 : k * dim 0 ≤ k * dim 0 * dim 1 := by nlinarith
  have p4 : 0 ≤ k * dim 0 * dim 1 := by nlinarith
  unfold cvmsi_offset
  rw [int32_of_bounds (k * dim 0) (by omega) (by omega),
    int32_of_bounds (k * dim 0 * dim 1) (by omega) (by omega),
    int32_of_bounds (j * dim 0) (by omega) (by omega),
    int32_of_bounds (k * dim 0 * dim 1 + j * dim 0) (by omega) (by omega),
    int32_of_bounds (k * dim 0 * dim 1 + j * dim 0 + i) (by omega) (by omega)]

/-- C17 (as stated, refuted): the grid `4096 x 4096 x 257` has positive
dimensions and the coordinate `(0, 0, 200)` has its base index inside the
grid, but the offset of the corner `(0, 0, 0)`, `200 * 4096 * 4096`, does not
fit an `int`: the computed offset is `-939524096`, below 0. -/
theorem corner_offset_overflow :
    ¬ (∀ (dim : Fin 3 → ℤ) (xyz_f : Fin 3 → ℚ) (x y z : Fin 2),
        0 ≤ c_int (xyz_f 0) → c_int (xyz_f 0) < dim 0 →
        0 ≤ c_int (xyz_f 1) → c_int (xyz_f 1) < dim 1 →
        0 ≤ c_int (xyz_f 2) → c_int (xyz_f 2) < dim 2 →
        (corner_index (dim 0) (xyz_f 0) x = c_int (xyz_f 0) ∨
          corner_index (dim 0) (xyz_f 0) x = c_int (xyz_f 0) + 1) ∧
        (corner_index (dim 1) (xyz_f 1) y = c_int (xyz_f 1) ∨
          corner_index (dim 1) (xyz_f 1) y = c_int (xyz_f 1) + 1) ∧
        (corner_index (dim 2) (xyz_f 2) z = c_int (xyz_f 2) ∨
          corner_index (dim 2) (xyz_f 2) z = c_int (xyz_f 2) + 1) ∧
        (dim 0 ≤ c_int (xyz_f 0) + 1 → corner_index (dim 0) (xyz_f 0) x = c_int (xyz_f 0)) ∧
        (dim 1 ≤ c_int (xyz_f 1) + 1 → corner_index (dim 1) (xyz_f 1) y = c_int (xyz_f 1)) ∧
        (dim 2 ≤ c_int (xyz_f 2) + 1 → corner_index (dim 2) (xyz_f 2) z = c_int (xyz_f 2)) ∧
        0 ≤ corner_offset dim xyz_f x y z ∧
        corner_offset dim xyz_f x y z < dim 0 * dim 1 * dim 2) := by
  intro h
  have h1 := (h ![4096, 4096, 257] ![0, 0, 200] 0 0 0 (by decide!) (by decide!) (by decide!)
    (by decide!) (by decide!) (by decide!)).2.2.2.2.2.2.1
  have h2 : corner_offset ![4096, 4096, 257] ![0, 0, 200] 0 0 0 = -939524096 := by decide!
  rw [h2] at h1
  omega

/-- C17 (amended): for a grid of at most `INT_MAX = 2147483647` cells and a
fractional grid coordinate whose truncated base index `(i0, j0, k0)` satisfies
`0 ≤ i0 < nx`, `0 ≤ j0 < ny`, `0 ≤ k0 < nz` (so the dimensions are positive),
each corner index generated in `cvmsi_query` is the base index or the base
index plus one, is the base index when the base index plus one reaches the
dimension, and the computed offset is `k * nx * ny + j * nx + i` and lies in
`[0, nx * ny * nz)`. -/
theorem corner_offset_in_bounds (dim : Fin 3 → ℤ) (xyz_f : Fin 3 → ℚ) (x y z : Fin 2)
    (hsize : dim 0 * dim 1 * dim 2 ≤ 2147483647)
    (hx0 : 0 ≤ c_int (xyz_f 0)) (hx1 : c_int (xyz_f 0) < dim 0)
    (hy0 : 0 ≤ c_int (xyz_f 1)) (hy1 : c_int (xyz_f 1) < dim 1)
    (hz0 : 0 ≤ c_int (xyz_f 2)) (hz1 : c_int (xyz_f 2) < dim 2) :
    (corner_index (dim 0) (xyz_f 0) x = c_int (xyz_f 0) ∨
      corner_index (dim 0) (xyz_f 0) x = c_int (xyz_f 0) + 1) ∧
    (corner_index (dim 1) (xyz_f 1) y = c_int (xyz_f 1) ∨
      corner_index (dim 1) (xyz_f 1) y = c_int (xyz_f 1) + 1) ∧
    (corner_index (dim 2) (xyz_f 2) z = c_int (xyz_f 2) ∨
      corner_index (dim 2) (xyz_f 2) z = c_int (xyz_f 2) + 1) ∧
    (dim 0 ≤ c_int (xyz_f 0) + 1 → corner_index (dim 0) (xyz_f 0) x = c_int (xyz_f 0)) ∧
    (dim 1 ≤ c_int (xyz_f 1) + 1 → corner_index (dim 1) (xyz_f 1) y = c_int (xyz_f 1)) ∧
    (dim 2 ≤ c_int (xyz_f 2) + 1 → corner_index (dim 2) (xyz_f 2) z = c_int (xyz_f 2)) ∧
    corner_offset dim xyz_f x y z
      = corner_index (dim 2) (xyz_f 2) z * dim 0 * dim 1
        + corner_index (dim 1) (xyz_f 1) y * dim 0
        + corner_index (dim 0) (xyz_f 0) x ∧
    0 ≤ corner_offset dim xyz_f x y z ∧
    corner_offset dim xyz_f x y z < dim 0 * dim 1 * dim 2 := by
  obtain ⟨ax, bx, cx, dx⟩ := corner_index_bounds (dim 0) (xyz_f 0) x hx0 hx1
  obtain ⟨ay, by_, cy, dy⟩ := corner_index_bounds (dim 1) (xyz_f 1) y hy0 hy1
  obtain ⟨az, bz, cz, dz⟩ := corner_index_bounds (dim 2) (xyz_f 2) z hz0 hz1
  have hb := row_major_in_bounds (dim 0) (dim 1) (dim 2) _ _ _ cx dx cy dy cz dz
  rw [corner_offset_eq, cvmsi_offset_of_bounds dim _ _ _ cx dx cy dy cz dz hsize]
  exact ⟨ax, ay, az, bx, by_, bz, rfl, hb.1, hb.2⟩

/-- Witness of C17 (amended): a 2 x 2 x 3 grid, the coordinate
`(1/2, 3/2, 1/2)` and the corner `(1, 1, 1)`: the corner indices are
`(1, 1, 1)` (the `y` index collapses to the base index 1) and the offset is
`1*2*2 + 1*2 + 1 = 7`. -/
theorem corner_offset_in_bounds_witness :
    corner_index 2 (1 / 2) 1 = 1 ∧ corner_index 2 (3 / 2) 1 = 1 ∧
    corner_offset ![2, 2, 3] ![1 / 2, 3 / 2, 1 / 2] 1 1 1 = 7 ∧
    0 ≤ corner_offset ![2, 2, 3] ![1 / 2, 3 / 2, 1 / 2] 1 1 1 ∧
    corner_offset ![2, 2, 3] ![1 / 2, 3 / 2, 1 / 2] 1 1 1 < 2 * 2 * 3 :=
  ⟨by decide!, by decide!, by decide!,
    (corner_offset_in_bounds ![2, 2, 3] ![1 / 2, 3 / 2, 1 / 2] 1 1 1 (by decide)
      (by decide!) (by decide!) (by decide!) (by decide!) (by decide!) (by decide!)).2.2.2.2.2.2.2⟩

/-! ## Theorems: calls before initialisation, and the version query -/

/-- C18: when `cvmsi_query` is called with the init flag unset, it returns a
non-zero code (1) and the caller's output array is left as it was, for every
input batch. -/
theorem cvmsi_query_uninit (ext : cvmsi_externals) (st : cvmsi_state)
    (pnt : ℕ → cvmsi_point_t) (data : ℕ → cvmsi_data_t) (numpts : ℕ)
    (hinit : st.cvmsi_init_flag = 0) :
    (cvmsi_query ext st pnt data numpts).1 ≠ 0 ∧
    (cvmsi_query ext st pnt data numpts).1 = 1 ∧
    (cvmsi_query ext st pnt data numpts).2 = data := by
  unfold cvmsi_query cvmsi_query_flags
  rw [if_pos hinit]
  exact ⟨one_ne_zero, rfl, rfl⟩

/-- Witness of C18: the module before any `cvmsi_init`, a batch of 3 points. -/
theorem cvmsi_query_uninit_witness :
    (cvmsi_query (demo_externals 2000 900 2000 0) cvmsi_module_uninit.model demo_pnt demo_data
      3).1 ≠ 0 ∧
    (cvmsi_query (demo_externals 2000 900 2000 0) cvmsi_module_uninit.model demo_pnt demo_data
      3).1 = 1 ∧
    (cvmsi_query (demo_externals 2000 900 2000 0) cvmsi_module_uninit.model demo_pnt demo_data
      3).2 = demo_data :=
  cvmsi_query_uninit (demo_externals 2000 900 2000 0) cvmsi_module_uninit.model demo_pnt
    demo_data 3 rfl

/-- C19 (evaluation at the failing input): `cvmsi_version` does not test the
init flag.  It returns 0 for every module state, in particular for the module
before any `cvmsi_init` (init flag 0, buffer of 64 bytes), whereas the sibling
`cvmlt_version` returns 1 when its init flag is unset. -/
theorem cvmsi_version_ignores_init :
    (∀ (m : cvmsi_module) (ver : ℕ → ℕ) (len : ℤ), (cvmsi_version m ver len).1 = 0) ∧
    cvmsi_module_uninit.model.cvmsi_init_flag = 0 ∧
    (cvmsi_version cvmsi_module_uninit (fun _ => 65) 64).1 = 0 ∧
    (∀ (v : List ℕ) (ver : ℕ → ℕ) (len : ℤ), (cvmlt_version 0 v ver len).1 = 1) :=
  ⟨fun _ _ _ => rfl, rfl, rfl, fun _ _ _ => rfl⟩

/-- The buffer after `cvmsi_version`, byte by byte: the first
`min (strlen v) (len - 1)` bytes are those of the version string, the bytes up
to `len` are zero, the bytes from `len` on are untouched. -/
theorem cvmsi_version_apply (m : cvmsi_module) (ver : ℕ → ℕ) (len : ℤ) (hlen : 1 ≤ len)
    (i : ℕ) :
    (cvmsi_version m ver len).2 i
      = if i < min m.cvmsi_version_id.length (len.toNat - 1) then m.cvmsi_version_id.getD i 0
        else if i < len.toNat then 0 else ver i := by
  have hk : (if (m.cvmsi_version_id.length : ℤ) > len - 1 then len - 1
      else (m.cvmsi_version_id.length : ℤ)).toNat
      = min m.cvmsi_version_id.length (len.toNat - 1) := by
    split_ifs with h
    · omega
    · omega
  unfold cvmsi_version
  simp only [strncpy, memset, hk]

/-- C20: for every stored version string `v` and every buffer length
`len ≥ 1`, `cvmsi_version` returns 0 and leaves in the buffer exactly the first
`min (length v) (len - 1)` characters of `v`, followed by zero bytes up to
`len`; bytes from `len` on are untouched; for `len > length v` the buffer
starts with `v` followed by the terminating NUL. -/
theorem cvmsi_version_buffer (m : cvmsi_module) (ver : ℕ → ℕ) (len : ℤ) (hlen : 1 ≤ len) :
    (cvmsi_version m ver len).1 = 0 ∧
    (List.range (min m.cvmsi_version_id.length (len.toNat - 1))).map (cvmsi_version m ver len).2
      = m.cvmsi_version_id.take (min m.cvmsi_version_id.length (len.toNat - 1)) ∧
    (∀ i : ℕ, min m.cvmsi_version_id.length (len.toNat - 1) ≤ i → i < len.toNat →
      (cvmsi_version m ver len).2 i = 0) ∧
    (∀ i : ℕ, len.toNat ≤ i → (cvmsi_version m ver len).2 i = ver i) ∧
    ((m.cvmsi_version_id.length : ℤ) < len →
      (List.range (m.cvmsi_version_id.length + 1)).map (cvmsi_version m ver len).2
        = m.cvmsi_version_id ++ [0]) := by
  have hprefix : ∀ k : ℕ, k ≤ min m.cvmsi_version_id.length (len.toNat - 1) →
      (List.range k).map (cvmsi_version m ver len).2 = m.cvmsi_version_id.take k := by
    intro k hk
    apply List.ext_getElem
    · simp only [List.length_map, List.length_range, List.length_take]
      omega
    · intro i h1 h2
      simp only [List.length_map, List.length_range] at h1
      simp only [List.getElem_map, List.getElem_range, List.getElem_take]
      rw [cvmsi_version_apply m ver len hlen, if_pos (by omega)]
      have hi : i < m.cvmsi_version_id.length := by omega
      simp [List.getD_eq_getElem?_getD, List.getElem?_eq_getElem hi]
  refine ⟨rfl, hprefix _ le_rfl, ?_, ?_, ?_⟩
  · intro i h1 h2
    rw [cvmsi_version_apply m ver len hlen, if_neg (by omega), if_pos h2]
  · intro i h1
    rw [cvmsi_version_apply m ver len hlen, if_neg (by omega), if_neg (by omega)]
  · intro hl
    have hmin : min m.cvmsi_version_id.length (len.toNat - 1) = m.cvmsi_version_id.length := by
      omega
    rw [List.range_succ, List.map_append, hprefix _ (by omega), List.take_length]
    simp only [List.map_cons, List.map_nil]
    rw [cvmsi_version_apply m ver len hlen, if_neg (by omega), if_pos (by omega)]

/-- Witness of C20: the version string `"4.26"` queried into a buffer of 8
bytes filled with `'A'`: the buffer then starts `'4' '.' '2' '6' 0 0 0 0`. -/
theorem cvmsi_version_buffer_witness :
    (List.range 8).map (cvmsi_version demo_module (fun _ => 65) 8).2
      = [52, 46, 50, 54, 0, 0, 0, 0] ∧
    ((demo_module.cvmsi_version_id.length : ℤ) < 8 →
      (List.range (demo_module.cvmsi_version_id.length + 1)).map
          (cvmsi_version demo_module (fun _ => 65) 8).2
        = demo_module.cvmsi_version_id ++ [0]) :=
  ⟨by decide, (cvmsi_version_buffer demo_module (fun _ => 65) 8 (by decide)).2.2.2.2⟩

/-! ## Theorems: the Directional policy -/

/-- Two integers in `[0, n)` that differ by a multiple of `n` are equal. -/
theorem eq_of_sub_eq_mul (n a b t : ℤ) (ha0 : 0 ≤ a) (ha1 : a < n) (hb0 : 0 ≤ b) (hb1 : b < n)
    (h : a - b = n * t) : a = b ∧ t = 0 := by
  have ht : t = 0 := by
    by_contra hne
    rcases lt_or_gt_of_ne hne with hlt | hgt
    · have : t ≤ -1 := by omega
      have h1 : n * t ≤ n * (-1) := mul_le_mul_of_nonneg_left this (by omega)
      omega
    · have : 1 ≤ t := by omega
      have h1 : n * 1 ≤ n * t := mul_le_mul_of_nonneg_left this (by omega)
      omega
  subst ht
  constructor
  · omega
  · rfl

/-- The row-major expression `k * nx * ny + j * nx + i` is one-to-one on the
index triples of the grid. -/
theorem row_major_injective (dim : Fin 3 → ℤ) (i j k i2 j2 k2 : ℤ)
    (hi0 : 0 ≤ i) (hi1 : i < dim 0) (hj0 : 0 ≤ j) (hj1 : j < dim 1)
    (hi20 : 0 ≤ i2) (hi21 : i2 < dim 0) (hj20 : 0 ≤ j2) (hj21 : j2 < dim 1)
    (h : k * dim 0 * dim 1 + j * dim 0 + i = k2 * dim 0 * dim 1 + j2 * dim 0 + i2) :
    i = i2 ∧ j = j2 ∧ k = k2 := by
  have h1 : i - i2 = dim 0 * ((k2 - k) * dim 1 + (j2 - j)) := by linear_combination h
  obtain ⟨hi, ht⟩ := eq_of_sub_eq_mul (dim 0) i i2 _ hi0 hi1 hi20 hi21 h1
  have h2 : j - j2 = dim 1 * (k2 - k) := by linear_combination -ht
  obtain ⟨hj, hk⟩ := eq_of_sub_eq_mul (dim 1) j j2 _ hj0 hj1 hj20 hj21 h2
  exact ⟨hi, hj, by omega⟩

/-- Every number in `[0, nx * ny * nz)` is the row-major expression of an
index triple of the grid. -/
theorem row_major_surjective (dim : Fin 3 → ℤ) (o : ℤ)
    (hx : 0 < dim 0) (hy : 0 < dim 1) (ho0 : 0 ≤ o) (ho1 : o < dim 0 * dim 1 * dim 2) :
    ∃ i j k : ℤ, (0 ≤ i ∧ i < dim 0) ∧ (0 ≤ j ∧ j < dim 1) ∧ (0 ≤ k ∧ k < dim 2) ∧
      k * dim 0 * dim 1 + j * dim 0 + i = o := by
  refine ⟨o % dim 0, (o / dim 0) % dim 1, (o / dim 0) / dim 1, ?_, ?_, ?_, ?_⟩
  · exact ⟨Int.emod_nonneg _ (ne_of_gt hx), Int.emod_lt_of_pos _ hx⟩
  · exact ⟨Int.emod_nonneg _ (ne_of_gt hy), Int.emod_lt_of_pos _ hy⟩
  · constructor
    · exact Int.ediv_nonneg (Int.ediv_nonneg ho0 (le_of_lt hx)) (le_of_lt hy)
    · rw [Int.ediv_lt_iff_lt_mul hy, Int.ediv_lt_iff_lt_mul hx]
      calc o < dim 0 * dim 1 * dim 2 := ho1
        _ = dim 2 * dim 1 * dim 0 := by ring
  · have e1 := Int.ediv_add_emod o (dim 0)
    have e2 := Int.ediv_add_emod (o / dim 0) (dim 1)
    linear_combination e1 + dim 0 * e2

/-- C26 (as stated, refuted): the grid `4096 x 4096 x 257` has positive
dimensions, and its distinct cells `(0, 0, 0)` and `(0, 0, 256)` share the
offset 0: `256 * 4096 * 4096 = 2 ^ 32` does not fit an `int`. -/
theorem cvmsi_offset_overflow_alias :
    ¬ (∀ dim : Fin 3 → ℤ, 0 < dim 0 → 0 < dim 1 → 0 < dim 2 →
        (∀ i j k : ℤ, 0 ≤ i → i < dim 0 → 0 ≤ j → j < dim 1 → 0 ≤ k → k < dim 2 →
          0 ≤ cvmsi_offset dim i j k ∧ cvmsi_offset dim i j k < dim 0 * dim 1 * dim 2) ∧
        (∀ i j k i2 j2 k2 : ℤ, 0 ≤ i → i < dim 0 → 0 ≤ j → j < dim 1 → 0 ≤ k → k < dim 2 →
          0 ≤ i2 → i2 < dim 0 → 0 ≤ j2 → j2 < dim 1 → 0 ≤ k2 → k2 < dim 2 →
          cvmsi_offset dim i j k = cvmsi_offset dim i2 j2 k2 → i = i2 ∧ j = j2 ∧ k = k2) ∧
        (∀ o : ℤ, 0 ≤ o → o < dim 0 * dim 1 * dim 2 →
          ∃ i j k : ℤ, (0 ≤ i ∧ i < dim 0) ∧ (0 ≤ j ∧ j < dim 1) ∧ (0 ≤ k ∧ k < dim 2) ∧
            cvmsi_offset dim i j k = o)) := by
  intro h
  have h1 := (h ![4096, 4096, 257] (by decide) (by decide) (by decide)).2.1 0 0 0 0 0 256
    (by decide) (by decide) (by decide) (by decide) (by decide) (by decide)
    (by decide) (by decide) (by decide) (by decide) (by decide) (by decide) (by decide)
  omega

/-- C26 (amended): for a grid with positive dimensions `(nx, ny, nz)` and at
most `INT_MAX = 2147483647` cells, the offset `k * nx * ny + j * nx + i` used
by `cvmsi_query` maps the index triples with `0 ≤ i < nx`, `0 ≤ j < ny`,
`0 ≤ k < nz` into `[0, nx * ny * nz)`, one-to-one and onto: distinct grid
cells never share an entry of the volume. -/
theorem cvmsi_offset_bijective (dim : Fin 3 → ℤ)
    (hx : 0 < dim 0) (hy : 0 < dim 1) (hz : 0 < dim 2)
    (hsize : dim 0 * dim 1 * dim 2 ≤ 2147483647) :
    (∀ i j k : ℤ, 0 ≤ i → i < dim 0 → 0 ≤ j → j < dim 1 → 0 ≤ k → k < dim 2 →
      0 ≤ cvmsi_offset dim i j k ∧ cvmsi_offset dim i j k < dim 0 * dim 1 * dim 2) ∧
    (∀ i j k i2 j2 k2 : ℤ, 0 ≤ i → i < dim 0 → 0 ≤ j → j < dim 1 → 0 ≤ k → k < dim 2 →
      0 ≤ i2 → i2 < dim 0 → 0 ≤ j2 → j2 < dim 1 → 0 ≤ k2 → k2 < dim 2 →
      cvmsi_offset dim i j k = cvmsi_offset dim i2 j2 k2 → i = i2 ∧ j = j2 ∧ k = k2) ∧
    (∀ o : ℤ, 0 ≤ o → o < dim 0 * dim 1 * dim 2 →
      ∃ i j k : ℤ, (0 ≤ i ∧ i < dim 0) ∧ (0 ≤ j ∧ j < dim 1) ∧ (0 ≤ k ∧ k < dim 2) ∧
        cvmsi_offset dim i j k = o) := by
  have _hz := hz
  refine ⟨?_, ?_, ?_⟩
  · intro i j k hi0 hi1 hj0 hj1 hk0 hk1
    rw [cvmsi_offset_of_bounds dim i j k hi0 hi1 hj0 hj1 hk0 hk1 hsize]
    exact row_major_in_bounds (dim 0) (dim 1) (dim 2) i j k hi0 hi1 hj0 hj1 hk0 hk1
  · intro i j k i2 j2 k2 hi0 hi1 hj0 hj1 hk0 hk1 hi20 hi21 hj20 hj21 hk20 hk21 h
    rw [cvmsi_offset_of_bounds dim i j k hi0 hi1 hj0 hj1 hk0 hk1 hsize,
      cvmsi_offset_of_bounds dim i2 j2 k2 hi20 hi21 hj20 hj21 hk20 hk21 hsize] at h
    exact row_major_injective dim i j k i2 j2 k2 hi0 hi1 hj0 hj1 hi20 hi21 hj20 hj21 h
  · intro o ho0 ho1
    obtain ⟨i, j, k, hi, hj, hk, ho⟩ := row_major_surjective dim o hx hy ho0 ho1
    refine ⟨i, j, k, hi, hj, hk, ?_⟩
    rw [cvmsi_offset_of_bounds dim i j k hi.1 hi.2 hj.1 hj.2 hk.1 hk.2 hsize]
    exact ho

/-- Witness of C26 (amended): the 2 x 2 x 3 grid; the cells `(1, 0, 2)` and
`(0, 1, 2)` have the offsets 9 and 10. -/
theorem cvmsi_offset_bijective_witness :
    cvmsi_offset ![2, 2, 3] 1 0 2 = 9 ∧ cvmsi_offset ![2, 2, 3] 0 1 2 = 10 ∧
    (∀ o : ℤ, 0 ≤ o → o < (![2, 2, 3] : Fin 3 → ℤ) 0 * (![2, 2, 3] : Fin 3 → ℤ) 1
        * (![2, 2, 3] : Fin 3 → ℤ) 2 →
      ∃ i j k : ℤ, (0 ≤ i ∧ i < (![2, 2, 3] : Fin 3 → ℤ) 0) ∧
        (0 ≤ j ∧ j < (![2, 2, 3] : Fin 3 → ℤ) 1) ∧ (0 ≤ k ∧ k < (![2, 2, 3] : Fin 3 → ℤ) 2) ∧
        cvmsi_offset ![2, 2, 3] i j k = o) :=
  ⟨by decide, by decide,
    (cvmsi_offset_bijective ![2, 2, 3] (by decide) (by decide) (by decide) (by decide)).2.2⟩

/-! ## Theorems: the Nafe-Drake density of the Lin-Thurber model -/

/-- C27: for every `vp` in m/s, `cvmlt_nafe_drake_rho vp` equals
`1000 * max 1 (1.6612 v - 0.4721 v^2 + 0.0671 v^3 - 0.0043 v^4 + 0.000106 v^5)`
with `v = vp / 1000` (the code's nested Horner form is the expanded
polynomial), and the returned density is never below 1000. -/
theorem cvmlt_nafe_drake_rho_eq (vp : ℚ) :
    cvmlt_nafe_drake_rho vp = 1000 * max 1 (nafe_drake_poly (vp / 1000)) ∧
    1000 ≤ cvmlt_nafe_drake_rho vp := by
  have hpoly : vp * 0.001 * (1.6612 - vp * 0.001 * (0.4721 - vp * 0.001 * (0.0671
      - vp * 0.001 * (0.0043 - vp * 0.001 * 0.000106)))) = nafe_drake_poly (vp / 1000) := by
    unfold nafe_drake_poly
    norm_num
    ring
  have heq : cvmlt_nafe_drake_rho vp = 1000 * max 1 (nafe_drake_poly (vp / 1000)) := by
    unfold cvmlt_nafe_drake_rho
    simp only [hpoly]
    by_cases h : nafe_drake_poly (vp / 1000) < 1.0
    · rw [if_pos h, max_eq_left (by norm_num at h; linarith)]
      norm_num
    · rw [if_neg h, max_eq_right (by norm_num at h; linarith)]
      norm_num
      ring
  refine ⟨heq, ?_⟩
  rw [heq]
  have : (1 : ℚ) ≤ max 1 (nafe_drake_poly (vp / 1000)) := le_max_left _ _
  linarith

/-! ## Theorems: range of the corrected base sample -/

/-- After the floor clamp and the corner correction, `vs` is at least
`min_vs = 1000`. -/
theorem cvms_floor_corner_vs_ge (vp vs rho : ℚ) :
    1000 ≤ (cvms_floor_corner vp vs rho).vs := by
  unfold cvms_floor_corner cvms_corner_vs
  simp only [min_cvms_vs, corner_vs, min_vs]
  split_ifs with h1 h2 h2
  · norm_num
  · linarith
  · rw [le_div_iff₀ (by norm_num)]
    norm_num at h1 ⊢
    linarith
  · linarith

/-- After the floor clamp and the corner correction, `rho` is at least
`min_rho = 2000`. -/
theorem cvms_floor_corner_rho_ge (vp vs rho : ℚ) :
    2000 ≤ (cvms_floor_corner vp vs rho).rho := by
  unfold cvms_floor_corner cvms_corner_rho
  simp only [min_cvms_rho, corner_rho, min_rho]
  split_ifs with h1 h2 h2
  · norm_num
  · linarith
  · rw [le_div_iff₀ (by norm_num)]
    norm_num at h1 ⊢
    linarith
  · linarith

/-- C28: the corner correction maps the floor to the minimum (283.637 to 2000
for `vp`, 100 to 1000 for `vs`, 1909.786 to 2000 for `rho`), is strictly
increasing on `[floor, corner)`, and for every base sample the corrected base
(floor clamp, corner correction, Lambda fix) satisfies `vp ≥ 2000`,
`vs ≥ 1000`, `rho ≥ 2000`. -/
theorem cvms_calc_range :
    cvms_corner_vp min_cvms_vp = min_vp ∧
    cvms_corner_vs min_cvms_vs = min_vs ∧
    cvms_corner_rho min_cvms_rho = min_rho ∧
    (∀ a b : ℚ, min_cvms_vp ≤ a → a < b → b < corner_vp →
      cvms_corner_vp a < cvms_corner_vp b) ∧
    (∀ a b : ℚ, min_cvms_vs ≤ a → a < b → b < corner_vs →
      cvms_corner_vs a < cvms_corner_vs b) ∧
    (∀ a b : ℚ, min_cvms_rho ≤ a → a < b → b < corner_rho →
      cvms_corner_rho a < cvms_corner_rho b) ∧
    (∀ vp vs rho : ℚ, 2000 ≤ (cvms_calc vp vs rho).vp ∧ 1000 ≤ (cvms_calc vp vs rho).vs ∧
      2000 ≤ (cvms_calc vp vs rho).rho) := by
  refine ⟨?_, ?_, ?_, ?_, ?_, ?_, ?_⟩
  · unfold cvms_corner_vp min_cvms_vp corner_vp min_vp
    norm_num
  · unfold cvms_corner_vs min_cvms_vs corner_vs min_vs
    norm_num
  · unfold cvms_corner_rho min_cvms_rho corner_rho min_rho
    norm_num
  · intro a b _ hab hb
    unfold cvms_corner_vp
    rw [if_pos (lt_trans hab hb), if_pos hb]
    unfold corner_vp min_vp min_cvms_vp
    apply div_lt_div_of_pos_right _ (by norm_num)
    linarith
  · intro a b _ hab hb
    unfold cvms_corner_vs
    rw [if_pos (lt_trans hab hb), if_pos hb]
    unfold corner_vs min_vs min_cvms_vs
    apply div_lt_div_of_pos_right _ (by norm_num)
    linarith
  · intro a b _ hab hb
    unfold cvms_corner_rho
    rw [if_pos (lt_trans hab hb), if_pos hb]
    unfold corner_rho min_rho min_cvms_rho
    apply div_lt_div_of_pos_right _ (by norm_num)
    linarith
  · intro vp vs rho
    rw [cvms_calc_eq]
    have hvp := cvms_floor_corner_vp_ge vp vs rho
    have hvs := cvms_floor_corner_vs_ge vp vs rho
    have hrho := cvms_floor_corner_rho_ge vp vs rho
    refine ⟨hvp, ?_, hrho⟩
    simp only []
    split_ifs
    · rw [le_div_iff₀ (by norm_num)]
      norm_num
      linarith
    · exact hvs

/-- Witness of C28: the base `vp` values 1000 and 2000 lie in
`[283.637, 3000)` and are corrected in increasing order. -/
theorem cvms_calc_range_witness :
    min_cvms_vp ≤ 1000 ∧ (1000 : ℚ) < 2000 ∧ 2000 < corner_vp ∧
    cvms_corner_vp 1000 < cvms_corner_vp 2000 :=
  ⟨by decide!, by decide!, by decide!,
    cvms_calc_range.2.2.2.1 1000 2000 (by decide!) (by decide!) (by decide!)⟩

/-! ## Theorems: the interpolation is a convex combination -/

/-- On the unit cube the interpolation is the sum of the eight corner values
weighted by the products of `t` or `1 - t` on each axis. -/
theorem cvmsi_interp_trilinear_unit (q : Fin 2 → Fin 2 → Fin 2 → ℚ) (x y z : ℚ) :
    cvmsi_interp_trilinear x y z unit_cube q
      = q 0 0 0 * ((1 - x) * (1 - y) * (1 - z)) + q 0 0 1 * (x * (1 - y) * (1 - z))
        + q 0 1 0 * ((1 - x) * y * (1 - z)) + q 0 1 1 * (x * y * (1 - z))
        + q 1 0 0 * ((1 - x) * (1 - y) * z) + q 1 0 1 * (x * (1 - y) * z)
        + q 1 1 0 * ((1 - x) * y * z) + q 1 1 1 * (x * y * z) := by
  simp only [cvmsi_interp_trilinear, cvmsi_interp_bilinear, cvmsi_interp_linear, unit_cube]
  simp
  ring

/-- A lower bound of the eight corners is a lower bound of the interpolated
value inside the cube. -/
theorem cvmsi_interp_trilinear_ge (q : Fin 2 → Fin 2 → Fin 2 → ℚ) (x y z m : ℚ)
    (hx0 : 0 ≤ x) (hx1 : x ≤ 1) (hy0 : 0 ≤ y) (hy1 : y ≤ 1) (hz0 : 0 ≤ z) (hz1 : z ≤ 1)
    (hm : ∀ c b a, m ≤ q c b a) :
    m ≤ cvmsi_interp_trilinear x y z unit_cube q := by
  rw [cvmsi_interp_trilinear_unit]
  have hx' : 0 ≤ 1 - x := by linarith
  have hy' : 0 ≤ 1 - y := by linarith
  have hz' : 0 ≤ 1 - z := by linarith
  have h000 := mul_nonneg (sub_nonneg.mpr (hm 0 0 0)) (mul_nonneg (mul_nonneg hx' hy') hz')
  have h001 := mul_nonneg (sub_nonneg.mpr (hm 0 0 1)) (mul_nonneg (mul_nonneg hx0 hy') hz')
  have h010 := mul_nonneg (sub_nonneg.mpr (hm 0 1 0)) (mul_nonneg (mul_nonneg hx' hy0) hz')
  have h011 := mul_nonneg (sub_nonneg.mpr (hm 0 1 1)) (mul_nonneg (mul_nonneg hx0 hy0) hz')
  have h100 := mul_nonneg (sub_nonneg.mpr (hm 1 0 0)) (mul_nonneg (mul_nonneg hx' hy') hz0)
  have h101 := mul_nonneg (sub_nonneg.mpr (hm 1 0 1)) (mul_nonneg (mul_nonneg hx0 hy') hz0)
  have h110 := mul_nonneg (sub_nonneg.mpr (hm 1 1 0)) (mul_nonneg (mul_nonneg hx' hy0) hz0)
  have h111 := mul_nonneg (sub_nonneg.mpr (hm 1 1 1)) (mul_nonneg (mul_nonneg hx0 hy0) hz0)
  linarith [h000, h001, h010, h011, h100, h101, h110, h111]

/-- An upper bound of the eight corners is an upper bound of the interpolated
value inside the cube. -/
theorem cvmsi_interp_trilinear_le (q : Fin 2 → Fin 2 → Fin 2 → ℚ) (x y z m : ℚ)
    (hx0 : 0 ≤ x) (hx1 : x ≤ 1) (hy0 : 0 ≤ y) (hy1 : y ≤ 1) (hz0 : 0 ≤ z) (hz1 : z ≤ 1)
    (hm : ∀ c b a, q c b a ≤ m) :
    cvmsi_interp_trilinear x y z unit_cube q ≤ m := by
  rw [cvmsi_interp_trilinear_unit]
  have hx' : 0 ≤ 1 - x := by linarith
  have hy' : 0 ≤ 1 - y := by linarith
  have hz' : 0 ≤ 1 - z := by linarith
  have h000 := mul_nonneg (sub_nonneg.mpr (hm 0 0 0)) (mul_nonneg (mul_nonneg hx' hy') hz')
  have h001 := mul_nonneg (sub_nonneg.mpr (hm 0 0 1)) (mul_nonneg (mul_nonneg hx0 hy') hz')
  have h010 := mul_nonneg (sub_nonneg.mpr (hm 0 1 0)) (mul_nonneg (mul_nonneg hx' hy0) hz')
  have h011 := mul_nonneg (sub_nonneg.mpr (hm 0 1 1)) (mul_nonneg (mul_nonneg hx0 hy0) hz')
  have h100 := mul_nonneg (sub_nonneg.mpr (hm 1 0 0)) (mul_nonneg (mul_nonneg hx' hy') hz0)
  have h101 := mul_nonneg (sub_nonneg.mpr (hm 1 0 1)) (mul_nonneg (mul_nonneg hx0 hy') hz0)
  have h110 := mul_nonneg (sub_nonneg.mpr (hm 1 1 0)) (mul_nonneg (mul_nonneg hx' hy0) hz0)
  have h111 := mul_nonneg (sub_nonneg.mpr (hm 1 1 1)) (mul_nonneg (mul_nonneg hx0 hy0) hz0)
  linarith [h000, h001, h010, h011, h100, h101, h110, h111]

/-- The minimum of the corners is below every corner. -/
theorem corner_min_le (q : Fin 2 → Fin 2 → Fin 2 → ℚ) (c b a : Fin 2) :
    corner_min q ≤ q c b a := by
  fin_cases c <;> fin_cases b <;> fin_cases a <;> simp [corner_min]

/-- The maximum of the corners is above every corner. -/
theorem le_corner_max (q : Fin 2 → Fin 2 → Fin 2 → ℚ) (c b a : Fin 2) :
    q c b a ≤ corner_max q := by
  fin_cases c <;> fin_cases b <;> fin_cases a <;> simp [corner_max]

/-- C29: on the unit cube, for every corner table `q` and every fractional
offset `(x, y, z)` with each component in `[0, 1]`, the value of
`cvmsi_interp_trilinear` lies between the minimum and the maximum of the eight
corner values, and it is `c` when all eight corners equal `c`. -/
theorem cvmsi_interp_trilinear_convex (q : Fin 2 → Fin 2 → Fin 2 → ℚ) (x y z : ℚ)
    (hx0 : 0 ≤ x) (hx1 : x ≤ 1) (hy0 : 0 ≤ y) (hy1 : y ≤ 1) (hz0 : 0 ≤ z) (hz1 : z ≤ 1) :
    corner_min q ≤ cvmsi_interp_trilinear x y z unit_cube q ∧
    cvmsi_interp_trilinear x y z unit_cube q ≤ corner_max q ∧
    (∀ c : ℚ, (∀ k j i, q k j i = c) → cvmsi_interp_trilinear x y z unit_cube q = c) := by
  refine ⟨?_, ?_, ?_⟩
  · exact cvmsi_interp_trilinear_ge q x y z _ hx0 hx1 hy0 hy1 hz0 hz1 (corner_min_le q)
  · exact cvmsi_interp_trilinear_le q x y z _ hx0 hx1 hy0 hy1 hz0 hz1 (le_corner_max q)
  · intro c hc
    rw [cvmsi_interp_trilinear_unit]
    simp only [hc]
    ring

/-- Witness of C29: the unit test's table at the offset `(1/4, 1/2, 3/4)`;
the corners range over `0` and `1`. -/
theorem cvmsi_interp_trilinear_convex_witness :
    corner_min firstTest_q ≤ cvmsi_interp_trilinear (1 / 4) (1 / 2) (3 / 4) unit_cube firstTest_q ∧
    cvmsi_interp_trilinear (1 / 4) (1 / 2) (3 / 4) unit_cube firstTest_q ≤ corner_max firstTest_q :=
  ⟨(cvmsi_interp_trilinear_convex firstTest_q (1 / 4) (1 / 2) (3 / 4) (by decide!) (by decide!)
      (by decide!) (by decide!) (by decide!) (by decide!)).1,
    (cvmsi_interp_trilinear_convex firstTest_q (1 / 4) (1 / 2) (3 / 4) (by decide!) (by decide!)
      (by decide!) (by decide!) (by decide!) (by decide!)).2.1⟩

/-! ## Theorems: degenerate interpolation at the upper boundary -/

/-- `diff_vp` is the interpolation of the field `vp`. -/
theorem cvmsi_diff_vp_eq (st : cvmsi_state) (xyz_f : Fin 3 → ℚ) :
    cvmsi_diff_vp st xyz_f = cvmsi_diff (fun r => r.vp) st xyz_f := rfl

/-- `diff_vs` is the interpolation of the field `vs`. -/
theorem cvmsi_diff_vs_eq (st : cvmsi_state) (xyz_f : Fin 3 → ℚ) :
    cvmsi_diff_vs st xyz_f = cvmsi_diff (fun r => r.vs) st xyz_f := rfl

/-- A corner index whose base index plus one reaches the dimension is the
base index, for both corners of the axis. -/
theorem corner_index_collapse (dim : ℤ) (c : ℚ) (d : Fin 2) (h : dim ≤ c_int c + 1) :
    corner_index dim c d = c_int c := by
  unfold corner_index
  fin_cases d
  · simp
  · simp only [Fin.mk_one, Fin.val_one, Nat.cast_one]
    rw [if_pos h]

/-- When the `z` axis collapses, the interpolation is the bilinear
interpolation over `x` and `y` in the plane `z = 0` of the corner table. -/
theorem cvmsi_diff_collapse_z (sel : cvmsi_prop_read_t → ℚ) (st : cvmsi_state)
    (xyz_f : Fin 3 → ℚ) (h : st.cvmsi_dim 2 ≤ c_int (xyz_f 2) + 1) :
    cvmsi_diff sel st xyz_f
      = cvmsi_interp_bilinear (xyz_f 0 - (c_int (xyz_f 0) : ℚ)) (xyz_f 1 - (c_int (xyz_f 1) : ℚ))
          0 0 1 1 (cvmsi_corner sel st xyz_f 0 0 0) (cvmsi_corner sel st xyz_f 1 0 0)
          (cvmsi_corner sel st xyz_f 0 1 0) (cvmsi_corner sel st xyz_f 1 1 0) := by
  have hc : ∀ x y : Fin 2, cvmsi_corner sel st xyz_f x y 1 = cvmsi_corner sel st xyz_f x y 0 := by
    intro x y
    unfold cvmsi_corner
    rw [corner_offset_eq, corner_offset_eq, corner_index_collapse _ _ 1 h,
      corner_index_collapse _ _ 0 h]
  unfold cvmsi_diff
  rw [cvmsi_interp_trilinear_unit]
  simp only [hc, cvmsi_interp_bilinear]
  simp
  ring

/-- When the `y` axis collapses, the interpolation is the bilinear
interpolation over `x` and `z` in the plane `y = 0` of the corner table. -/
theorem cvmsi_diff_collapse_y (sel : cvmsi_prop_read_t → ℚ) (st : cvmsi_state)
    (xyz_f : Fin 3 → ℚ) (h : st.cvmsi_dim 1 ≤ c_int (xyz_f 1) + 1) :
    cvmsi_diff sel st xyz_f
      = cvmsi_interp_bilinear (xyz_f 0 - (c_int (xyz_f 0) : ℚ)) (xyz_f 2 - (c_int (xyz_f 2) : ℚ))
          0 0 1 1 (cvmsi_corner sel st xyz_f 0 0 0) (cvmsi_corner sel st xyz_f 1 0 0)
          (cvmsi_corner sel st xyz_f 0 0 1) (cvmsi_corner sel st xyz_f 1 0 1) := by
  have hc : ∀ x z : Fin 2, cvmsi_corner sel st xyz_f x 1 z = cvmsi_corner sel st xyz_f x 0 z := by
    intro x z
    unfold cvmsi_corner
    rw [corner_offset_eq, corner_offset_eq, corner_index_collapse _ _ 1 h,
      corner_index_collapse _ _ 0 h]
  unfold cvmsi_diff
  rw [cvmsi_interp_trilinear_unit]
  simp only [hc, cvmsi_interp_bilinear]
  simp
  ring

/-- When the `x` axis collapses, the interpolation is the bilinear
interpolation over `y` and `z` in the plane `x = 0` of the corner table. -/
theorem cvmsi_diff_collapse_x (sel : cvmsi_prop_read_t → ℚ) (st : cvmsi_state)
    (xyz_f : Fin 3 → ℚ) (h : st.cvmsi_dim 0 ≤ c_int (xyz_f 0) + 1) :
    cvmsi_diff sel st xyz_f
      = cvmsi_interp_bilinear (xyz_f 1 - (c_int (xyz_f 1) : ℚ)) (xyz_f 2 - (c_int (xyz_f 2) : ℚ))
          0 0 1 1 (cvmsi_corner sel st xyz_f 0 0 0) (cvmsi_corner sel st xyz_f 0 1 0)
          (cvmsi_corner sel st xyz_f 0 0 1) (cvmsi_corner sel st xyz_f 0 1 1) := by
  have hc : ∀ y z : Fin 2, cvmsi_corner sel st xyz_f 1 y z = cvmsi_corner sel st xyz_f 0 y z := by
    intro y z
    unfold cvmsi_corner
    rw [corner_offset_eq, corner_offset_eq, corner_index_collapse _ _ 1 h,
      corner_index_collapse _ _ 0 h]
  unfold cvmsi_diff
  rw [cvmsi_interp_trilinear_unit]
  simp only [hc, cvmsi_interp_bilinear]
  simp
  ring

/-- The corner table depends on a coordinate only through its truncation. -/
theorem cvmsi_corner_update (sel : cvmsi_prop_read_t → ℚ) (st : cvmsi_state)
    (xyz_f : Fin 3 → ℚ) (a : Fin 3) (t : ℚ) (ht : c_int t = c_int (xyz_f a)) (x y z : Fin 2) :
    cvmsi_corner sel st (Function.update xyz_f a t) x y z = cvmsi_corner sel st xyz_f x y z := by
  unfold cvmsi_corner
  rw [corner_offset_eq, corner_offset_eq]
  unfold corner_index
  fin_cases a
  · simp [Function.update, ht]
  · simp [Function.update, ht]
  · simp [Function.update, ht]

/-- When an axis collapses, the interpolation does not change when the
coordinate along that axis moves inside the cell. -/
theorem cvmsi_diff_collapse_update (sel : cvmsi_prop_read_t → ℚ) (st : cvmsi_state)
    (xyz_f : Fin 3 → ℚ) (a : Fin 3) (t : ℚ) (ht : c_int t = c_int (xyz_f a))
    (h : st.cvmsi_dim a ≤ c_int (xyz_f a) + 1) :
    cvmsi_diff sel st (Function.update xyz_f a t) = cvmsi_diff sel st xyz_f := by
  have ha : a = 0 ∨ a = 1 ∨ a = 2 := by fin_cases a <;> simp
  rcases ha with rfl | rfl | rfl
  · have h2 : st.cvmsi_dim 0 ≤ c_int (Function.update xyz_f 0 t 0) + 1 := by
      simpa [ht] using h
    rw [cvmsi_diff_collapse_x sel st _ h2, cvmsi_diff_collapse_x sel st _ h]
    simp only [cvmsi_corner_update sel st xyz_f 0 t ht]
    simp [Function.update]
  · have h2 : st.cvmsi_dim 1 ≤ c_int (Function.update xyz_f 1 t 1) + 1 := by
      simpa [ht] using h
    rw [cvmsi_diff_collapse_y sel st _ h2, cvmsi_diff_collapse_y sel st _ h]
    simp only [cvmsi_corner_update sel st xyz_f 1 t ht]
    simp [Function.update]
  · have h2 : st.cvmsi_dim 2 ≤ c_int (Function.update xyz_f 2 t 2) + 1 := by
      simpa [ht] using h
    rw [cvmsi_diff_collapse_z sel st _ h2, cvmsi_diff_collapse_z sel st _ h]
    simp only [cvmsi_corner_update sel st xyz_f 2 t ht]
    simp [Function.update]

/-- C24: for a fractional grid coordinate whose base index on the axis `a`
equals `dim - 1`, the perturbation `(diff_vp, diff_vs)` interpolated by
`cvmsi_query` does not change when the coordinate along `a` moves inside the
cell, and it equals the bilinear interpolation over the other two axes of the
corner values in the boundary plane. -/
theorem cvmsi_diff_boundary (st : cvmsi_state) (xyz_f : Fin 3 → ℚ) (a : Fin 3)
    (ha : c_int (xyz_f a) = st.cvmsi_dim a - 1) :
    (∀ t : ℚ, c_int t = c_int (xyz_f a) →
      cvmsi_diff_vp st (Function.update xyz_f a t) = cvmsi_diff_vp st xyz_f ∧
      cvmsi_diff_vs st (Function.update xyz_f a t) = cvmsi_diff_vs st xyz_f) ∧
    (a = 0 →
      cvmsi_diff_vp st xyz_f
        = cvmsi_interp_bilinear (xyz_f 1 - (c_int (xyz_f 1) : ℚ))
            (xyz_f 2 - (c_int (xyz_f 2) : ℚ)) 0 0 1 1
            (cvmsi_corner (fun r => r.vp) st xyz_f 0 0 0)
            (cvmsi_corner (fun r => r.vp) st xyz_f 0 1 0)
            (cvmsi_corner (fun r => r.vp) st xyz_f 0 0 1)
            (cvmsi_corner (fun r => r.vp) st xyz_f 0 1 1) ∧
      cvmsi_diff_vs st xyz_f
        = cvmsi_interp_bilinear (xyz_f 1 - (c_int (xyz_f 1) : ℚ))
            (xyz_f 2 - (c_int (xyz_f 2) : ℚ)) 0 0 1 1
            (cvmsi_corner (fun r => r.vs) st xyz_f 0 0 0)
            (cvmsi_corner (fun r => r.vs) st xyz_f 0 1 0)
            (cvmsi_corner (fun r => r.vs) st xyz_f 0 0 1)
            (cvmsi_corner (fun r => r.vs) st xyz_f 0 1 1)) ∧
    (a = 1 →
      cvmsi_diff_vp st xyz_f
        = cvmsi_interp_bilinear (xyz_f 0 - (c_int (xyz_f 0) : ℚ))
            (xyz_f 2 - (c_int (xyz_f 2) : ℚ)) 0 0 1 1
            (cvmsi_corner (fun r => r.vp) st xyz_f 0 0 0)
            (cvmsi_corner (fun r => r.vp) st xyz_f 1 0 0)
            (cvmsi_corner (fun r => r.vp) st xyz_f 0 0 1)
            (cvmsi_corner (fun r => r.vp) st xyz_f 1 0 1) ∧
      cvmsi_diff_vs st xyz_f
        = cvmsi_interp_bilinear (xyz_f 0 - (c_int (xyz_f 0) : ℚ))
            (xyz_f 2 - (c_int (xyz_f 2) : ℚ)) 0 0 1 1
            (cvmsi_corner (fun r => r.vs) st xyz_f 0 0 0)
            (cvmsi_corner (fun r => r.vs) st xyz_f 1 0 0)
            (cvmsi_corner (fun r => r.vs) st xyz_f 0 0 1)
            (cvmsi_corner (fun r => r.vs) st xyz_f 1 0 1)) ∧
    (a = 2 →
      cvmsi_diff_vp st xyz_f
        = cvmsi_interp_bilinear (xyz_f 0 - (c_int (xyz_f 0) : ℚ))
            (xyz_f 1 - (c_int (xyz_f 1) : ℚ)) 0 0 1 1
            (cvmsi_corner (fun r => r.vp) st xyz_f 0 0 0)
            (cvmsi_corner (fun r => r.vp) st xyz_f 1 0 0)
            (cvmsi_corner (fun r => r.vp) st xyz_f 0 1 0)
            (cvmsi_corner (fun r => r.vp) st xyz_f 1 1 0) ∧
      cvmsi_diff_vs st xyz_f
        = cvmsi_interp_bilinear (xyz_f 0 - (c_int (xyz_f 0) : ℚ))
            (xyz_f 1 - (c_int (xyz_f 1) : ℚ)) 0 0 1 1
            (cvmsi_corner (fun r => r.vs) st xyz_f 0 0 0)
            (cvmsi_corner (fun r => r.vs) st xyz_f 1 0 0)
            (cvmsi_corner (fun r => r.vs) st xyz_f 0 1 0)
            (cvmsi_corner (fun r => r.vs) st xyz_f 1 1 0)) := by
  have h : st.cvmsi_dim a ≤ c_int (xyz_f a) + 1 := by omega
  refine ⟨?_, ?_, ?_, ?_⟩
  · intro t ht
    rw [cvmsi_diff_vp_eq, cvmsi_diff_vp_eq, cvmsi_diff_vs_eq, cvmsi_diff_vs_eq]
    exact ⟨cvmsi_diff_collapse_update _ st xyz_f a t ht h,
      cvmsi_diff_collapse_update _ st xyz_f a t ht h⟩
  · intro h0
    subst h0
    rw [cvmsi_diff_vp_eq, cvmsi_diff_vs_eq]
    exact ⟨cvmsi_diff_collapse_x _ st xyz_f h, cvmsi_diff_collapse_x _ st xyz_f h⟩
  · intro h1
    subst h1
    rw [cvmsi_diff_vp_eq, cvmsi_diff_vs_eq]
    exact ⟨cvmsi_diff_collapse_y _ st xyz_f h, cvmsi_diff_collapse_y _ st xyz_f h⟩
  · intro h2
    subst h2
    rw [cvmsi_diff_vp_eq, cvmsi_diff_vs_eq]
    exact ⟨cvmsi_diff_collapse_z _ st xyz_f h, cvmsi_diff_collapse_z _ st xyz_f h⟩

/-- Witness of C24: the 2 x 2 x 2 grid with perturbation `(o, 2 o)` at offset
`o`, the coordinate `(1/2, 1/2, 3/2)` whose `z` base index is `1 = nz - 1`:
moving `z` to `5/4` leaves `diff_vp` and `diff_vs` unchanged. -/
theorem cvmsi_diff_boundary_witness :
    c_int ((![1 / 2, 1 / 2, 3 / 2] : Fin 3 → ℚ) 2) = ramp_state.cvmsi_dim 2 - 1 ∧
    cvmsi_diff_vp ramp_state (Function.update ![1 / 2, 1 / 2, 3 / 2] 2 (5 / 4))
      = cvmsi_diff_vp ramp_state ![1 / 2, 1 / 2, 3 / 2] ∧
    cvmsi_diff_vs ramp_state (Function.update ![1 / 2, 1 / 2, 3 / 2] 2 (5 / 4))
      = cvmsi_diff_vs ramp_state ![1 / 2, 1 / 2, 3 / 2] ∧
    cvmsi_diff_vp ramp_state ![1 / 2, 1 / 2, 3 / 2] = 11 / 2 :=
  ⟨by decide!,
    ((cvmsi_diff_boundary ramp_state ![1 / 2, 1 / 2, 3 / 2] 2 (by decide!)).1 (5 / 4)
      (by decide!)).1,
    ((cvmsi_diff_boundary ramp_state ![1 / 2, 1 / 2, 3 / 2] 2 (by decide!)).1 (5 / 4)
      (by decide!)).2,
    by decide!⟩

/-! ## Theorems: independence of the points of a batch -/

/-- The blend never reads nor writes the field `diff_rho`: the other fields
of its result do not depend on it, and it is passed through. -/
theorem cvmsi_blend_diff_rho (fl : cvmsi_flags) (vp vs rho : ℚ) (corr : cvms_calc_t)
    (a b c d e g g2 : ℚ) :
    (cvmsi_blend fl vp vs rho corr ⟨a, b, c, d, e, g⟩).vp
      = (cvmsi_blend fl vp vs rho corr ⟨a, b, c, d, e, g2⟩).vp ∧
    (cvmsi_blend fl vp vs rho corr ⟨a, b, c, d, e, g⟩).vs
      = (cvmsi_blend fl vp vs rho corr ⟨a, b, c, d, e, g2⟩).vs ∧
    (cvmsi_blend fl vp vs rho corr ⟨a, b, c, d, e, g⟩).rho
      = (cvmsi_blend fl vp vs rho corr ⟨a, b, c, d, e, g2⟩).rho ∧
    (cvmsi_blend fl vp vs rho corr ⟨a, b, c, d, e, g⟩).diff_vp
      = (cvmsi_blend fl vp vs rho corr ⟨a, b, c, d, e, g2⟩).diff_vp ∧
    (cvmsi_blend fl vp vs rho corr ⟨a, b, c, d, e, g⟩).diff_vs
      = (cvmsi_blend fl vp vs rho corr ⟨a, b, c, d, e, g2⟩).diff_vs ∧
    (cvmsi_blend fl vp vs rho corr ⟨a, b, c, d, e, g⟩).diff_rho = g := by
  unfold cvmsi_blend
  simp only []
  split_ifs <;> exact ⟨rfl, rfl, rfl, rfl, rfl, rfl⟩

/-- For a base model that answers each point independently, the record written
for point `i` of a batch agrees with the record written when that point is
queried alone in every field that `cvmsi_query` assigns (`xyz`, `vp`, `vs`,
`rho`, `diff_vp`, `diff_vs`); the field `diff_rho` holds whatever the
allocation of the record held. -/
theorem cvmsi_query_pointwise_fields (ext : cvmsi_externals) (st : cvmsi_state)
    (pnt : ℕ → cvmsi_point_t) (data data1 : ℕ → cvmsi_data_t) (numpts i : ℕ)
    (hbase : cvms_pointwise ext) (hinit : st.cvmsi_init_flag ≠ 0) (hi : i < numpts) :
    ((cvmsi_query ext st pnt data numpts).2 i).xyz
      = ((cvmsi_query ext st (fun _ => pnt i) data1 1).2 0).xyz ∧
    ((cvmsi_query ext st pnt data numpts).2 i).prop.vp
      = ((cvmsi_query ext st (fun _ => pnt i) data1 1).2 0).prop.vp ∧
    ((cvmsi_query ext st pnt data numpts).2 i).prop.vs
      = ((cvmsi_query ext st (fun _ => pnt i) data1 1).2 0).prop.vs ∧
    ((cvmsi_query ext st pnt data numpts).2 i).prop.rho
      = ((cvmsi_query ext st (fun _ => pnt i) data1 1).2 0).prop.rho ∧
    ((cvmsi_query ext st pnt data numpts).2 i).prop.diff_vp
      = ((cvmsi_query ext st (fun _ => pnt i) data1 1).2 0).prop.diff_vp ∧
    ((cvmsi_query ext st pnt data numpts).2 i).prop.diff_vs
      = ((cvmsi_query ext st (fun _ => pnt i) data1 1).2 0).prop.diff_vs ∧
    ((cvmsi_query ext st pnt data numpts).2 i).prop.diff_rho = ext.malloc_diff_rho i ∧
    ((cvmsi_query ext st (fun _ => pnt i) data1 1).2 0).prop.diff_rho
      = ext.malloc_diff_rho 0 := by
  rw [(cvmsi_query_apply ext st pnt data numpts i hinit hi).2,
    (cvmsi_query_apply ext st (fun _ => pnt i) data1 1 0 hinit Nat.one_pos).2]
  obtain ⟨hvp, hvs, hrho⟩ := hbase numpts 1 (fun k => (pnt k).coord 0)
    (fun k => (pnt k).coord 1) (cvmsdep cvmsi_build_flags pnt)
    (fun _ => (pnt i).coord 0) (fun _ => (pnt i).coord 1)
    (cvmsdep cvmsi_build_flags (fun _ => pnt i)) i 0 hi Nat.one_pos rfl rfl rfl
  have hgeo : cvmsi_geo cvmsi_build_flags ext st (fun _ => pnt i) 0
      = cvmsi_geo cvmsi_build_flags ext st pnt i := rfl
  unfold cvmsi_query_point
  simp only [build_ADD_GTL, Bool.false_eq_true, if_false, hgeo]
  unfold cvms_base
  rw [hvp, hvs, hrho]
  by_cases herr : (cvmsi_geo cvmsi_build_flags ext st pnt i).errcode = 0
  · simp only [if_pos herr]
    obtain ⟨b1, b2, b3, b4, b5, _⟩ := cvmsi_blend_diff_rho cvmsi_build_flags
      ((ext.cvms_query_ 1 (fun _ => (pnt i).coord 0) (fun _ => (pnt i).coord 1)
        (cvmsdep cvmsi_build_flags (fun _ => pnt i))).vp 0)
      ((ext.cvms_query_ 1 (fun _ => (pnt i).coord 0) (fun _ => (pnt i).coord 1)
        (cvmsdep cvmsi_build_flags (fun _ => pnt i))).vs 0)
      ((ext.cvms_query_ 1 (fun _ => (pnt i).coord 0) (fun _ => (pnt i).coord 1)
        (cvmsdep cvmsi_build_flags (fun _ => pnt i))).rho 0)
      (cvms_calc
        ((ext.cvms_query_ 1 (fun _ => (pnt i).coord 0) (fun _ => (pnt i).coord 1)
          (cvmsdep cvmsi_build_flags (fun _ => pnt i))).vp 0)
        ((ext.cvms_query_ 1 (fun _ => (pnt i).coord 0) (fun _ => (pnt i).coord 1)
          (cvmsdep cvmsi_build_flags (fun _ => pnt i))).vs 0)
        ((ext.cvms_query_ 1 (fun _ => (pnt i).coord 0) (fun _ => (pnt i).coord 1)
          (cvmsdep cvmsi_build_flags (fun _ => pnt i))).rho 0))
      0 0 0 (cvmsi_diff_vp st (cvmsi_geo cvmsi_build_flags ext st pnt i).coords)
      (cvmsi_diff_vs st (cvmsi_geo cvmsi_build_flags ext st pnt i).coords)
      (ext.malloc_diff_rho i) (ext.malloc_diff_rho 0)
    refine ⟨trivial, b1, b2, b3, b4, b5, ?_, ?_⟩
    · exact (cvmsi_blend_diff_rho _ _ _ _ _ _ _ _ _ _ _ 0).2.2.2.2.2
    · exact (cvmsi_blend_diff_rho _ _ _ _ _ _ _ _ _ _ _ 0).2.2.2.2.2
  · simp only [if_neg herr]
    refine ⟨?_, ?_, ?_, ?_, ?_, ?_, ?_, ?_⟩ <;> trivial

/-- C30 (evaluation at the failing input): a batch of two equal points
`(-118, 34, 0)` and the same point queried alone, with allocations that hold
`3 * counter + 1` in the never-assigned field `diff_rho`.  The record of the
second point of the batch has `diff_rho = 4`, the record of the point queried
alone has `diff_rho = 1`; every assigned field (`vp`, `vs`, `rho`, `diff_vp`,
`diff_vs`) is the same. -/
theorem cvmsi_query_diff_rho_unassigned :
    ((cvmsi_query stale_externals (demo_state 50 50) demo_pnt demo_data 2).2 1).prop.diff_rho
      = 4 ∧
    ((cvmsi_query stale_externals (demo_state 50 50) (fun _ => demo_pnt 1) demo_data
      1).2 0).prop.diff_rho = 1 ∧
    ((cvmsi_query stale_externals (demo_state 50 50) demo_pnt demo_data 2).2 1).prop.vp
      = ((cvmsi_query stale_externals (demo_state 50 50) (fun _ => demo_pnt 1) demo_data
          1).2 0).prop.vp ∧
    ((cvmsi_query stale_externals (demo_state 50 50) demo_pnt demo_data 2).2 1).prop.vs
      = ((cvmsi_query stale_externals (demo_state 50 50) (fun _ => demo_pnt 1) demo_data
          1).2 0).prop.vs ∧
    ((cvmsi_query stale_externals (demo_state 50 50) demo_pnt demo_data 2).2 1).prop.rho
      = ((cvmsi_query stale_externals (demo_state 50 50) (fun _ => demo_pnt 1) demo_data
          1).2 0).prop.rho ∧
    ((cvmsi_query stale_externals (demo_state 50 50) demo_pnt demo_data 2).2 1).prop.diff_vp
      = ((cvmsi_query stale_externals (demo_state 50 50) (fun _ => demo_pnt 1) demo_data
          1).2 0).prop.diff_vp ∧
    ((cvmsi_query stale_externals (demo_state 50 50) demo_pnt demo_data 2).2 1).prop.diff_vs
      = ((cvmsi_query stale_externals (demo_state 50 50) (fun _ => demo_pnt 1) demo_data
          1).2 0).prop.diff_vs := by
  decide!

/-! ## Theorems: stripping trailing whitespace -/

/-- Clearing the last character of a string gives the memory of the string without it. -/
theorem string_memory_update_snoc (below : ℕ → ℕ) (u : List ℕ) (c : ℕ) :
    Function.update (string_memory below (u ++ [c])) (u.length : ℤ) 0 = string_memory below u := by
  funext j
  unfold string_memory
  by_cases hj : j = (u.length : ℤ)
  · subst hj
    have h0 : ¬ ((u.length : ℤ) < 0) := by omega
    simp [h0]
  · rw [Function.update_noteq hj]
    by_cases hneg : j < 0
    · simp only [if_pos hneg]
    · simp only [if_neg hneg]
      push_neg at hneg
      obtain ⟨n, rfl⟩ := Int.eq_ofNat_of_zero_le hneg
      have hn : n ≠ u.length := fun h => hj (by rw [h])
      simp only [Int.toNat_ofNat]
      rcases Nat.lt_or_gt_of_ne hn with h | h
      · simp [List.getD_eq_getElem?_getD, List.getElem?_append_left h]
      · have h1 : u.length ≤ n := le_of_lt h
        have h2 : (u ++ [c]).length ≤ n := by simp; omega
        simp [List.getD_eq_getElem?_getD, List.getElem?_eq_none h1, List.getElem?_eq_none h2]

/-- The byte at `strlen - 1` of a non-empty string is its last character. -/
theorem string_memory_last (below : ℕ → ℕ) (u : List ℕ) (c : ℕ) :
    string_memory below (u ++ [c]) (((u ++ [c]).length : ℤ) - 1) = c := by
  unfold string_memory
  have h0 : ¬ ((((u ++ [c]).length : ℤ) - 1) < 0) := by simp
  rw [if_neg h0]
  simp [List.getD_eq_getElem?_getD]

/-- On a character other than NUL the test of the loop is the test for a space, a
tab or a newline. -/
theorem strchr_whitespace_of_ne_zero (c : ℕ) (hc : c ≠ 0) :
    strchr_whitespace c = (decide (c = 32) || decide (c = 9) || decide (c = 10)) := by
  unfold strchr_whitespace
  simp [hc]

/-- A trailing space, tab or newline is dropped by `strip_spec`. -/
theorem strip_spec_snoc_blank (u : List ℕ) (c : ℕ) (h0 : c ≠ 0)
    (h : strchr_whitespace c = true) : strip_spec (u ++ [c]) = strip_spec u := by
  rw [strchr_whitespace_of_ne_zero c h0] at h
  unfold strip_spec
  rw [List.reverse_append, List.reverse_singleton, List.singleton_append, List.dropWhile_cons]
  simp only [h, if_true]

/-- A string that ends in another character is left as it is by `strip_spec`. -/
theorem strip_spec_snoc_nonblank (u : List ℕ) (c : ℕ) (h0 : c ≠ 0)
    (h : strchr_whitespace c = false) : strip_spec (u ++ [c]) = u ++ [c] := by
  rw [strchr_whitespace_of_ne_zero c h0] at h
  unfold strip_spec
  rw [List.reverse_append, List.reverse_singleton, List.singleton_append, List.dropWhile_cons]
  simp only [h, Bool.false_eq_true, if_false, List.reverse_cons, List.reverse_reverse]

/-- The loop on a string that holds a character other than a space, a tab or a
newline: it exits, leaves `strip_spec s`, and reads and writes at indices `≥
0` only. -/
theorem strip_loop_nonblank (below : ℕ → ℕ) (s : List ℕ) :
    ∀ (fuel : ℕ) (rd wr : List ℤ), s.length < fuel →
      (∀ c ∈ s, c ≠ 0) →
      (∃ c ∈ s, strchr_whitespace c = false) →
      (∀ j ∈ rd, 0 ≤ j) → (∀ j ∈ wr, 0 ≤ j) →
      (strip_loop fuel ⟨string_memory below s, (s.length : ℤ), rd, wr, false⟩).exited = true ∧
      (strip_loop fuel ⟨string_memory below s, (s.length : ℤ), rd, wr, false⟩).str
        = string_memory below (strip_spec s) ∧
      (strip_loop fuel ⟨string_memory below s, (s.length : ℤ), rd, wr, false⟩).i
        = ((strip_spec s).length : ℤ) ∧
      (∀ j ∈ (strip_loop fuel ⟨string_memory below s, (s.length : ℤ), rd, wr, false⟩).reads,
        0 ≤ j) ∧
      (∀ j ∈ (strip_loop fuel ⟨string_memory below s, (s.length : ℤ), rd, wr, false⟩).writes,
        0 ≤ j) := by
  induction s using List.reverseRecOn with
  | nil =>
    intro fuel rd wr _ _ hex
    obtain ⟨c, hc, _⟩ := hex
    simp at hc
  | append_singleton u c ih =>
    intro fuel rd wr hfuel hnul hex hrd hwr
    obtain ⟨fuel, rfl⟩ : ∃ f, fuel = f + 1 := ⟨fuel - 1, by omega⟩
    have hc0 : c ≠ 0 := hnul c (by simp)
    have hnul2 : ∀ d ∈ u, d ≠ 0 := fun d hd => hnul d (List.mem_append_left _ hd)
    have hlast := string_memory_last below u c
    have hlen : (((u ++ [c]).length : ℤ) - 1) = (u.length : ℤ) := by simp
    rw [hlen] at hlast
    by_cases hc : strchr_whitespace c = true
    · have hex2 : ∃ d ∈ u, strchr_whitespace d = false := by
        obtain ⟨d, hd, hdw⟩ := hex
        rcases List.mem_append.1 hd with h | h
        · exact ⟨d, h, hdw⟩
        · simp at h
          subst h
          rw [hc] at hdw
          cases hdw
      have hstep : strip_loop (fuel + 1)
          ⟨string_memory below (u ++ [c]), ((u ++ [c]).length : ℤ), rd, wr, false⟩
          = strip_loop fuel ⟨string_memory below u, (u.length : ℤ), (u.length : ℤ) :: rd,
              (u.length : ℤ) :: wr, false⟩ := by
        rw [strip_loop]
        simp only [hlen, hlast, hc, if_true, string_memory_update_snoc]
      rw [hstep, strip_spec_snoc_blank u c hc0 hc]
      refine ih fuel _ _ ?_ hnul2 hex2 ?_ ?_
      · simp at hfuel
        omega
      · intro j hj
        rcases List.mem_cons.1 hj with h | h
        · rw [h]; exact Int.natCast_nonneg _
        · exact hrd j h
      · intro j hj
        rcases List.mem_cons.1 hj with h | h
        · rw [h]; exact Int.natCast_nonneg _
        · exact hwr j h
    · have hc2 : strchr_whitespace c = false := by
        cases h : strchr_whitespace c
        · rfl
        · exact absurd h hc
      have hstep : strip_loop (fuel + 1)
          ⟨string_memory below (u ++ [c]), ((u ++ [c]).length : ℤ), rd, wr, false⟩
          = ⟨string_memory below (u ++ [c]), ((u ++ [c]).length : ℤ), (u.length : ℤ) :: rd,
              wr, true⟩ := by
        rw [strip_loop]
        simp only [hlen, hlast, hc2, Bool.false_eq_true, if_false]
      rw [hstep, strip_spec_snoc_nonblank u c hc0 hc2]
      refine ⟨rfl, rfl, rfl, ?_, hwr⟩
      intro j hj
      rcases List.mem_cons.1 hj with h | h
      · rw [h]; exact Int.natCast_nonneg _
      · exact hrd j h

/-- On a string `s` (no NUL among its characters) that holds a character other
than a space, a tab or a newline, `cvmsi_strip_trailing_whitespace` exits
within `strlen + 1` tests, leaves the longest initial part of `s` that does
not end in a space, tab or newline, and neither reads nor writes below index
0. -/
theorem cvmsi_strip_trailing_whitespace_of_nonblank (below : ℕ → ℕ) (s : List ℕ)
    (hnul : ∀ c ∈ s, c ≠ 0) (hex : ∃ c ∈ s, c ≠ 32 ∧ c ≠ 9 ∧ c ≠ 10) :
    (cvmsi_strip_trailing_whitespace (s.length + 1) below s).exited = true ∧
    (cvmsi_strip_trailing_whitespace (s.length + 1) below s).str
      = string_memory below (strip_spec s) ∧
    (∀ j ∈ (cvmsi_strip_trailing_whitespace (s.length + 1) below s).reads, 0 ≤ j) ∧
    (∀ j ∈ (cvmsi_strip_trailing_whitespace (s.length + 1) below s).writes, 0 ≤ j) := by
  have hex2 : ∃ c ∈ s, strchr_whitespace c = false := by
    obtain ⟨c, hc, h1, h2, h3⟩ := hex
    refine ⟨c, hc, ?_⟩
    rw [strchr_whitespace_of_ne_zero c (hnul c hc)]
    simp [h1, h2, h3]
  obtain ⟨h1, h2, _, h4, h5⟩ := strip_loop_nonblank below s (s.length + 1) [] []
    (Nat.lt_succ_self _) hnul hex2 (fun j hj => by simp at hj) (fun j hj => by simp at hj)
  exact ⟨h1, h2, h4, h5⟩

/-- C25 (evaluation at the failing input): the string `"\n"` (a version file
that holds an empty line).  With the byte `'X'` just below the string, the
loop exits after reading the indices `0` and `-1`: it reads below index 0.
With a space just below the string and `'X'` below that, it also writes a NUL
at index `-1`.  The empty string reads index `-1` at once. -/
theorem cvmsi_strip_trailing_whitespace_below :
    (cvmsi_strip_trailing_whitespace 8 (fun _ => 88) [10]).exited = true ∧
    (cvmsi_strip_trailing_whitespace 8 (fun _ => 88) [10]).reads = [-1, 0] ∧
    (cvmsi_strip_trailing_whitespace 8 (fun _ => 88) [10]).writes = [0] ∧
    (cvmsi_strip_trailing_whitespace 8 (fun n => if n = 0 then 32 else 88) [10]).exited = true ∧
    (cvmsi_strip_trailing_whitespace 8 (fun n => if n = 0 then 32 else 88) [10]).reads
      = [-2, -1, 0] ∧
    (cvmsi_strip_trailing_whitespace 8 (fun n => if n = 0 then 32 else 88) [10]).writes
      = [-1, 0] ∧
    (cvmsi_strip_trailing_whitespace 8 (fun _ => 88) []).reads = [-1] := by
  decide

/-! ## Theorems: `cvmsi_init` -/

/-- At the end of the file `fgets` reads nothing and hits the end of the file. -/
theorem fgets_scan_nil (n : ℕ) (hn : 0 < n) : fgets_scan n [] = ([], [], true) := by
  obtain ⟨m, rfl⟩ : ∃ m, n = m + 1 := ⟨n - 1, by omega⟩
  rfl

/-- Reading from a non-empty rest consumes at least one byte. -/
theorem fgets_scan_rest_lt (n : ℕ) (hn : 0 < n) (c : ℕ) (r : List ℕ) :
    (fgets_scan n (c :: r)).2.1.length < (c :: r).length := by
  induction n generalizing c r with
  | zero => omega
  | succ m ih =>
    rw [fgets_scan]
    by_cases hc : c = 10
    · simp [hc]
    · simp only [if_neg hc, List.length_cons]
      cases m with
      | zero =>
        simp [fgets_scan]
      | succ k =>
        cases r with
        | nil => simp [fgets_scan]
        | cons d r2 =>
          have := ih (Nat.succ_pos k) d r2
          simp only [List.length_cons] at this ⊢
          omega

/-- A call of `fgets` on a stream with bytes left consumes at least one of them. -/
theorem fgets_rest_lt (ip : FILE_t) (h : ip.rest ≠ []) :
    (fgets 256 ip).2.rest.length < ip.rest.length := by
  obtain ⟨c, r, hcr⟩ := List.exists_cons_of_ne_nil h
  unfold fgets
  simp only [hcr]
  exact fgets_scan_rest_lt 255 (by decide) c r

/-- A call of `fgets` on a stream with no byte left sets the end-of-file indicator. -/
theorem fgets_eof_of_nil (ip : FILE_t) (h : ip.rest = []) : (fgets 256 ip).2.eof = true := by
  unfold fgets
  simp only [h, fgets_scan_nil 255 (by decide), Bool.or_true]

/-- The loop over the lines of a file has an outcome within `length + 2` iterations. -/
theorem read_lines_total {σ : Type} (body : ℕ → List ℕ → σ → Option (σ × List ℕ)) :
    ∀ (fuel : ℕ) (ip : FILE_t) (line : List ℕ) (lineno : ℕ) (st : σ),
      (ip.eof = true ∧ 1 ≤ fuel) ∨ ip.rest.length + 2 ≤ fuel →
      read_lines body fuel ip line lineno st ≠ init_result.no_result := by
  intro fuel
  induction fuel with
  | zero =>
    intro ip line lineno st h
    rcases h with h | h <;> omega
  | succ fuel ih =>
    intro ip line lineno st h
    rw [read_lines]
    by_cases heof : ip.eof = true
    · simp only [if_pos heof]
      intro hc
      cases hc
    · simp only [if_neg heof]
      have hfuel : ip.rest.length + 2 ≤ fuel + 1 := by
        rcases h with h | h
        · exact absurd h.1 heof
        · exact h
      cases hb : body lineno (((fgets 256 ip).1).getD line) st with
      | none =>
        simp only []
        intro hc
        cases hc
      | some p =>
        obtain ⟨st2, line2⟩ := p
        simp only []
        apply ih
        by_cases hr : ip.rest = []
        · left
          refine ⟨fgets_eof_of_nil ip hr, ?_⟩
          omega
        · right
          have := fgets_rest_lt ip hr
          omega
/-- From line 2 on the loop over `region_spec.in` leaves the zone as it is. -/
theorem read_lines_region_tail :
    ∀ (fuel : ℕ) (ip : FILE_t) (line : List ℕ) (lineno : ℕ) (z : ℤ), 2 ≤ lineno →
      read_lines region_body fuel ip line lineno z = init_result.no_result ∨
      ∃ l, read_lines region_body fuel ip line lineno z = init_result.done z l := by
  intro fuel
  induction fuel with
  | zero =>
    intro ip line lineno z _
    exact Or.inl rfl
  | succ fuel ih =>
    intro ip line lineno z h
    rw [read_lines]
    by_cases heof : ip.eof = true
    · simp only [if_pos heof]
      exact Or.inr ⟨line, rfl⟩
    · have hne : lineno ≠ 1 := by omega
      simp only [if_neg heof, region_body, if_neg hne]
      exact ih _ _ _ _ (by omega)

/-- When the second `fgets` succeeds and its line does not parse to a positive
zone, the loop over `region_spec.in` returns 1 or ends with a zone `≤ 0`. -/
theorem read_lines_region_bad_zone (fuel : ℕ) (content line0 l1 : List ℕ)
    (h0 : (fgets 256 ⟨content, false⟩).2.eof = false)
    (h1 : (fgets 256 (fgets 256 ⟨content, false⟩).2).1 = some l1)
    (hbad : ∀ z r, scan_d l1 = some (z, r) → z ≤ 0) :
    read_lines region_body fuel ⟨content, false⟩ line0 0 0 = init_result.no_result ∨
    read_lines region_body fuel ⟨content, false⟩ line0 0 0 = init_result.ret1 ∨
    ∃ z l, z ≤ 0 ∧
      read_lines region_body fuel ⟨content, false⟩ line0 0 0 = init_result.done z l := by
  cases fuel with
  | zero => exact Or.inl rfl
  | succ fuel =>
    rw [read_lines]
    simp only [Bool.false_eq_true, if_false, region_body, Nat.zero_ne_one, zero_add]
    cases fuel with
    | zero => exact Or.inl rfl
    | succ fuel =>
      rw [read_lines]
      simp only [h0, Bool.false_eq_true, if_false, region_body, if_true, h1, Option.getD_some]
      cases hs : scan_d l1 with
      | none => exact Or.inr (Or.inl rfl)
      | some p =>
        obtain ⟨z, r⟩ := p
        simp only []
        rcases read_lines_region_tail fuel (fgets 256 (fgets 256 ⟨content, false⟩).2).2 l1 2 z
          (le_refl 2) with h | ⟨l, h⟩
        · exact Or.inl h
        · exact Or.inr (Or.inr ⟨z, l, hbad z r hs, h⟩)

/-- When `region_spec.in` has a second line and that line does not parse as an
integer or parses to a value `≤ 0`, `cvmsi_init` returns 1. -/
theorem cvmsi_init_bad_zone (lib : init_externals) (files : cvmsi_files) (g : cvmsi_globals)
    (content l1 : List ℕ) (hfile : files.region_spec = some content)
    (h0 : (fgets 256 ⟨content, false⟩).2.eof = false)
    (h1 : (fgets 256 (fgets 256 ⟨content, false⟩).2).1 = some l1)
    (hbad : ∀ z r, scan_d l1 = some (z, r) → z ≤ 0) :
    cvmsi_init lib (some files) g = init_result.ret1 := by
  have htot := read_lines_total region_body (content.length + 2) ⟨content, false⟩ lib.line0 0 0
    (Or.inr (le_refl _))
  unfold cvmsi_init
  simp only [hfile]
  rcases read_lines_region_bad_zone (content.length + 2) content lib.line0 l1 h0 h1 hbad with
    h | h | ⟨z, l, hz, h⟩
  · exact absurd h htot
  · rw [h]
  · rw [h]
    simp only [if_pos hz]
/-- A line of fewer bytes than the buffer, newline included, is read whole and
without hitting the end of the file. -/
theorem fgets_scan_line (l : List ℕ) (hl : 10 ∉ l) :
    ∀ n, l.length < n → fgets_scan n (l ++ [10]) = (l ++ [10], [], false) := by
  induction l with
  | nil =>
    intro n hn
    obtain ⟨m, rfl⟩ : ∃ m, n = m + 1 := ⟨n - 1, by simp at hn; omega⟩
    simp [fgets_scan]
  | cons c l ih =>
    intro n hn
    obtain ⟨m, rfl⟩ : ∃ m, n = m + 1 := ⟨n - 1, by simp at hn; omega⟩
    have hc : c ≠ 10 := fun h => hl (by simp [h])
    have hl2 : 10 ∉ l := fun h => hl (List.mem_cons_of_mem _ h)
    have := ih hl2 m (by simp at hn; omega)
    rw [List.cons_append, fgets_scan, if_neg hc, this]

/-- A `region_spec.in` of the single line `l` followed by a newline: the failed
second `fgets` leaves the line in the buffer and the zone is parsed from it. -/
theorem read_lines_region_one_line (l line0 r : List ℕ) (z : ℤ) (fuel : ℕ) (hl : 10 ∉ l)
    (hlen : l.length < 255) (hs : scan_d (l ++ [10]) = some (z, r)) :
    read_lines region_body (fuel + 3) ⟨l ++ [10], false⟩ line0 0 0
      = init_result.done z (l ++ [10]) := by
  have hscan := fgets_scan_line l hl 255 hlen
  have hf1 : fgets 256 ⟨l ++ [10], false⟩ = (some (l ++ [10]), ⟨[], false⟩) := by
    unfold fgets
    simp [hscan]
  have hf2 : fgets 256 ⟨[], false⟩ = (none, ⟨[], true⟩) := by
    unfold fgets
    simp [fgets_scan]
  rw [read_lines]
  simp only [Bool.false_eq_true, if_false, region_body, Nat.zero_ne_one, zero_add, hf1,
    Option.getD_some]
  rw [read_lines]
  simp only [Bool.false_eq_true, if_false, region_body, if_true, hf2, Option.getD_none, hs]
  rw [read_lines]
  simp only [if_true]

/-- C21 (evaluation at the failing input): a `region_spec.in` that holds the
single line `"11\n"`, in an otherwise well-formed model directory.  The second
line is absent, yet `cvmsi_init` returns 0 with UTM zone 11: the `fgets` that
fails at the end of the file leaves the first line in the buffer, and that
line is parsed as line 1.  With a second line that does not parse (`"zone"`),
or parses to a value `≤ 0` (`"-3"`, `"0"`), `cvmsi_init` returns 1. -/
theorem cvmsi_init_one_line_region_spec :
    init_code (cvmsi_init demo_init_externals (some one_line_files) cvmsi_globals_zero)
      = some 0 ∧
    (init_globals (cvmsi_init demo_init_externals (some one_line_files)
      cvmsi_globals_zero)).map (fun g => (g.cvmsi_izone, g.cvmsi_init_flag)) = some (11, 1) ∧
    init_code (cvmsi_init demo_init_externals
      (some { demo_files with region_spec := some (text "cvmsi\nzone\n") })
      cvmsi_globals_zero) = some 1 ∧
    init_code (cvmsi_init demo_init_externals
      (some { demo_files with region_spec := some (text "cvmsi\n-3\n") })
      cvmsi_globals_zero) = some 1 ∧
    init_code (cvmsi_init demo_init_externals
      (some { demo_files with region_spec := some (text "cvmsi\n0\n") })
      cvmsi_globals_zero) = some 1 ∧
    init_code (cvmsi_init demo_init_externals (some demo_files) cvmsi_globals_zero)
      = some 0 := by
  decide!

/-- C22 (evaluation at the failing input): a grid file that declares
`nz = 3001` and holds the z-grid entry `3001 500`, in an otherwise well-formed
model directory.  `cvmsi_init` returns 0 with `nz = 3001 > CVMSI_MAX_ZGRID`
and stores the depth at index `3000`, outside the array.  With the z-grid
entry `0 500` it returns 0 and stores at index `-1`. -/
theorem cvmsi_init_zgrid_out_of_bounds :
    init_code (cvmsi_init demo_init_externals (some deep_files) cvmsi_globals_zero)
      = some 0 ∧
    (init_globals (cvmsi_init demo_init_externals (some deep_files)
      cvmsi_globals_zero)).map (fun g => (g.cvmsi_dim 2, g.zgrid_stores))
      = some (3001, [3000, 3000, 0]) ∧
    ¬ (3000 : ℤ) < CVMSI_MAX_ZGRID ∧
    init_code (cvmsi_init demo_init_externals (some zero_index_files) cvmsi_globals_zero)
      = some 0 ∧
    (init_globals (cvmsi_init demo_init_externals (some zero_index_files)
      cvmsi_globals_zero)).map (fun g => g.zgrid_stores) = some [-1, -1, 0] := by
  decide!

end UCVM
